import Mathlib

/-!
# chemkit: force-field evaluation and minimization engine

A shallow embedding of `src/chemkit/forcefield.cpp`, of parts of the
molecule, internal-coordinate and scalar-field classes, and of terms of
the amber, mmff and uff plugins, followed by the theorems that settle the
behaviour of the engine.

Numbers: `chemkit::Float` is embedded as an exact rational or NaN.  NaN is
absorbing for the arithmetic and makes every comparison false, as in IEEE
arithmetic; rounding and the infinities are not part of the embedding.
The terms whose derivatives are taken (amber nonbonded and torsion, uff
angle bend) are embedded over an arbitrary field of numbers instead.
Where rounding decides, the gradient, `minimizationStep` and the uff
angle-bend term are embedded a second time with every result rounded, in
particular to the nearest `double`.
-/

namespace chemkit

/-! ## Float -/

/-- The scalar type `chemkit::Float`: an exact rational value or NaN. -/
inductive Float where
  | nan : Float
  | num (q : ℚ) : Float
deriving DecidableEq

namespace Float

/-- Addition; NaN is absorbing. -/
def add : Float → Float → Float
  | num a, num b => num (a + b)
  | _, _ => nan

/-- Subtraction; NaN is absorbing. -/
def sub : Float → Float → Float
  | num a, num b => num (a - b)
  | _, _ => nan

/-- Multiplication; NaN is absorbing. -/
def mul : Float → Float → Float
  | num a, num b => num (a * b)
  | _, _ => nan

/-- Negation. -/
def neg : Float → Float
  | num a => num (-a)
  | nan => nan

/-- Division; a zero divisor gives NaN (the infinities are not embedded). -/
def div : Float → Float → Float
  | num a, num b => if b = 0 then nan else num (a / b)
  | _, _ => nan

/-- Strict comparison; false as soon as one side is NaN. -/
def lt : Float → Float → Prop
  | num a, num b => a < b
  | _, _ => False

/-- Weak comparison; false as soon as one side is NaN. -/
def le : Float → Float → Prop
  | num a, num b => a ≤ b
  | _, _ => False

instance : Zero Float := ⟨num 0⟩
instance : Add Float := ⟨add⟩
instance : Sub Float := ⟨sub⟩
instance : Mul Float := ⟨mul⟩
instance : Neg Float := ⟨neg⟩
instance : Div Float := ⟨div⟩
instance : LT Float := ⟨lt⟩
instance : LE Float := ⟨le⟩

instance decLt : (a b : Float) → Decidable (a < b)
  | num a, num b => inferInstanceAs (Decidable (a < b))
  | nan, _ => isFalse (fun h => h)
  | num _, nan => isFalse (fun h => h)

instance decLe : (a b : Float) → Decidable (a ≤ b)
  | num a, num b => inferInstanceAs (Decidable (a ≤ b))
  | nan, _ => isFalse (fun h => h)
  | num _, nan => isFalse (fun h => h)

/-- The Qt test `qIsNaN`. -/
def qIsNaN : Float → Bool
  | nan => true
  | num _ => false

/-- The Qt helper `qAbs(t)`, which is `t >= 0 ? t : -t`. -/
def qAbs : Float → Float
  | num a => num |a|
  | nan => nan

instance : AddCommMonoid Float where
  add_assoc a b c := by
    cases a <;> cases b <;> cases c <;>
      first
      | rfl
      | exact congrArg num (add_assoc _ _ _)
  zero_add a := by
    cases a
    · rfl
    · show num (0 + _) = _
      rw [zero_add]
  add_zero a := by
    cases a
    · rfl
    · show num (_ + 0) = _
      rw [add_zero]
  add_comm a b := by
    cases a <;> cases b <;>
      first
      | rfl
      | exact congrArg num (add_comm _ _)
  nsmul := nsmulRec

end Float

open Float (num nan qIsNaN qAbs)

/-! ## Vector3 and Point3 -/

/-- A three-component vector of `Float` (`StaticVector<Float, 3>`), the
common representation of `Vector3` and `Point3`. -/
structure Vector3 where
  x : Float
  y : Float
  z : Float
deriving DecidableEq

/-- The type `Point3` is the same triple of coordinates. -/
abbrev Point3 := Vector3

namespace Vector3

/-- Component-wise sum (`operator+`, `operator+=`). -/
def add (a b : Vector3) : Vector3 := ⟨a.x + b.x, a.y + b.y, a.z + b.z⟩

/-- Component-wise negation (unary `operator-`). -/
def neg (a : Vector3) : Vector3 := ⟨-a.x, -a.y, -a.z⟩

/-- Product with a scalar (`operator*`, `operator*=`). -/
def scaled (a : Vector3) (s : Float) : Vector3 := ⟨a.x * s, a.y * s, a.z * s⟩

/-- The squared length `x*x + y*y + z*z`. -/
def lengthSquared (a : Vector3) : Float := a.x * a.x + a.y * a.y + a.z * a.z

/-- `GenericPoint::moveBy(dx, dy, dz)`: adds to each coordinate. -/
def moveBy3 (p : Point3) (dx dy dz : Float) : Point3 := ⟨p.x + dx, p.y + dy, p.z + dz⟩

/-- `GenericPoint::moveBy(vector)`: `*this += vector`. -/
def moveBy (p : Point3) (v : Vector3) : Point3 := add p v

instance : Zero Vector3 := ⟨⟨0, 0, 0⟩⟩
instance : Add Vector3 := ⟨add⟩
instance : Neg Vector3 := ⟨neg⟩

instance : AddCommMonoid Vector3 where
  add_assoc a b c := by
    show add (add a b) c = add a (add b c)
    simp only [add, add_assoc]
  zero_add a := by
    show add ⟨0, 0, 0⟩ a = a
    simp only [add, zero_add]
  add_zero a := by
    show add a ⟨0, 0, 0⟩ = a
    simp only [add, add_zero]
  add_comm a b := by
    show add a b = add b a
    simp only [add, add_comm]
  nsmul := nsmulRec

end Vector3

/-! ## Force-field atoms and calculations -/

/-- The per-atom record of the engine: its position and the address of
the structural atom it stands for.  Its index is its place in the atom
list of the force field. -/
structure ForceFieldAtom where
  position : Point3
  atom : Nat

namespace ForceFieldAtom

/-- `ForceFieldAtom::setPosition`. -/
def setPosition (atom : ForceFieldAtom) (p : Point3) : ForceFieldAtom :=
  { atom with position := p }

/-- `ForceFieldAtom::moveBy(vector)`. -/
def moveBy (atom : ForceFieldAtom) (v : Vector3) : ForceFieldAtom :=
  { atom with position := atom.position.moveBy v }

/-- `ForceFieldAtom::moveBy(dx, dy, dz)`. -/
def moveBy3 (atom : ForceFieldAtom) (dx dy dz : Float) : ForceFieldAtom :=
  { atom with position := atom.position.moveBy3 dx dy dz }

end ForceFieldAtom

/-- One interaction term.  `address` is the identity of the object (the
pointer held by the force field), `atoms` lists `atom(j)->index()` for the
tuple positions `j`, `setup` is the flag written by `setSetup`, and
`energy` and `gradient` are the virtual methods, which read the atoms of
the force field. -/
structure ForceFieldCalculation where
  address : Nat
  atoms : List Nat
  setup : Bool
  energy : List ForceFieldAtom → Float
  gradient : List ForceFieldAtom → List Vector3

namespace ForceFieldCalculation

/-- `ForceFieldCalculation::isSetup`. -/
def isSetup (calculation : ForceFieldCalculation) : Bool := calculation.setup

/-- `ForceFieldCalculation::setSetup`. -/
def setSetup (calculation : ForceFieldCalculation) (setup : Bool) : ForceFieldCalculation :=
  { calculation with setup := setup }

end ForceFieldCalculation

/-- The flags of a force field (`ForceField::Flags`). -/
structure Flags where
  AnalyticalGradient : Bool

/-- The state held by `ForceFieldPrivate` that the engine reads and
writes: flags, atoms, calculations, and the molecules, each given by its
address. -/
structure ForceField where
  flags : Flags
  atoms : List ForceFieldAtom
  calculations : List ForceFieldCalculation
  molecules : List Nat := []

/-- What the engine calls outside `forcefield.cpp`: the square root, the
random source of `Vector3::randomUnitVector` (the n-th vector drawn),
`ForceFieldAtom::energy` (of the atom with the given index in the given
force field), and the order in which `QtConcurrent` hands the mapped
results to the reducer, which is some rearrangement of them. -/
structure Environment where
  sqrt : Float → Float
  randomUnitVector : Nat → Vector3
  atomEnergy : ForceField → Nat → Float
  reduceOrder : List Float → List Float
  reduceOrder_perm : ∀ results, (reduceOrder results).Perm results

/-! ## The engine: `forcefield.cpp` -/

/-- `mapEnergy` of the anonymous namespace: the energy of one
calculation. -/
def mapEnergy (atoms : List ForceFieldAtom) (calculation : ForceFieldCalculation) : Float :=
  calculation.energy atoms

/-- `reduceEnergy` of the anonymous namespace: `result += energy`. -/
def reduceEnergy (result energy : Float) : Float := result + energy

/-- `QtConcurrent::blockingMappedReduced`: every element is mapped, and
the reducer folds the mapped results, in the order the environment hands
them over, into a default-constructed (zero) result. -/
def blockingMappedReduced (env : Environment) (sequence : List ForceFieldCalculation)
    (map : ForceFieldCalculation → Float) (reduce : Float → Float → Float) : Float :=
  (env.reduceOrder (sequence.map map)).foldl reduce 0

/-- `std::remove(first, last, value)` on a vector of pointers: the
elements that differ from the value are compacted to the front in their
order, the slots behind them keep what they held, and the index of the new
logical end is returned. -/
def stdRemove (v : List ForceFieldCalculation) (value : Nat) :
    List ForceFieldCalculation × Nat :=
  let kept := v.filter (fun c => c.address != value)
  (kept ++ v.drop kept.length, kept.length)

/-- `std::vector::erase(position)`: removes the one element at the
position; erasing at the end iterator is undefined and gives `none`. -/
def vectorErase (v : List ForceFieldCalculation) (position : Nat) :
    Option (List ForceFieldCalculation) :=
  if position < v.length then some (v.eraseIdx position) else none

/-- `std::remove(first, last, value)` on the vector of molecule pointers:
the pointers that differ from the value are compacted to the front in
their order, the slots behind them keep what they held, and the index of
the new logical end is returned. -/
def stdRemoveMolecule (v : List Nat) (value : Nat) : List Nat × Nat :=
  let kept := v.filter (fun molecule => molecule != value)
  (kept ++ v.drop kept.length, kept.length)

/-- `std::vector::erase(position)` on the vector of molecule pointers:
removes the one element at the position; erasing at the end iterator is
undefined and gives `none`. -/
def vectorEraseMolecule (v : List Nat) (position : Nat) : Option (List Nat) :=
  if position < v.length then some (v.eraseIdx position) else none

/-- The loop of `ForceField::isSetup`. -/
def isSetupLoop : List ForceFieldCalculation → Bool
  | [] => true
  | calculation :: rest => if !calculation.isSetup then false else isSetupLoop rest

/-- The statement `gradient[index] += v`; an index outside the array
(undefined in the source) leaves the array as it is. -/
def addAt (gradient : List Vector3) (index : Nat) (v : Vector3) : List Vector3 :=
  match gradient[index]? with
  | some g => gradient.set index (g + v)
  | none => gradient

/-- The inner loop of `ForceField::gradient` for one calculation:
`gradient[calculation->atom(i)->index()] += atomGradients[i]` for the
positions `i` of `atomGradients` in increasing order; a position beyond
the atom tuple (undefined in the source) is skipped. -/
def accumulate (gradient : List Vector3) (calculation : ForceFieldCalculation)
    (atoms : List ForceFieldAtom) : List Vector3 :=
  (calculation.atoms.zip (calculation.gradient atoms)).foldl
    (fun g entry => addAt g entry.1 entry.2) gradient

/-- The sum that atom `i` receives from one calculation:
`calculation.gradient()[j]` over the tuple positions `j` with
`calculation.atom(j)->index() == i`. -/
def gradientContribution (calculation : ForceFieldCalculation) (atoms : List ForceFieldAtom)
    (i : Nat) : Vector3 :=
  (((List.range calculation.atoms.length).filter
      (fun j => calculation.atoms[j]? = some i)).map
    (fun j => (calculation.gradient atoms).getD j 0)).sum

/-- The first loop of an inner iteration of `minimizationStep`:
`atom->moveBy(-gradient[atomIndex] * step)` for every atom. -/
def moveAtoms : List ForceFieldAtom → List Vector3 → Float → List ForceFieldAtom
  | atom :: atoms, g :: gradient, step =>
      atom.moveBy ((-g).scaled step) :: moveAtoms atoms gradient step
  | atoms, _, _ => atoms

/-- The loop `d->atoms[atomIndex]->setPosition(initialPositions[atomIndex])`. -/
def restoreAtoms : List ForceFieldAtom → List Point3 → List ForceFieldAtom
  | atom :: atoms, p :: positions => atom.setPosition p :: restoreAtoms atoms positions
  | atoms, _ => atoms

/-- The loop of the NaN branch: every atom is put back on its saved
position and moved by the next random unit vector. -/
def wiggleAtoms (env : Environment) :
    List ForceFieldAtom → List Point3 → Nat → List ForceFieldAtom
  | atom :: atoms, p :: positions, drawn =>
      (atom.setPosition p).moveBy (env.randomUnitVector drawn) ::
        wiggleAtoms env atoms positions (drawn + 1)
  | atoms, _, _ => atoms

namespace ForceField

/-- `ForceField::atomCount`. -/
def atomCount (ff : ForceField) : Nat := ff.atoms.length

/-- `ForceField::size`. -/
def size (ff : ForceField) : Nat := ff.atomCount

/-- `ForceField::calculationCount`. -/
def calculationCount (ff : ForceField) : Nat := ff.calculations.length

/-- `ForceField::addCalculation`. -/
def addCalculation (ff : ForceField) (calculation : ForceFieldCalculation) : ForceField :=
  { ff with calculations := ff.calculations ++ [calculation] }

/-- `ForceField::removeCalculation`, given the pointer:
`erase(std::remove(begin, end, calculation))`. -/
def removeCalculation (ff : ForceField) (calculation : Nat) : Option ForceField :=
  let removed := stdRemove ff.calculations calculation
  match vectorErase removed.1 removed.2 with
  | some calculations => some { ff with calculations := calculations }
  | none => none

/-- `ForceField::addMolecule`, given the pointer: `push_back`. -/
def addMolecule (ff : ForceField) (molecule : Nat) : ForceField :=
  { ff with molecules := ff.molecules ++ [molecule] }

/-- `ForceField::removeMolecule`, given the pointer:
`erase(std::remove(begin, end, molecule))`. -/
def removeMolecule (ff : ForceField) (molecule : Nat) : Option ForceField :=
  let removed := stdRemoveMolecule ff.molecules molecule
  match vectorEraseMolecule removed.1 removed.2 with
  | some molecules => some { ff with molecules := molecules }
  | none => none

/-- `ForceField::moleculeCount`. -/
def moleculeCount (ff : ForceField) : Nat := ff.molecules.length

/-- `ForceField::isSetup`. -/
def isSetup (ff : ForceField) : Bool := isSetupLoop ff.calculations

/-- `ForceField::setCalculationSetup`, given the pointer: the object at
that address gets the flag. -/
def setCalculationSetup (ff : ForceField) (calculation : Nat) (setup : Bool) : ForceField :=
  let calculations := ff.calculations.map
    (fun c => if c.address = calculation then c.setSetup setup else c)
  { ff with calculations := calculations }

/-- The force field whose calculations carry the given setup flags, in
list order, and are the same objects otherwise. -/
def withSetupFlags (ff : ForceField) (flags : List Bool) : ForceField :=
  let calculations := List.zipWith (fun c b => c.setSetup b) ff.calculations flags
  { ff with calculations := calculations }

/-- `ForceField::energy`. -/
def energy (env : Environment) (ff : ForceField) : Float :=
  let parallelThreshold := 5000
  if ff.calculations.length < parallelThreshold then
    ff.calculations.foldl (fun energy calculation => energy + calculation.energy ff.atoms) 0
  else
    blockingMappedReduced env ff.calculations (mapEnergy ff.atoms) reduceEnergy

/-- The atom with the given index moved by `(dx, dy, dz)`. -/
def moveAtomBy3 (ff : ForceField) (index : Nat) (dx dy dz : Float) : ForceField :=
  match ff.atoms[index]? with
  | some atom => { ff with atoms := ff.atoms.set index (atom.moveBy3 dx dy dz) }
  | none => ff

/-- One pass of the loop of `ForceField::numericalGradient`, for the atom
with index `i`; the force field is threaded because the atom is moved. -/
def numericalGradientStep (env : Environment) (state : List Vector3 × ForceField) (i : Nat) :
    List Vector3 × ForceField :=
  let ff := state.2
  let eI := env.atomEnergy ff i
  let epsilon := num (1 / 10000000000)
  let ff := ff.moveAtomBy3 i epsilon 0 0
  let eF_x := env.atomEnergy ff i
  let ff := ff.moveAtomBy3 i (-epsilon) epsilon 0
  let eF_y := env.atomEnergy ff i
  let ff := ff.moveAtomBy3 i 0 (-epsilon) epsilon
  let eF_z := env.atomEnergy ff i
  let ff := ff.moveAtomBy3 i 0 0 (-epsilon)
  let dx := (eF_x - eI) / epsilon
  let dy := (eF_y - eI) / epsilon
  let dz := (eF_z - eI) / epsilon
  (state.1.set i ⟨dx, dy, dz⟩, ff)

/-- `ForceField::numericalGradient`, with the force field it leaves. -/
def numericalGradient (env : Environment) (ff : ForceField) : List Vector3 × ForceField :=
  (List.range ff.atomCount).foldl (numericalGradientStep env)
    (List.replicate ff.atomCount 0, ff)

/-- `ForceField::gradient`, with the force field it leaves. -/
def gradient (env : Environment) (ff : ForceField) : List Vector3 × ForceField :=
  if ff.flags.AnalyticalGradient then
    (ff.calculations.foldl (fun g calculation => accumulate g calculation ff.atoms)
      (List.replicate ff.atomCount 0), ff)
  else
    numericalGradient env ff

/-- `ForceField::rootMeanSquareGradient`, with the force field it
leaves. -/
def rootMeanSquareGradient (env : Environment) (ff : ForceField) : Float × ForceField :=
  if ff.size = 0 then
    (0, ff)
  else
    let result := ff.gradient env
    let sum := result.1.foldl (fun sum g => sum + g.lengthSquared) 0
    (env.sqrt (sum / (num 3 * num ff.size)), result.2)

end ForceField

/-! ## Energy minimization -/

/-- The variables of `ForceField::minimizationStep` that live across the
inner iterations: the atoms (in the force field), the gradient, the step
size, the baseline energy and the number of random vectors drawn so far.
Two more fields only record what happened: the number of inner iterations
run and the total energies evaluated, oldest first. -/
structure LineSearch where
  forceField : ForceField
  gradient : List Vector3
  step : Float
  initialEnergy : Float
  drawn : Nat
  iterations : Nat
  energies : List Float

/-- One inner iteration of `ForceField::minimizationStep`; the Boolean
tells whether the iteration left the loop through `break`. -/
def lineSearchIteration (env : Environment) (s : LineSearch) : LineSearch × Bool :=
  let stepConv := num (1 / 100000)
  let ff := s.forceField
  let initialPositions := ff.atoms.map (fun atom => atom.position)
  let moved := { ff with atoms := moveAtoms ff.atoms s.gradient s.step }
  let finalEnergy := moved.energy env
  let s := { s with iterations := s.iterations + 1, energies := s.energies ++ [finalEnergy] }
  if qIsNaN finalEnergy then
    let wiggled := { moved with atoms := wiggleAtoms env moved.atoms initialPositions s.drawn }
    let result := wiggled.gradient env
    ({ s with forceField := result.2, gradient := result.1,
              drawn := s.drawn + moved.atomCount }, false)
  else if finalEnergy < s.initialEnergy ∧ qAbs (finalEnergy - s.initialEnergy) < stepConv then
    ({ s with forceField := moved }, true)
  else if finalEnergy < s.initialEnergy then
    let step := s.step * num 2
    let step := if num 1 < step then num 1 else step
    ({ s with forceField := moved, step := step, initialEnergy := finalEnergy }, false)
  else if s.initialEnergy < finalEnergy then
    let restored := { moved with atoms := restoreAtoms moved.atoms initialPositions }
    ({ s with forceField := restored, step := s.step * num (1 / 10) }, false)
  else
    ({ s with forceField := moved }, false)

/-- The loop `for(int i = 0; i < stepCount; i++)`, given the number of
iterations that remain. -/
def lineSearchLoop (env : Environment) : Nat → LineSearch → LineSearch
  | 0, s => s
  | remaining + 1, s =>
      let result := lineSearchIteration env s
      if result.2 then result.1 else lineSearchLoop env remaining result.1

/-- What a call of `ForceField::minimizationStep` leaves: the returned
Boolean, the force field, the number of random vectors drawn so far, and
the record of the inner iterations and of the energies evaluated. -/
structure MinimizationStep where
  converged : Bool
  forceField : ForceField
  drawn : Nat
  iterations : Nat
  energies : List Float

namespace ForceField

/-- The variables of `ForceField::minimizationStep` when the inner loop
is entered: the gradient and the total energy have been computed, and
`step` is 0.05. -/
def lineSearchStart (env : Environment) (ff : ForceField) (drawn : Nat) : LineSearch :=
  let result := ff.gradient env
  let initialEnergy := result.2.energy env
  { forceField := result.2, gradient := result.1, step := num (1 / 20),
    initialEnergy := initialEnergy, drawn := drawn, iterations := 0,
    energies := [initialEnergy] }

/-- The body of `ForceField::minimizationStep` up to the exit of the
inner loop. -/
def lineSearch (env : Environment) (ff : ForceField) (drawn : Nat) : LineSearch :=
  let stepCount := 10
  lineSearchLoop env stepCount (ff.lineSearchStart env drawn)

/-- `ForceField::minimizationStep(converganceValue)`; `drawn` is the
number of random vectors drawn before the call. -/
def minimizationStep (env : Environment) (ff : ForceField) (converganceValue : Float)
    (drawn : Nat) : MinimizationStep :=
  let search := ff.lineSearch env drawn
  let rms := search.forceField.rootMeanSquareGradient env
  { converged := decide (rms.1 < converganceValue), forceField := rms.2,
    drawn := search.drawn, iterations := search.iterations, energies := search.energies }

end ForceField

/-! ## Harmonic bond-stretch terms of the amber and uff plugins -/

/-- The statements `gradient[0] *= de_dr; gradient[1] *= de_dr`. -/
def scaleFirstTwo (gradient : List Vector3) (de_dr : Float) : List Vector3 :=
  match gradient with
  | g0 :: g1 :: rest => g0.scaled de_dr :: g1.scaled de_dr :: rest
  | other => other

namespace AmberBondCalculation

/-- `AmberBondCalculation::energy`, given the parameters `kb` and `r0` and
the distance `r` of the two atoms. -/
def energy (kb r0 r : Float) : Float :=
  let dr := r - r0
  kb * (dr * dr)

/-- `AmberBondCalculation::gradient`, given the parameters, the distance
`r` of the two atoms and the vectors returned by `distanceGradient`. -/
def gradient (kb r0 r : Float) (distanceGradient : List Vector3) : List Vector3 :=
  let de_dr := num 2 * kb * (r - r0)
  scaleFirstTwo distanceGradient de_dr

end AmberBondCalculation

namespace UffBondStrechCalculation

/-- `UffBondStrechCalculation::energy`, given the parameters `kb` and `r0`
and the distance `r` of the two atoms; `pow(x, 2)` is `x * x`. -/
def energy (kb r0 r : Float) : Float :=
  num (1 / 2) * kb * ((r - r0) * (r - r0))

/-- `UffBondStrechCalculation::gradient`, given the parameters, the
distance `r` of the two atoms and the vectors returned by
`distanceGradient`. -/
def gradient (kb r0 r : Float) (distanceGradient : List Vector3) : List Vector3 :=
  let de_dr := kb * (r - r0)
  scaleFirstTwo distanceGradient de_dr

end UffBondStrechCalculation


/-! ## Constants and conversions -/

/-- The constants of `chemkit::constants` that the code multiplies with;
their values are given by the caller. -/
structure Constants where
  Pi : Float
  DegreesToRadians : Float
  RadiansToDegrees : Float

/-- The conversion of a `Float` to `int`, which truncates towards zero;
the conversion of NaN (undefined in the source) gives 0. -/
def Float.toInt : Float → Int
  | num q => if 0 ≤ q then ⌊q⌋ else ⌈q⌉
  | nan => 0

/-- The library function `floor` followed by the conversion to `int`; for
NaN (undefined in the source) it gives 0. -/
def Float.floorInt : Float → Int
  | num q => ⌊q⌋
  | nan => 0

/-- The conversion of an `int` to `Float`. -/
def Float.ofInt (n : Int) : Float := num n

/-! ## Structural atoms and molecules: `molecule.cpp` -/

/-- A structural atom: the identity of the object, the symbol and the
mass of its element, and its position. -/
structure Atom where
  address : Nat
  symbol : String
  mass : Float
  position : Point3

/-- The atoms of a molecule, in the order of `m_atoms`. -/
structure Molecule where
  atoms : List Atom

namespace Molecule

/-- `Molecule::atomCount`. -/
def atomCount (m : Molecule) : Nat := m.atoms.length

/-- `Molecule::size`. -/
def size (m : Molecule) : Nat := m.atomCount

/-- `Molecule::isEmpty`. -/
def isEmpty (m : Molecule) : Bool := m.size == 0

/-- The loop of `Molecule::centerOfMass` over the sums `sx`, `sy`, `sz`
and the sum of weights `sw`. -/
def centerOfMassLoop (sums : Float × Float × Float × Float) (atom : Atom) :
    Float × Float × Float × Float :=
  let w := atom.mass
  (sums.1 + w * atom.position.x, sums.2.1 + w * atom.position.y,
    sums.2.2.1 + w * atom.position.z, sums.2.2.2 + w)

/-- `Molecule::centerOfMass`. -/
def centerOfMass (m : Molecule) : Point3 :=
  if m.isEmpty then
    ⟨0, 0, 0⟩
  else
    let sums := m.atoms.foldl centerOfMassLoop (0, 0, 0, 0)
    let n : Int := (sums.2.2.2 * Float.ofInt m.size).toInt
    ⟨sums.1 / Float.ofInt n, sums.2.1 / Float.ofInt n, sums.2.2.1 / Float.ofInt n⟩

/-- The center of mass in the words of the specification: the
mass-weighted sum of the positions divided by the sum of the masses, and
the origin for a molecule without atoms. -/
def massWeightedMean (m : Molecule) : Point3 :=
  if m.atoms.isEmpty then
    ⟨0, 0, 0⟩
  else
    let sw := (m.atoms.map (fun atom => atom.mass)).sum
    ⟨(m.atoms.map (fun atom => atom.mass * atom.position.x)).sum / sw,
      (m.atoms.map (fun atom => atom.mass * atom.position.y)).sum / sw,
      (m.atoms.map (fun atom => atom.mass * atom.position.z)).sum / sw⟩

end Molecule

/-! ## Internal coordinates: `internalcoordinates.cpp` -/

/-- The state of `InternalCoordinatesPrivate`: the number of rows and the
arrays `connections` and `coordinates`, three entries per row. -/
structure InternalCoordinates where
  size : Nat
  connectionArray : List Int
  coordinateArray : List Float

namespace InternalCoordinates

/-- `InternalCoordinates::setCoordinatesRadians`; a failed assertion
gives `none`. -/
def setCoordinatesRadians (k : Constants) (ic : InternalCoordinates) (row : Nat)
    (r theta phi : Float) : Option InternalCoordinates :=
  if row < ic.size then
    let coordinates := ic.coordinateArray.set (row * 3 + 0) (r * k.RadiansToDegrees)
    let coordinates := coordinates.set (row * 3 + 1) (theta * k.RadiansToDegrees)
    let coordinates := coordinates.set (row * 3 + 2) (phi * k.RadiansToDegrees)
    some { ic with coordinateArray := coordinates }
  else
    none

/-- `InternalCoordinates::coordinates`; a failed assertion gives `none`,
and so does a read outside the array. -/
def coordinates (ic : InternalCoordinates) (row : Nat) : Option (List Float) :=
  if row < ic.size then
    match ic.coordinateArray[row * 3 + 0]?, ic.coordinateArray[row * 3 + 1]?,
      ic.coordinateArray[row * 3 + 2]? with
    | some r, some theta, some phi => some [r, theta, phi]
    | _, _, _ => none
  else
    none

end InternalCoordinates

/-! ## Scalar fields: `scalarfield.cpp` -/

/-- The state of `ScalarFieldPrivate`. -/
structure ScalarField where
  origin : Point3
  dimensions : List Int
  lengths : List Float
  data : List Float

namespace ScalarField

/-- `ScalarField::value(i, j, k)`: the index is taken as `unsigned int`,
that is modulo `2^32`. -/
def value (f : ScalarField) (i j k : Int) : Float :=
  let index := ((i * f.dimensions.getD 1 0 * f.dimensions.getD 2 0
    + j * f.dimensions.getD 2 0 + k) % 2 ^ 32).toNat
  if index ≥ f.data.length then 0 else f.data.getD index 0

/-- `ScalarField::value(position)`: trilinear interpolation. -/
def valueAt (f : ScalarField) (position : Point3) : Float :=
  let x := position.x
  let y := position.y
  let z := position.z
  let i := (x / f.lengths.getD 0 nan).floorInt
  let xd := x / f.lengths.getD 0 nan - Float.ofInt i
  let j := (y / f.lengths.getD 1 nan).floorInt
  let yd := y / f.lengths.getD 1 nan - Float.ofInt j
  let k := (z / f.lengths.getD 2 nan).floorInt
  let zd := z / f.lengths.getD 2 nan - Float.ofInt k
  let i1 := f.value (i + 0) (j + 0) (k + 0) * (num 1 - zd) + f.value (i + 0) (j + 0) (k + 1) * zd
  let i2 := f.value (i + 0) (j + 1) (k + 0) * (num 1 - zd) + f.value (i + 0) (j + 1) (k + 1) * zd
  let j1 := f.value (i + 1) (j + 0) (k + 0) * (num 1 - zd) + f.value (i + 1) (j + 0) (k + 1) * zd
  let j2 := f.value (i + 1) (j + 1) (k + 0) * (num 1 - zd) + f.value (i + 1) (j + 1) (k + 1) * zd
  let w1 := i1 * (num 1 - yd) + i2 * yd
  let w2 := j1 * (num 1 - yd) + j2 * yd
  w1 * (num 1 - xd) + w2 * xd

/-- `ScalarField::gradient(position)`. -/
def gradient (f : ScalarField) (position : Point3) : Vector3 :=
  let h := num (1 / 10000)
  ⟨(f.valueAt (position.moveBy3 (-h) 0 0) - f.valueAt (position.moveBy3 h 0 0)) / (num 2 * h),
    (f.valueAt (position.moveBy3 0 (-h) 0) - f.valueAt (position.moveBy3 0 h 0)) / (num 2 * h),
    (f.valueAt (position.moveBy3 0 0 (-h)) - f.valueAt (position.moveBy3 0 0 h)) / (num 2 * h)⟩

/-- The gradient in the words of the specification: the central
difference `(value(p + h e) - value(p - h e)) / (2 h)` along each axis,
with `h = 1e-4`. -/
def centralDifference (f : ScalarField) (position : Point3) : Vector3 :=
  let h := num (1 / 10000)
  ⟨(f.valueAt (position.moveBy3 h 0 0) - f.valueAt (position.moveBy3 (-h) 0 0)) / (num 2 * h),
    (f.valueAt (position.moveBy3 0 h 0) - f.valueAt (position.moveBy3 0 (-h) 0)) / (num 2 * h),
    (f.valueAt (position.moveBy3 0 0 h) - f.valueAt (position.moveBy3 0 0 (-h))) / (num 2 * h)⟩

end ScalarField


/-! ## The mmff force field: `mmffforcefield.cpp` -/

namespace MmffForceField

/-- One pass of the last loop of `MmffForceField::setup`: the
calculation is set up, a failure clears `ok`, and the result is recorded
with `setCalculationSetup`.  `setup` gives the result of
`setup(m_parameters)` for the calculation at an address. -/
def setupLoop (setup : Nat → Bool) (state : Bool × ForceField)
    (calculation : ForceFieldCalculation) : Bool × ForceField :=
  let result := setup calculation.address
  let ok := if !result then false else state.1
  (ok, state.2.setCalculationSetup calculation.address result)

/-- `MmffForceField::setup`.  `stale` is the test `!m_parameters ||
m_parameters->fileName() != parameterFile()`, `readOk` the result of
reading the parameter file, `atoms` and `calculations` are the objects
the typer and the interaction enumerator lead the method to create for
the molecules, in the order they are added. -/
def setup (stale readOk : Bool) (setup : Nat → Bool) (ff : ForceField)
    (atoms : List ForceFieldAtom) (calculations : List ForceFieldCalculation) :
    Bool × ForceField :=
  if stale && !readOk then
    (false, ff)
  else
    let ff := { ff with atoms := ff.atoms ++ atoms,
                        calculations := ff.calculations ++ calculations }
    ff.calculations.foldl (setupLoop setup) (true, ff)

end MmffForceField


/-! ## Coordinate synchronization: `forcefield.cpp` -/

/-- The loop of `ForceField::atom(const Atom *)`: the index, counted from
`index` for the head of the list, of the first force-field atom that
stands for the structural atom at the address. -/
def atomLoop (atom : Nat) : List ForceFieldAtom → Nat → Option Nat
  | [], _ => none
  | forceFieldAtom :: rest, index =>
      if forceFieldAtom.atom = atom then some index else atomLoop atom rest (index + 1)

namespace ForceField

/-- `ForceField::atom(const Atom *)`: the index of the force-field atom
that represents the atom, or `none` for the null pointer. -/
def atom (ff : ForceField) (atom : Nat) : Option Nat := atomLoop atom ff.atoms 0

/-- `ForceField::readCoordinates(const Atom *)`. -/
def readCoordinatesAtom (ff : ForceField) (atom : Atom) : ForceField :=
  match ff.atom atom.address with
  | some index =>
      match ff.atoms[index]? with
      | some forceFieldAtom =>
          let atoms := ff.atoms.set index (forceFieldAtom.setPosition atom.position)
          { ff with atoms := atoms }
      | none => ff
  | none => ff

/-- `ForceField::readCoordinates(const Molecule *)`. -/
def readCoordinates (ff : ForceField) (molecule : Molecule) : ForceField :=
  molecule.atoms.foldl readCoordinatesAtom ff

/-- `ForceField::writeCoordinates(Atom *)`: the atom as the call leaves
it. -/
def writeCoordinatesAtom (ff : ForceField) (atom : Atom) : Atom :=
  match ff.atom atom.address with
  | some index =>
      match ff.atoms[index]? with
      | some forceFieldAtom => { atom with position := forceFieldAtom.position }
      | none => atom
  | none => atom

/-- `ForceField::writeCoordinates(Molecule *)`: the molecule as the call
leaves it. -/
def writeCoordinates (ff : ForceField) (molecule : Molecule) : Molecule :=
  let atoms := molecule.atoms.map ff.writeCoordinatesAtom
  { molecule with atoms := atoms }

end ForceField


/-! ## Geometry of points: `genericpoint-inline.h` -/

namespace Vector3

/-- Component-wise difference (`operator-`). -/
def sub (a b : Vector3) : Vector3 := ⟨a.x - b.x, a.y - b.y, a.z - b.z⟩

instance : Sub Vector3 := ⟨sub⟩

/-- Modelled from the spec: `StaticVector::dot`, whose header is not under
src; the scalar product of two vectors. -/
def dot (a b : Vector3) : Float := a.x * b.x + a.y * b.y + a.z * b.z

/-- Modelled from the spec: `StaticVector::cross`, whose header is not
under src; the vector product of two vectors. -/
def cross (a b : Vector3) : Vector3 :=
  ⟨a.y * b.z - a.z * b.y, a.z * b.x - a.x * b.z, a.x * b.y - a.y * b.x⟩

/-- Modelled from the spec: `StaticVector::length`, whose header is not
under src; the square root of the squared length. -/
def length (sqrt : Float → Float) (a : Vector3) : Float := sqrt a.lengthSquared

/-- Modelled from the spec: `StaticVector::normalized` and `normalize`,
whose header is not under src; the vector divided by its length. -/
def normalized (sqrt : Float → Float) (a : Vector3) : Vector3 :=
  ⟨a.x / a.length sqrt, a.y / a.length sqrt, a.z / a.length sqrt⟩

end Vector3

/-- `GenericPoint::wilsonAngleRadians`, given the library functions
`sqrt` and `acos` and the constants. -/
def wilsonAngleRadians (sqrt acos : Float → Float) (k : Constants) (a b c d : Point3) : Float :=
  let normal := ((b - a).cross (c - b)).normalized sqrt
  let bd := (d - b).normalized sqrt
  let angle := acos (bd.dot normal)
  k.Pi * num (1 / 2) - angle

/-- `GenericPoint::wilsonAngle`. -/
def wilsonAngle (sqrt acos : Float → Float) (k : Constants) (a b c d : Point3) : Float :=
  wilsonAngleRadians sqrt acos k a b c d * k.RadiansToDegrees

/-- The Wilson angle in the words of the documentation of
`Molecule::wilsonAngle`: the angle between the plane of `a`, `b`, `c` and
the vector from `c` to `d`, as `Pi / 2` minus the angle between that
vector and the unit normal `(b - a) x (c - b)`. -/
def wilsonAngleFromThird (sqrt acos : Float → Float) (k : Constants) (a b c d : Point3) :
    Float :=
  let normal := ((b - a).cross (c - b)).normalized sqrt
  let cd := (d - c).normalized sqrt
  k.Pi * num (1 / 2) - acos (cd.dot normal)

/-- The Wilson angle with the vector from the second point: `Pi / 2` minus
the angle between the vector from `b` to `d` and the normal
`(b - a) x (c - b)` of the plane of `a`, `b`, `c`, the angle between two
vectors being the arc cosine of their scalar product over the product of
their lengths. -/
def wilsonAngleFromSecond (sqrt acos : Float → Float) (k : Constants) (a b c d : Point3) :
    Float :=
  let normal := (b - a).cross (c - b)
  let bd := d - b
  k.Pi * num (1 / 2) - acos (bd.dot normal / (bd.length sqrt * normal.length sqrt))


/-! ## The formula of a molecule: `molecule.cpp` -/

/-- The statement `composition[symbol]++` on the
`std::map<std::string, int>`, which is held as the list of its entries in
increasing order of the keys. -/
def mapIncrement (symbol : String) : List (String × Nat) → List (String × Nat)
  | [] => [(symbol, 1)]
  | (key, n) :: rest =>
      if symbol < key then (symbol, 1) :: (key, n) :: rest
      else if symbol = key then (key, n + 1) :: rest
      else (key, n) :: mapIncrement symbol rest

/-- The test `composition.count(key) != 0`. -/
def mapContains (key : String) (composition : List (String × Nat)) : Bool :=
  (composition.lookup key).isSome

/-- The value `composition[key]` of a key. -/
def mapValue (key : String) (composition : List (String × Nat)) : Nat :=
  (composition.lookup key).getD 0

/-- The statement `composition.erase(key)`. -/
def mapErase (key : String) (composition : List (String × Nat)) : List (String × Nat) :=
  composition.filter (fun entry => entry.1 != key)

/-- The statements `formula << symbol` and, when the count is greater
than 1, `formula << count`. -/
def writeEntry (formula : String) (symbol : String) (count : Nat) : String :=
  let formula := formula ++ symbol
  if count > 1 then formula ++ toString count else formula

/-- `Molecule::formula`. -/
def Molecule.formula (m : Molecule) : String :=
  let composition :=
    m.atoms.foldl (fun composition atom => mapIncrement atom.symbol composition) []
  let state : String × List (String × Nat) :=
    if mapContains "C" composition then
      let formula := writeEntry "" "C" (mapValue "C" composition)
      let composition := mapErase "C" composition
      let formula :=
        if mapContains "H" composition then writeEntry formula "H" (mapValue "H" composition)
        else formula
      (formula, mapErase "H" composition)
    else
      ("", composition)
  state.2.foldl (fun formula entry => writeEntry formula entry.1 entry.2) state.1

/-- The order of the symbols in the Hill system: with carbon, `C` first,
then `H` if present, then the other symbols in alphabetical order;
without carbon, all symbols in alphabetical order. -/
def hillOrder (symbols : List String) : List String :=
  let sorted := symbols.dedup.insertionSort (fun a b => a ≤ b)
  if "C" ∈ symbols then
    "C" :: ((if "H" ∈ symbols then ["H"] else [])
      ++ sorted.filter (fun s => s != "H" && s != "C"))
  else
    sorted

/-- The Hill-system formula of a list of element symbols, one per atom:
the symbols in Hill order, each followed by the number of its atoms when
that number is greater than 1. -/
def hillFormula (symbols : List String) : String :=
  String.join ((hillOrder symbols).map
    (fun s => s ++ (if symbols.count s > 1 then toString (symbols.count s) else "")))

/-! ## The course of the inner loop of `minimizationStep` -/

/-- The value of `finalEnergy` in the inner iteration that starts from
`s`: the total energy after the atoms have been moved. -/
def lineSearchFinalEnergy (env : Environment) (s : LineSearch) : Float :=
  ForceField.energy env
    { s.forceField with atoms := moveAtoms s.forceField.atoms s.gradient s.step }

/-- The inner iteration that starts from `s` lowers the energy without
meeting the stop criterion: `finalEnergy` is not NaN, the test
`finalEnergy < initialEnergy && std::abs(finalEnergy - initialEnergy) < stepConv`
fails and the test `finalEnergy < initialEnergy` holds. -/
def lineSearchLowers (env : Environment) (s : LineSearch) : Prop :=
  qIsNaN (lineSearchFinalEnergy env s) = false
    ∧ lineSearchFinalEnergy env s < s.initialEnergy
    ∧ ¬ (qAbs (lineSearchFinalEnergy env s - s.initialEnergy) < num (1 / 100000))

/-- The variables after `count` further inner iterations. -/
def lineSearchAfter (env : Environment) : Nat → LineSearch → LineSearch
  | 0, s => s
  | count + 1, s => lineSearchAfter env count (lineSearchIteration env s).1

/-! ## Forward differences -/

/-- The forward differences of the energy of the atom with index `i`: the
energy with that atom moved from its position by `epsilon = 1e-10` along
one axis, minus the energy at the position itself, divided by `epsilon`,
for each of the three axes. -/
def ForceField.forwardDifference (env : Environment) (ff : ForceField) (i : Nat) : Vector3 :=
  let epsilon := num (1 / 10000000000)
  ⟨(env.atomEnergy (ff.moveAtomBy3 i epsilon 0 0) i - env.atomEnergy ff i) / epsilon,
    (env.atomEnergy (ff.moveAtomBy3 i 0 epsilon 0) i - env.atomEnergy ff i) / epsilon,
    (env.atomEnergy (ff.moveAtomBy3 i 0 0 epsilon) i - env.atomEnergy ff i) / epsilon⟩

/-! ## Internal coordinates to cartesian coordinates: `internalcoordinates.cpp` -/

/-- `InternalCoordinates::connections`; a failed assertion gives `none`,
and so does a read outside the array. -/
def InternalCoordinates.connections (ic : InternalCoordinates) (row : Nat) :
    Option (List Int) :=
  if row < ic.size then
    match ic.connectionArray[row * 3 + 0]?, ic.connectionArray[row * 3 + 1]?,
      ic.connectionArray[row * 3 + 2]? with
    | some a, some b, some c => some [a, b, c]
    | _, _, _ => none
  else
    none

namespace Coordinates

/-- Modelled from the spec: `Coordinates(size)`, whose source is not under
src; an array of `size` positions, taken to be the origin. -/
def create (size : Nat) : List Point3 := List.replicate size ⟨num 0, num 0, num 0⟩

/-- Modelled from the spec: `Coordinates::setPosition`, whose source is
not under src; the position at the index is replaced, and an index outside
the array gives `none`. -/
def setPosition (coordinates : List Point3) (index : Nat) (position : Point3) :
    Option (List Point3) :=
  if index < coordinates.length then some (coordinates.set index position) else none

/-- Modelled from the spec: `Coordinates::position`, whose source is not
under src; the position at the index, and `none` for an index outside the
array. -/
def position (coordinates : List Point3) (index : Int) : Option Point3 :=
  if 0 ≤ index then coordinates[index.toNat]? else none

end Coordinates

/-- Modelled from the spec: `StaticMatrix::multiply` for a matrix of three
rows and a point, the header being not under src; the product of the
matrix with the column of the coordinates. -/
def StaticMatrix.multiply (row0 row1 row2 : Vector3) (p : Point3) : Point3 :=
  ⟨row0.dot p, row1.dot p, row2.dot p⟩

namespace InternalCoordinates

/-- The block `set positions for the first three atoms` of
`InternalCoordinates::toCartesianCoordinates`. -/
def toCartesianFirstThree (k : Constants) (cos sin : Float → Float) (ic : InternalCoordinates)
    (cartesianCoordinates : List Point3) : Option (List Point3) :=
  if ic.size ≥ 0 then
    match Coordinates.setPosition cartesianCoordinates 0 ⟨num 0, num 0, num 0⟩ with
    | none => none
    | some cartesianCoordinates =>
      if ic.size ≥ 1 then
        match ic.coordinates 1 with
        | none => none
        | some row1 =>
          let r1 := row1.getD 0 nan
          match Coordinates.setPosition cartesianCoordinates 1 ⟨r1, num 0, num 0⟩ with
          | none => none
          | some cartesianCoordinates =>
            if ic.size ≥ 2 then
              match ic.coordinates 2 with
              | none => none
              | some row2 =>
                let r2 := row2.getD 0 nan
                let theta := row2.getD 1 nan
                let x := r2 * cos ((num 180 - theta) * k.DegreesToRadians)
                let y := r2 * sin ((num 180 - theta) * k.DegreesToRadians)
                Coordinates.setPosition cartesianCoordinates 2 ⟨r1 + x, y, num 0⟩
            else
              some cartesianCoordinates
      else
        some cartesianCoordinates
  else
    some cartesianCoordinates

/-- The body of the loop `set positions for the rest of the atoms` of
`InternalCoordinates::toCartesianCoordinates` for the row `i`. -/
def toCartesianRow (k : Constants) (sqrt cos sin : Float → Float) (ic : InternalCoordinates)
    (cartesianCoordinates : List Point3) (i : Nat) : Option (List Point3) :=
  match ic.coordinates i with
  | none => none
  | some coordinates =>
    let r := coordinates.getD 0 nan
    let theta := coordinates.getD 1 nan
    let phi := coordinates.getD 2 nan
    let sinTheta := sin (theta * k.DegreesToRadians)
    let cosTheta := cos (theta * k.DegreesToRadians)
    let sinPhi := sin (phi * k.DegreesToRadians)
    let cosPhi := cos (phi * k.DegreesToRadians)
    let x := r * cosTheta
    let y := r * cosPhi * sinTheta
    let z := r * sinPhi * sinTheta
    match ic.connections i with
    | none => none
    | some connections =>
      match Coordinates.position cartesianCoordinates (connections.getD 2 0),
        Coordinates.position cartesianCoordinates (connections.getD 1 0),
        Coordinates.position cartesianCoordinates (connections.getD 0 0) with
      | some a, some b, some c =>
        let ab := b - a
        let bc := (c - b).normalized sqrt
        let n := (ab.cross bc).normalized sqrt
        let ncbc := n.cross bc
        let d := StaticMatrix.multiply ⟨bc.x, ncbc.x, n.x⟩ ⟨bc.y, ncbc.y, n.y⟩
          ⟨bc.z, ncbc.z, n.z⟩ ⟨-x, y, z⟩ + c
        Coordinates.setPosition cartesianCoordinates i d
      | _, _, _ => none

/-- The loop `for(int i = 3; i < d->size; i++)`, given the row to start
with and the number of rows that remain. -/
def toCartesianLoop (k : Constants) (sqrt cos sin : Float → Float) (ic : InternalCoordinates) :
    Nat → Nat → List Point3 → Option (List Point3)
  | _, 0, cartesianCoordinates => some cartesianCoordinates
  | i, remaining + 1, cartesianCoordinates =>
      match toCartesianRow k sqrt cos sin ic cartesianCoordinates i with
      | none => none
      | some cartesianCoordinates =>
          toCartesianLoop k sqrt cos sin ic (i + 1) remaining cartesianCoordinates

/-- `InternalCoordinates::toCartesianCoordinates`; a failed assertion
gives `none`, and so does an access outside an array. -/
def toCartesianCoordinates (k : Constants) (sqrt cos sin : Float → Float)
    (ic : InternalCoordinates) : Option (List Point3) :=
  match toCartesianFirstThree k cos sin ic (Coordinates.create ic.size) with
  | none => none
  | some cartesianCoordinates =>
      toCartesianLoop k sqrt cos sin ic 3 (ic.size - 3) cartesianCoordinates

end InternalCoordinates

/-! ## The torsion term of the uff plugin: `uffcalculation.cpp` -/

/-- The fields of `UffAtomParameters` that the torsion term reads. -/
structure UffAtomParameters where
  V : Float
  U : Float

/-- What `UffTorsionCalculation::setup` reads of one of the two middle
atoms: the type string, the answer of `UffForceField::isGroupSix`, whether
the atom is an oxygen, and the parameters of its type. -/
structure UffTorsionAtom where
  type : List Char
  isGroupSix : Bool
  isOxygen : Bool
  parameters : UffAtomParameters

namespace UffTorsionCalculation

/-- `UffTorsionCalculation::setup`, given the two middle atoms and their
bond order: `none` stands for `return false`, and `some [V, n, phi0]` for
`return true` with these values in the parameters 0, 1 and 2. -/
def setup (k : Constants) (sqrt log : Float → Float) (bondorder : Float)
    (b c : UffTorsionAtom) : Option (List Float) :=
  if b.type.length < 3 ∨ c.type.length < 3 then
    none
  else
    let pb := b.parameters
    let pc := c.parameters
    if b.type[2]? = some '3' ∧ c.type[2]? = some '3' then
      if b.isGroupSix ∧ c.isGroupSix then
        let V :=
          if b.isOxygen ∧ c.isOxygen then
            num 2
          else if b.isOxygen ∨ c.isOxygen then
            sqrt (num 2 * num (34 / 5))
          else
            sqrt (num (34 / 5) * num (34 / 5))
        some [V, num 2, num 90]
      else
        some [sqrt (pb.V * pc.V), num 3, num 180 * k.DegreesToRadians]
    else if (b.type[2]? = some '2' ∨ b.type[2]? = some 'R')
        ∧ (c.type[2]? = some '2' ∨ c.type[2]? = some 'R') then
      some [num 5 * sqrt (pb.U * pc.U) * (num 1 + num (209 / 50) * log bondorder), num 2,
        num 180 * k.DegreesToRadians]
    else if (b.isGroupSix ∧ (c.type[2]? = some '2' ∨ c.type[2]? = some 'R'))
        ∨ (c.isGroupSix ∧ (b.type[2]? = some '2' ∨ b.type[2]? = some 'R')) then
      some [num 5 * sqrt (pb.U * pc.U) * (num 1 + num (209 / 50) * log bondorder), num 2,
        num 90 * k.DegreesToRadians]
    else if (b.type[2]? = some '3' ∧ (c.type[2]? = some '2' ∨ c.type[2]? = some 'R'))
        ∨ (c.type[2]? = some '3' ∧ (b.type[2]? = some '2' ∨ b.type[2]? = some 'R')) then
      some [num 1, num 6, num 0]
    else
      none

/-- `UffTorsionCalculation::energy`, given the parameters and the torsion
angle `phi` in radians. -/
def energy (cos : Float → Float) (V n phi0 phi : Float) : Float :=
  num (1 / 2) * V * (num 1 - cos (n * phi0) * cos (n * phi))

/-- The scalar `de_dphi` of `UffTorsionCalculation::gradient`, given the
parameters and the torsion angle `phi` in radians. -/
def de_dphi (cos sin : Float → Float) (V n phi0 phi : Float) : Float :=
  num (1 / 2) * V * n * cos (n * phi0) * sin (n * phi)

end UffTorsionCalculation

/-! ## Nonbonded and torsion terms of the amber plugin, angle-bend term of the uff plugin

The expressions of these terms are embedded over an arbitrary field `F`
of numbers, with the library functions `cos` and `sin` and the constants
as parameters: over the rationals they can be evaluated, over the reals
they have derivatives. -/

/-- The statements `gradient[0] *= s; gradient[1] *= s` on vectors given
by their three coordinates. -/
def scaleFirstTwoOver {F : Type} [Field F] (gradient : List (F × F × F)) (s : F) :
    List (F × F × F) :=
  match gradient with
  | g0 :: g1 :: rest =>
      (g0.1 * s, g0.2.1 * s, g0.2.2 * s) :: (g1.1 * s, g1.2.1 * s, g1.2.2 * s) :: rest
  | other => other

namespace AmberNonbondedCalculation

/-- `AmberNonbondedCalculation::energy`, given the parameters `epsilon`
and `sigma`, the charges `qa` and `qb` of the two atoms and their distance
`r`. -/
def energy {F : Type} [Field F] (Pi epsilon sigma qa qb r : F) : F :=
  let e0 : F := 1
  let vanDerWaalsTerm := epsilon * ((sigma / r) ^ 12 - 2 * (sigma / r) ^ 6)
  let electrostaticTerm := (qa * qb) / (4 * Pi * e0 * r)
  vanDerWaalsTerm + electrostaticTerm

/-- The scalar `de_dr` of `AmberNonbondedCalculation::gradient`. -/
def de_dr {F : Type} [Field F] (Pi epsilon sigma qa qb r : F) : F :=
  let e0 : F := 1
  let pi := Pi
  let sr := sigma / r
  (-12 * epsilon * sigma / r ^ 2 * (sr ^ 11 - sr ^ 5)) - ((qa * qb) / (4 * pi * e0 * r ^ 2))

/-- `AmberNonbondedCalculation::gradient`, given also the result of
`distanceGradient(a, b)`. -/
def gradient {F : Type} [Field F] (distanceGradient : List (F × F × F))
    (Pi epsilon sigma qa qb r : F) : List (F × F × F) :=
  scaleFirstTwoOver distanceGradient (de_dr Pi epsilon sigma qa qb r)

end AmberNonbondedCalculation

namespace AmberTorsionCalculation

/-- `AmberTorsionCalculation::energy`, given the eight parameters and the
torsion angle in degrees. -/
def energy {F : Type} [Field F] (cos : F → F) (DegreesToRadians : F)
    (V1 V2 V3 V4 gamma1 gamma2 gamma3 gamma4 angle : F) : F :=
  let energy : F := 0
  let energy := energy + V1 * (1 + cos ((1 * angle - gamma1) * DegreesToRadians))
  let energy := energy + V2 * (1 + cos ((2 * angle - gamma2) * DegreesToRadians))
  let energy := energy + V3 * (1 + cos ((3 * angle - gamma3) * DegreesToRadians))
  let energy := energy + V4 * (1 + cos ((4 * angle - gamma4) * DegreesToRadians))
  energy

/-- The scalar `de_dphi` of `AmberTorsionCalculation::gradient`, given the
eight parameters and the torsion angle `phi` in degrees. -/
def de_dphi {F : Type} [Field F] (sin : F → F) (DegreesToRadians : F)
    (V1 V2 V3 V4 gamma1 gamma2 gamma3 gamma4 phi : F) : F :=
  let de_dphi : F := 0
  let de_dphi := de_dphi + V1 * (-sin ((1 * phi - gamma1) * DegreesToRadians) * 1)
  let de_dphi := de_dphi + V2 * (-sin ((2 * phi - gamma2) * DegreesToRadians) * 2)
  let de_dphi := de_dphi + V3 * (-sin ((3 * phi - gamma3) * DegreesToRadians) * 3)
  let de_dphi := de_dphi + V4 * (-sin ((4 * phi - gamma4) * DegreesToRadians) * 4)
  let de_dphi := de_dphi * DegreesToRadians
  de_dphi

end AmberTorsionCalculation

namespace UffAngleBendCalculation

/-- The coefficients `c0`, `c1` and `c2` that
`UffAngleBendCalculation::setup` stores in the parameters 1, 2 and 3,
given the angle `theta0`. -/
def coefficients {F : Type} [Field F] (cos sin : F → F) (theta0 : F) : F × F × F :=
  let c2 := 1 / (4 * sin theta0 ^ 2)
  let c1 := -4 * c2 * cos theta0
  let c0 := c2 * (2 * cos theta0 ^ 2 + 1)
  (c0, c1, c2)

/-- `UffAngleBendCalculation::energy`, given the parameters and the bond
angle `theta` in radians. -/
def energy {F : Type} [Field F] (cos : F → F) (ka c0 c1 c2 theta : F) : F :=
  ka * (c0 + (c1 * cos theta) + (c2 * cos (2 * theta)))

/-- The scalar `de_dtheta` of `UffAngleBendCalculation::gradient`, given
the parameters and the bond angle `theta` in radians. -/
def de_dtheta {F : Type} [Field F] (sin : F → F) (ka c1 c2 theta : F) : F :=
  -ka * (c1 * sin theta + 2 * c2 * sin (2 * theta))

end UffAngleBendCalculation

/-! ## IEEE double arithmetic

The rounding of the machine, for the inputs on which rounding decides: a
result is replaced by the nearest number whose significand has 53 binary
digits, a tie going to the even significand.  The bounds of the exponent
(overflow, subnormal numbers) and the sign of zero are not embedded. -/

/-- The power `2^e` for an integer `e`. -/
def twoPow (e : Int) : ℚ :=
  if 0 ≤ e then ((2 ^ e.toNat : Nat) : ℚ) else 1 / ((2 ^ (-e).toNat : Nat) : ℚ)

/-- The number of binary digits of `n`, counted with the given fuel. -/
def binaryDigits : Nat → Nat → Nat
  | 0, _ => 0
  | fuel + 1, n => if n = 0 then 0 else binaryDigits fuel (n / 2) + 1

/-- The exponent `e` with `2^e ≤ |q| < 2^(e+1)` of a nonzero `q` below
`2^4096` in numerator and denominator. -/
def binaryExponent (q : ℚ) : Int :=
  let a := |q|
  let estimate : Int := (binaryDigits 4096 a.num.natAbs : Int) - (binaryDigits 4096 a.den : Int)
  if twoPow estimate ≤ a then estimate else estimate - 1

/-- The nearest integer, a tie going to the even one. -/
def roundHalfEven (x : ℚ) : Int :=
  let f := ⌊x⌋
  let r := x - f
  if r < 1 / 2 then f else if 1 / 2 < r then f + 1 else if f % 2 = 0 then f else f + 1

/-- The nearest `double`: the significand is rounded to 53 binary
digits. -/
def roundDouble (q : ℚ) : ℚ :=
  if q = 0 then 0
  else
    let e := binaryExponent q - 52
    (roundHalfEven (q / twoPow e) : ℚ) * twoPow e

/-- The result of an operation after rounding; NaN stays NaN. -/
def Float.rounded (round : ℚ → ℚ) : Float → Float
  | num q => num (round q)
  | nan => nan

/-! ## The engine in rounded arithmetic: `forcefield.cpp`

The gradient and `minimizationStep` once more, with the result of every
operation on `chemkit::Float` and every constant rounded by `round`: with
the identity this is the embedding above, with `roundDouble` it is the
arithmetic of the machine. -/

namespace Rounded

/-- Component-wise sum (`operator+`, `operator+=`). -/
def Vector3.add (round : ℚ → ℚ) (a b : Vector3) : Vector3 :=
  ⟨(a.x + b.x).rounded round, (a.y + b.y).rounded round, (a.z + b.z).rounded round⟩

/-- Product with a scalar (`operator*`). -/
def Vector3.scaled (round : ℚ → ℚ) (a : Vector3) (s : Float) : Vector3 :=
  ⟨(a.x * s).rounded round, (a.y * s).rounded round, (a.z * s).rounded round⟩

/-- The squared length `x*x + y*y + z*z`. -/
def Vector3.lengthSquared (round : ℚ → ℚ) (a : Vector3) : Float :=
  (((a.x * a.x).rounded round + (a.y * a.y).rounded round).rounded round
    + (a.z * a.z).rounded round).rounded round

/-- `GenericPoint::moveBy(dx, dy, dz)`: adds to each coordinate. -/
def Vector3.moveBy3 (round : ℚ → ℚ) (p : Point3) (dx dy dz : Float) : Point3 :=
  ⟨(p.x + dx).rounded round, (p.y + dy).rounded round, (p.z + dz).rounded round⟩

/-- `GenericPoint::moveBy(vector)`: `*this += vector`. -/
def Vector3.moveBy (round : ℚ → ℚ) (p : Point3) (v : Vector3) : Point3 :=
  Rounded.Vector3.add round p v

/-- `ForceFieldAtom::moveBy(vector)`. -/
def ForceFieldAtom.moveBy (round : ℚ → ℚ) (atom : ForceFieldAtom) (v : Vector3) :
    ForceFieldAtom :=
  { atom with position := Rounded.Vector3.moveBy round atom.position v }

/-- `ForceFieldAtom::moveBy(dx, dy, dz)`. -/
def ForceFieldAtom.moveBy3 (round : ℚ → ℚ) (atom : ForceFieldAtom) (dx dy dz : Float) :
    ForceFieldAtom :=
  { atom with position := Rounded.Vector3.moveBy3 round atom.position dx dy dz }

/-- `reduceEnergy` of the anonymous namespace: `result += energy`. -/
def reduceEnergy (round : ℚ → ℚ) (result energy : Float) : Float :=
  (result + energy).rounded round

/-- The statement `gradient[index] += v`; an index outside the array
(undefined in the source) leaves the array as it is. -/
def addAt (round : ℚ → ℚ) (gradient : List Vector3) (index : Nat) (v : Vector3) :
    List Vector3 :=
  match gradient[index]? with
  | some g => gradient.set index (Rounded.Vector3.add round g v)
  | none => gradient

/-- The inner loop of `ForceField::gradient` for one calculation. -/
def accumulate (round : ℚ → ℚ) (gradient : List Vector3)
    (calculation : ForceFieldCalculation) (atoms : List ForceFieldAtom) : List Vector3 :=
  (calculation.atoms.zip (calculation.gradient atoms)).foldl
    (fun g entry => Rounded.addAt round g entry.1 entry.2) gradient

/-- The first loop of an inner iteration of `minimizationStep`:
`atom->moveBy(-gradient[atomIndex] * step)` for every atom. -/
def moveAtoms (round : ℚ → ℚ) :
    List ForceFieldAtom → List Vector3 → Float → List ForceFieldAtom
  | atom :: atoms, g :: gradient, step =>
      Rounded.ForceFieldAtom.moveBy round atom (Rounded.Vector3.scaled round (-g) step) ::
        moveAtoms round atoms gradient step
  | atoms, _, _ => atoms

/-- The loop of the NaN branch: every atom is put back on its saved
position and moved by the next random unit vector. -/
def wiggleAtoms (round : ℚ → ℚ) (env : Environment) :
    List ForceFieldAtom → List Point3 → Nat → List ForceFieldAtom
  | atom :: atoms, p :: positions, drawn =>
      Rounded.ForceFieldAtom.moveBy round (atom.setPosition p) (env.randomUnitVector drawn) ::
        wiggleAtoms round env atoms positions (drawn + 1)
  | atoms, _, _ => atoms

/-- `ForceField::energy`. -/
def ForceField.energy (round : ℚ → ℚ) (env : Environment) (ff : ForceField) : Float :=
  let parallelThreshold := 5000
  if ff.calculations.length < parallelThreshold then
    ff.calculations.foldl
      (fun energy calculation => (energy + calculation.energy ff.atoms).rounded round) 0
  else
    blockingMappedReduced env ff.calculations (mapEnergy ff.atoms)
      (Rounded.reduceEnergy round)

/-- The atom with the given index moved by `(dx, dy, dz)`. -/
def ForceField.moveAtomBy3 (round : ℚ → ℚ) (ff : ForceField) (index : Nat)
    (dx dy dz : Float) : ForceField :=
  match ff.atoms[index]? with
  | some atom =>
      { ff with atoms := ff.atoms.set index (Rounded.ForceFieldAtom.moveBy3 round atom dx dy dz) }
  | none => ff

/-- One pass of the loop of `ForceField::numericalGradient`, for the atom
with index `i`; the force field is threaded because the atom is moved. -/
def ForceField.numericalGradientStep (round : ℚ → ℚ) (env : Environment)
    (state : List Vector3 × ForceField) (i : Nat) : List Vector3 × ForceField :=
  let ff := state.2
  let eI := env.atomEnergy ff i
  let epsilon := (num (1 / 10000000000)).rounded round
  let ff := Rounded.ForceField.moveAtomBy3 round ff i epsilon 0 0
  let eF_x := env.atomEnergy ff i
  let ff := Rounded.ForceField.moveAtomBy3 round ff i (-epsilon) epsilon 0
  let eF_y := env.atomEnergy ff i
  let ff := Rounded.ForceField.moveAtomBy3 round ff i 0 (-epsilon) epsilon
  let eF_z := env.atomEnergy ff i
  let ff := Rounded.ForceField.moveAtomBy3 round ff i 0 0 (-epsilon)
  let dx := ((eF_x - eI).rounded round / epsilon).rounded round
  let dy := ((eF_y - eI).rounded round / epsilon).rounded round
  let dz := ((eF_z - eI).rounded round / epsilon).rounded round
  (state.1.set i ⟨dx, dy, dz⟩, ff)

/-- `ForceField::numericalGradient`, with the force field it leaves. -/
def ForceField.numericalGradient (round : ℚ → ℚ) (env : Environment) (ff : ForceField) :
    List Vector3 × ForceField :=
  (List.range ff.atomCount).foldl (Rounded.ForceField.numericalGradientStep round env)
    (List.replicate ff.atomCount 0, ff)

/-- `ForceField::gradient`, with the force field it leaves. -/
def ForceField.gradient (round : ℚ → ℚ) (env : Environment) (ff : ForceField) :
    List Vector3 × ForceField :=
  if ff.flags.AnalyticalGradient then
    (ff.calculations.foldl
      (fun g calculation => Rounded.accumulate round g calculation ff.atoms)
      (List.replicate ff.atomCount 0), ff)
  else
    Rounded.ForceField.numericalGradient round env ff

/-- `ForceField::rootMeanSquareGradient`, with the force field it
leaves. -/
def ForceField.rootMeanSquareGradient (round : ℚ → ℚ) (env : Environment)
    (ff : ForceField) : Float × ForceField :=
  if ff.size = 0 then
    (0, ff)
  else
    let result := Rounded.ForceField.gradient round env ff
    let sum := result.1.foldl
      (fun sum g => (sum + Rounded.Vector3.lengthSquared round g).rounded round) 0
    (env.sqrt ((sum / (num 3 * num ff.size).rounded round).rounded round), result.2)

/-- The coordinates of the point are values of the rounded arithmetic:
rounding leaves each of them as it is. -/
def Vector3.isRounded (round : ℚ → ℚ) (p : Point3) : Prop :=
  p.x.rounded round = p.x ∧ p.y.rounded round = p.y ∧ p.z.rounded round = p.z

/-- One inner iteration of `ForceField::minimizationStep`; the Boolean
tells whether the iteration left the loop through `break`. -/
def lineSearchIteration (round : ℚ → ℚ) (env : Environment) (s : LineSearch) :
    LineSearch × Bool :=
  let stepConv := (num (1 / 100000)).rounded round
  let ff := s.forceField
  let initialPositions := ff.atoms.map (fun atom => atom.position)
  let moved := { ff with atoms := Rounded.moveAtoms round ff.atoms s.gradient s.step }
  let finalEnergy := Rounded.ForceField.energy round env moved
  let s := { s with iterations := s.iterations + 1, energies := s.energies ++ [finalEnergy] }
  if qIsNaN finalEnergy then
    let wiggled :=
      { moved with atoms := Rounded.wiggleAtoms round env moved.atoms initialPositions s.drawn }
    let result := Rounded.ForceField.gradient round env wiggled
    ({ s with forceField := result.2, gradient := result.1,
              drawn := s.drawn + moved.atomCount }, false)
  else if finalEnergy < s.initialEnergy
      ∧ qAbs ((finalEnergy - s.initialEnergy).rounded round) < stepConv then
    ({ s with forceField := moved }, true)
  else if finalEnergy < s.initialEnergy then
    let step := (s.step * num 2).rounded round
    let step := if num 1 < step then num 1 else step
    ({ s with forceField := moved, step := step, initialEnergy := finalEnergy }, false)
  else if s.initialEnergy < finalEnergy then
    let restored := { moved with atoms := restoreAtoms moved.atoms initialPositions }
    ({ s with forceField := restored,
              step := (s.step * (num (1 / 10)).rounded round).rounded round }, false)
  else
    ({ s with forceField := moved }, false)

/-- The loop `for(int i = 0; i < stepCount; i++)`, given the number of
iterations that remain. -/
def lineSearchLoop (round : ℚ → ℚ) (env : Environment) : Nat → LineSearch → LineSearch
  | 0, s => s
  | remaining + 1, s =>
      let result := Rounded.lineSearchIteration round env s
      if result.2 then result.1 else lineSearchLoop round env remaining result.1

/-- The variables of `ForceField::minimizationStep` when the inner loop
is entered. -/
def ForceField.lineSearchStart (round : ℚ → ℚ) (env : Environment) (ff : ForceField)
    (drawn : Nat) : LineSearch :=
  let result := Rounded.ForceField.gradient round env ff
  let initialEnergy := Rounded.ForceField.energy round env result.2
  { forceField := result.2, gradient := result.1, step := (num (1 / 20)).rounded round,
    initialEnergy := initialEnergy, drawn := drawn, iterations := 0,
    energies := [initialEnergy] }

/-- The body of `ForceField::minimizationStep` up to the exit of the
inner loop. -/
def ForceField.lineSearch (round : ℚ → ℚ) (env : Environment) (ff : ForceField)
    (drawn : Nat) : LineSearch :=
  let stepCount := 10
  Rounded.lineSearchLoop round env stepCount (Rounded.ForceField.lineSearchStart round env ff drawn)

/-- `ForceField::minimizationStep(converganceValue)`; `drawn` is the
number of random vectors drawn before the call. -/
def ForceField.minimizationStep (round : ℚ → ℚ) (env : Environment) (ff : ForceField)
    (converganceValue : Float) (drawn : Nat) : MinimizationStep :=
  let search := Rounded.ForceField.lineSearch round env ff drawn
  let rms := Rounded.ForceField.rootMeanSquareGradient round env search.forceField
  { converged := decide (rms.1 < converganceValue), forceField := rms.2,
    drawn := search.drawn, iterations := search.iterations, energies := search.energies }

end Rounded

/-! ## The angle-bend term of the uff plugin in rounded arithmetic -/

namespace Rounded

/-- The coefficients `c0`, `c1` and `c2` that
`UffAngleBendCalculation::setup` stores in the parameters 1, 2 and 3,
given the angle `theta0`; `pow(x, 2)` is the rounded square. -/
def UffAngleBendCalculation.coefficients (round : ℚ → ℚ) (cos sin : Float → Float)
    (theta0 : Float) : Float × Float × Float :=
  let c2 := (num 1 / (num 4 * (sin theta0 * sin theta0).rounded round).rounded round).rounded round
  let c1 := ((num (-4) * c2).rounded round * cos theta0).rounded round
  let c0 := (c2 * ((num 2 * (cos theta0 * cos theta0).rounded round).rounded round
    + num 1).rounded round).rounded round
  (c0, c1, c2)

/-- `UffAngleBendCalculation::energy`, given the parameters and the bond
angle `theta` in radians. -/
def UffAngleBendCalculation.energy (round : ℚ → ℚ) (cos : Float → Float)
    (ka c0 c1 c2 theta : Float) : Float :=
  (ka * ((c0 + (c1 * cos theta).rounded round).rounded round
    + (c2 * cos ((num 2 * theta).rounded round)).rounded round).rounded round).rounded round

end Rounded

/-! ## Concrete inputs -/

/-- An environment: the identity as square root, one fixed unit vector,
the energy of an atom as the sum of the energies of the calculations that
refer to it, and results reduced in the order computed. -/
def exampleEnvironment : Environment :=
  { sqrt := fun x => x
    randomUnitVector := fun _ => ⟨num 1, num 0, num 0⟩
    atomEnergy := fun ff i =>
      ((ff.calculations.filter (fun c => c.atoms.contains i)).map
        (fun c => c.energy ff.atoms)).sum
    reduceOrder := fun results => results
    reduceOrder_perm := fun results => List.Perm.refl results }

/-- A one-atom term at the given address with energy `(x - 3)^2` for the
coordinate `x` of the atom with index 0, and the analytic gradient of
that energy; both are zero when the coordinate is NaN or the atom is
missing. -/
def exampleCalculation (address : Nat) (setup : Bool) : ForceFieldCalculation :=
  { address := address
    atoms := [0]
    setup := setup
    energy := fun atoms =>
      match atoms with
      | ⟨⟨num x, _, _⟩, _⟩ :: _ => num ((x - 3) * (x - 3))
      | _ => num 0
    gradient := fun atoms =>
      match atoms with
      | ⟨⟨num x, _, _⟩, _⟩ :: _ => [⟨num (2 * (x - 3)), num 0, num 0⟩]
      | _ => [⟨num 0, num 0, num 0⟩] }

/-- A force field with analytic gradients, one atom at `(x, 0, 0)`, which
stands for the structural atom at address 1, and the given
calculations. -/
def exampleForceField (x : ℚ) (calculations : List ForceFieldCalculation) : ForceField :=
  { flags := ⟨true⟩
    atoms := [⟨⟨num x, num 0, num 0⟩, 1⟩]
    calculations := calculations }


/-- The state of the line search of `exampleForceField 0` with one
`exampleCalculation` when its fourth inner iteration starts: the atom is
at `x = 21/10`, the gradient is the one taken at `x = 0`, the step size is
`2/5` and the baseline energy is `81/100`. -/
def exampleLineSearch : LineSearch :=
  { forceField := exampleForceField (21 / 10) [exampleCalculation 1 true]
    gradient := [⟨num (-6), num 0, num 0⟩]
    step := num (2 / 5)
    initialEnergy := num (81 / 100)
    drawn := 0
    iterations := 3
    energies := [num 9, num (729 / 100), num (441 / 100), num (81 / 100)] }


/-- A square root on the embedded numbers: exact on the squares of
rationals and rounded down, numerator and denominator apart, elsewhere;
NaN for a negative number and for NaN. -/
def exampleSqrt : Float → Float
  | num q => if q < 0 then nan else num ((Nat.sqrt q.num.toNat : ℚ) / (Nat.sqrt q.den : ℚ))
  | nan => nan

/-- The example environment with `exampleSqrt` as square root. -/
def exampleRootEnvironment : Environment :=
  { exampleEnvironment with sqrt := exampleSqrt }

/-- A one-atom term at the given address with energy `2x + 2y + 2z` for
the atom with index 0 and the constant gradient `(2, 2, 2)`. -/
def exampleLinearCalculation (address : Nat) : ForceFieldCalculation :=
  { address := address
    atoms := [0]
    setup := true
    energy := fun atoms =>
      match atoms with
      | atom :: _ => num 2 * (atom.position.x + atom.position.y + atom.position.z)
      | [] => num 0
    gradient := fun _ => [⟨num 2, num 2, num 2⟩] }


/-- Decimal values for the constants: `Pi` to fifteen places and the two
conversion factors derived from it. -/
def exampleConstants : Constants :=
  { Pi := num (3141592653589793 / 1000000000000000)
    DegreesToRadians := num (3141592653589793 / 1000000000000000 / 180)
    RadiansToDegrees := num (180 / (3141592653589793 / 1000000000000000)) }

/-- A molecule of two atoms of mass 1, at the origin and at `(2, 0, 0)`. -/
def exampleMolecule : Molecule :=
  { atoms := [⟨1, "H", num 1, ⟨num 0, num 0, num 0⟩⟩, ⟨2, "H", num 1, ⟨num 2, num 0, num 0⟩⟩] }

/-- Internal coordinates with one row, all entries zero. -/
def exampleInternalCoordinates : InternalCoordinates :=
  { size := 1, connectionArray := [0, 0, 0], coordinateArray := [num 0, num 0, num 0] }

/-- A scalar field on a `2 x 2 x 2` grid with unit cells whose value at
`(i, j, k)` is `i`: it increases along the first axis. -/
def exampleScalarField : ScalarField :=
  { origin := ⟨num 0, num 0, num 0⟩
    dimensions := [2, 2, 2]
    lengths := [num 1, num 1, num 1]
    data := [num 0, num 0, num 0, num 0, num 1, num 1, num 1, num 1] }

/-- A force field without atoms and calculations that holds the molecules
at the addresses 1 and 2, in this order. -/
def exampleMoleculeForceField : ForceField :=
  { flags := ⟨true⟩, atoms := [], calculations := [], molecules := [1, 2] }

/-- A one-atom term at the given address whose energy is the coordinate
`x` of the atom with index 0 where `x` is positive and NaN elsewhere, with
the constant gradient `(1, 0, 0)`. -/
def exampleDivergingCalculation (address : Nat) : ForceFieldCalculation :=
  { address := address
    atoms := [0]
    setup := true
    energy := fun atoms =>
      match atoms with
      | ⟨⟨num x, _, _⟩, _⟩ :: _ => if 0 < x then num x else nan
      | _ => nan
    gradient := fun _ => [⟨num 1, num 0, num 0⟩] }

/-- The state of a line search when its first inner iteration starts: one
atom at `x = 1/40` with one `exampleDivergingCalculation`, the gradient
`(1, 0, 0)`, the step size `1/20` and the baseline energy `1/40`; the move
takes the atom to `x = -1/40`, where the energy is NaN. -/
def exampleDivergingLineSearch : LineSearch :=
  { forceField := exampleForceField (1 / 40) [exampleDivergingCalculation 1]
    gradient := [⟨num 1, num 0, num 0⟩]
    step := num (1 / 20)
    initialEnergy := num (1 / 40)
    drawn := 0
    iterations := 0
    energies := [num (1 / 40)] }

/-- Internal coordinates with two rows, all entries zero. -/
def exampleInternalCoordinatesTwo : InternalCoordinates :=
  { size := 2, connectionArray := [0, 0, 0, 0, 0, 0]
    coordinateArray := [num 0, num 0, num 0, num 0, num 0, num 0] }

/-- The middle atom of a torsion: an oxygen of type `O_3`, of group six,
with parameters that the torsion term of two such atoms does not read. -/
def exampleOxygen : UffTorsionAtom :=
  { type := ['O', '_', '3'], isGroupSix := true, isOxygen := true
    parameters := { V := num (9 / 500), U := num 2 } }

/-- A one-atom term at the given address with the energy `(x - 1/16)^2`
of the coordinate `x` of the atom with index 0, computed in double
arithmetic, and its analytic gradient; both are zero when the coordinate
is NaN or the atom is missing. -/
def exampleDoubleCalculation (address : Nat) : ForceFieldCalculation :=
  { address := address
    atoms := [0]
    setup := true
    energy := fun atoms =>
      match atoms with
      | ⟨⟨num x, _, _⟩, _⟩ :: _ =>
          num (roundDouble (roundDouble (x - 1 / 16) * roundDouble (x - 1 / 16)))
      | _ => num 0
    gradient := fun atoms =>
      match atoms with
      | ⟨⟨num x, _, _⟩, _⟩ :: _ => [⟨num (roundDouble (2 * roundDouble (x - 1 / 16))), num 0, num 0⟩]
      | _ => [⟨num 0, num 0, num 0⟩] }

/-- A force field with numerical gradients, one atom at `(1/16, 0, 0)`,
which stands for the structural atom at address 1, and the given
calculations. -/
def exampleNumericalForceField (calculations : List ForceFieldCalculation) : ForceField :=
  { flags := ⟨false⟩
    atoms := [⟨⟨num (1 / 16), num 0, num 0⟩, 1⟩]
    calculations := calculations }

/-- The `double` nearest to pi, which is also `180 * DegreesToRadians` in
double arithmetic. -/
def exampleDoublePi : ℚ := 884279719003555 / 281474976710656

/-- The cosine of the machine's library where the example needs it: at
the `double` nearest to pi it returns -1 and at twice that number 1, the
correctly rounded values; NaN stands for the arguments not listed. -/
def exampleLibraryCos (x : Float) : Float :=
  if x = num exampleDoublePi then num (-1)
  else if x = num (2 * exampleDoublePi) then num 1
  else nan

/-- The sine of the machine's library where the example needs it: at the
`double` nearest to pi it returns `4967757600021511 / 2^105`, which is
`1.2246467991473532e-16`, the correctly rounded value; NaN stands for the
arguments not listed. -/
def exampleLibrarySin (x : Float) : Float :=
  if x = num exampleDoublePi then num (4967757600021511 / 2 ^ 105) else nan

end chemkit

/-! ## Theorems -/

namespace chemkit

open Float (num nan qIsNaN qAbs)

/-! ### Arithmetic of `Float` -/

@[simp] theorem Float.num_add_num (a b : ℚ) : num a + num b = num (a + b) := rfl

@[simp] theorem Float.num_sub_num (a b : ℚ) : num a - num b = num (a - b) := rfl

@[simp] theorem Float.num_mul_num (a b : ℚ) : num a * num b = num (a * b) := rfl

@[simp] theorem Float.neg_num (a : ℚ) : -num a = num (-a) := rfl

@[simp] theorem Float.nan_add (a : Float) : nan + a = nan := rfl

@[simp] theorem Float.add_nan (a : Float) : a + nan = nan := by cases a <;> rfl

@[simp] theorem Float.nan_mul (a : Float) : nan * a = nan := rfl

@[simp] theorem Float.mul_nan (a : Float) : a * nan = nan := by cases a <;> rfl

@[simp] theorem Float.nan_sub (a : Float) : nan - a = nan := rfl

@[simp] theorem Float.sub_nan (a : Float) : a - nan = nan := by cases a <;> rfl

theorem Float.zero_eq_num : (0 : Float) = num 0 := rfl

@[simp] theorem Float.num_div_num (a b : ℚ) :
    num a / num b = if b = 0 then nan else num (a / b) := rfl

@[simp] theorem Float.nan_div (a : Float) : nan / a = nan := rfl

@[simp] theorem Float.div_nan (a : Float) : a / nan = nan := by cases a <;> rfl

@[simp] theorem Float.num_lt_num (a b : ℚ) : num a < num b ↔ a < b := Iff.rfl

@[simp] theorem Float.num_le_num (a b : ℚ) : num a ≤ num b ↔ a ≤ b := Iff.rfl

@[simp] theorem Float.not_nan_lt (a : Float) : ¬ nan < a := fun h => h

@[simp] theorem Float.not_lt_nan (a : Float) : ¬ a < nan := by
  cases a <;> exact fun h => h

@[simp] theorem Float.qIsNaN_num (a : ℚ) : qIsNaN (num a) = false := rfl

@[simp] theorem Float.qIsNaN_nan : qIsNaN nan = true := rfl

theorem Float.eq_num_of_ne_nan {a : Float} (h : a ≠ nan) : ∃ q, a = num q := by
  cases a with
  | nan => exact absurd rfl h
  | num q => exact ⟨q, rfl⟩

theorem Vector3.zero_eq_mk : (0 : Vector3) = ⟨num 0, num 0, num 0⟩ := rfl

theorem Vector3.neg_eq_mk (v : Vector3) : -v = ⟨-v.x, -v.y, -v.z⟩ := rfl

theorem Vector3.add_eq_mk (a b : Vector3) : a + b = ⟨a.x + b.x, a.y + b.y, a.z + b.z⟩ := rfl

theorem Float.qAbs_num (a : ℚ) : qAbs (num a) = num |a| := rfl

/-! ### Total energy -/

theorem foldl_add_eq_sum {α : Type} [AddCommMonoid α] (l : List α) (a : α) :
    l.foldl (fun x y => x + y) a = a + l.sum := by
  induction l generalizing a with
  | nil => simp
  | cons b l ih => rw [List.foldl_cons, ih, List.sum_cons, add_assoc]

theorem foldl_energy_eq (atoms : List ForceFieldAtom) (cs : List ForceFieldCalculation)
    (a : Float) :
    cs.foldl (fun energy calculation => energy + calculation.energy atoms) a
      = (cs.map (fun c => c.energy atoms)).foldl (fun x y => x + y) a := by
  rw [List.foldl_map]

/-- Both paths of `energy()` return the sum of the energies of the
calculations. -/
theorem energy_eq_sum (env : Environment) (ff : ForceField) :
    ff.energy env = (ff.calculations.map (fun c => c.energy ff.atoms)).sum := by
  unfold ForceField.energy
  by_cases h : ff.calculations.length < 5000
  · simp only [h, if_true]
    rw [foldl_energy_eq, foldl_add_eq_sum, zero_add]
  · simp only [h, if_false]
    unfold blockingMappedReduced
    have hfold : reduceEnergy = fun x y : Float => x + y := rfl
    rw [hfold, foldl_add_eq_sum, zero_add, (env.reduceOrder_perm _).sum_eq]
    rfl

/-- C1: below 5000 calculations `energy()` is the sum, folded from zero
in list order, of `energy()` over the calculations, and it is zero when
there is no calculation. -/
theorem energy_sequential (env : Environment) (ff : ForceField)
    (h : ff.calculationCount < 5000) :
    ff.energy env
        = (ff.calculations.map (fun c => c.energy ff.atoms)).foldl (fun sum e => sum + e) 0
      ∧ (ff.calculations = [] → ff.energy env = 0) := by
  have h' : ff.calculations.length < 5000 := h
  constructor
  · unfold ForceField.energy
    simp only [h', if_true]
    exact foldl_energy_eq _ _ _
  · intro hnil
    unfold ForceField.energy
    rw [hnil]
    rfl

theorem energy_sequential_witness :
    (exampleForceField 0 [exampleCalculation 1 true, exampleCalculation 2 true]).calculationCount
        < 5000
      ∧ (exampleForceField 0 [exampleCalculation 1 true, exampleCalculation 2 true]).energy
          exampleEnvironment = num 18 := by
  refine ⟨by decide, ?_⟩
  rw [(energy_sequential exampleEnvironment _ (by decide)).1]
  simp [exampleForceField, exampleCalculation, Float.zero_eq_num]
  norm_num

/-! ### Setup flags -/

theorem isSetupLoop_iff (cs : List ForceFieldCalculation) :
    isSetupLoop cs = true ↔ ∀ c ∈ cs, c.setup = true := by
  induction cs with
  | nil => simp [isSetupLoop]
  | cons c cs ih =>
    cases hc : c.setup <;>
      simp [isSetupLoop, ForceFieldCalculation.isSetup, hc, ih]

/-- C3: `isSetup()` is true exactly when every calculation of the list
has its flag set; `setCalculationSetup` records the flag on the object
with the given address, and recording false on a calculation of the list
makes `isSetup()` false. -/
theorem isSetup_iff_all_setup (ff : ForceField) :
    (ff.isSetup = true ↔ ∀ c ∈ ff.calculations, c.setup = true)
      ∧ (∀ (p : Nat) (b : Bool), ∀ c ∈ (ff.setCalculationSetup p b).calculations,
          c.address = p → c.setup = b)
      ∧ (∀ c ∈ ff.calculations, (ff.setCalculationSetup c.address false).isSetup = false) := by
  refine ⟨isSetupLoop_iff _, ?_, ?_⟩
  · intro p b c hc hp
    simp only [ForceField.setCalculationSetup, List.mem_map] at hc
    obtain ⟨d, _, hd⟩ := hc
    by_cases hdp : d.address = p
    · rw [if_pos hdp] at hd
      rw [← hd]
      rfl
    · rw [if_neg hdp] at hd
      rw [hd] at hdp
      exact absurd hp hdp
  · intro c hc
    cases hs : (ff.setCalculationSetup c.address false).isSetup with
    | false => rfl
    | true =>
      have hall := (isSetupLoop_iff _).1 hs
      have hmem : c.setSetup false ∈ (ff.setCalculationSetup c.address false).calculations := by
        simp only [ForceField.setCalculationSetup, List.mem_map]
        exact ⟨c, hc, by rw [if_pos rfl]⟩
      exact absurd (hall _ hmem) (by simp [ForceFieldCalculation.setSetup])

/-- C9: a force field with one atom at `(1, 0, 0)`, a calculation that
is set up and a calculation whose setup flag is false, each of energy 4,
is not set up, and `energy()` returns 8, not 0. -/
theorem energy_not_setup_nonzero :
    (exampleForceField 1 [exampleCalculation 1 true, exampleCalculation 2 false]).isSetup = false
      ∧ (exampleForceField 1 [exampleCalculation 1 true, exampleCalculation 2 false]).energy
          exampleEnvironment = num 8
      ∧ (exampleForceField 1 [exampleCalculation 1 true, exampleCalculation 2 false]).energy
          exampleEnvironment ≠ 0 := by
  have h : (exampleForceField 1 [exampleCalculation 1 true, exampleCalculation 2 false]).energy
      exampleEnvironment = num 8 := by
    rw [energy_eq_sum]
    simp [exampleForceField, exampleCalculation, Float.zero_eq_num]
    norm_num
  refine ⟨rfl, h, ?_⟩
  rw [h, Float.zero_eq_num]
  intro h8
  injection h8 with h8
  norm_num at h8

/-! ### Independence of the setup flags -/

theorem map_energy_zipWith_setSetup (atoms : List ForceFieldAtom) :
    ∀ (cs : List ForceFieldCalculation) (flags : List Bool), flags.length = cs.length →
      (List.zipWith (fun c b => c.setSetup b) cs flags).map (fun c => c.energy atoms)
        = cs.map (fun c => c.energy atoms)
  | [], _, _ => by simp
  | _ :: _, [], h => by simp at h
  | c :: cs, b :: flags, h => by
    have h' : flags.length = cs.length := by simpa using h
    simp only [List.zipWith_cons_cons, List.map_cons, map_energy_zipWith_setSetup atoms cs flags h']
    rfl

theorem foldl_accumulate_zipWith_setSetup (atoms : List ForceFieldAtom) :
    ∀ (cs : List ForceFieldCalculation) (flags : List Bool) (g : List Vector3),
      flags.length = cs.length →
      (List.zipWith (fun c b => c.setSetup b) cs flags).foldl
          (fun g calculation => accumulate g calculation atoms) g
        = cs.foldl (fun g calculation => accumulate g calculation atoms) g
  | [], _, _, _ => by simp
  | _ :: _, [], _, h => by simp at h
  | c :: cs, b :: flags, g, h => by
    have h' : flags.length = cs.length := by simpa using h
    simp only [List.zipWith_cons_cons, List.foldl_cons]
    exact foldl_accumulate_zipWith_setSetup atoms cs flags _ h'

theorem moveAtomBy3_calculations (ff : ForceField) (i : Nat) (dx dy dz : Float) :
    (ff.moveAtomBy3 i dx dy dz).calculations = ff.calculations := by
  unfold ForceField.moveAtomBy3
  cases ff.atoms[i]? <;> rfl

theorem moveAtomBy3_withSetupFlags (ff : ForceField) (flags : List Bool) (i : Nat)
    (dx dy dz : Float) :
    (ff.withSetupFlags flags).moveAtomBy3 i dx dy dz
      = (ff.moveAtomBy3 i dx dy dz).withSetupFlags flags := by
  unfold ForceField.moveAtomBy3
  show (match ff.atoms[i]? with
    | some atom => _
    | none => _) = _
  cases ff.atoms[i]? <;> rfl

theorem numericalGradientStep_withSetupFlags (env : Environment) (flags : List Bool)
    (hatom : ∀ (g : ForceField) (i : Nat), flags.length = g.calculations.length →
      env.atomEnergy (g.withSetupFlags flags) i = env.atomEnergy g i)
    (g : List Vector3) (ff : ForceField) (i : Nat)
    (hlen : flags.length = ff.calculations.length) :
    ForceField.numericalGradientStep env (g, ff.withSetupFlags flags) i
        = ((ForceField.numericalGradientStep env (g, ff) i).1,
            (ForceField.numericalGradientStep env (g, ff) i).2.withSetupFlags flags)
      ∧ flags.length = (ForceField.numericalGradientStep env (g, ff) i).2.calculations.length := by
  unfold ForceField.numericalGradientStep
  simp only [moveAtomBy3_withSetupFlags, moveAtomBy3_calculations]
  refine ⟨?_, hlen⟩
  rw [hatom _ _ hlen, hatom _ _ (by rw [moveAtomBy3_calculations]; exact hlen),
    hatom _ _ (by simp only [moveAtomBy3_calculations]; exact hlen),
    hatom _ _ (by simp only [moveAtomBy3_calculations]; exact hlen)]

theorem foldl_numericalGradientStep_withSetupFlags (env : Environment) (flags : List Bool)
    (hatom : ∀ (g : ForceField) (i : Nat), flags.length = g.calculations.length →
      env.atomEnergy (g.withSetupFlags flags) i = env.atomEnergy g i) :
    ∀ (l : List Nat) (g : List Vector3) (ff : ForceField),
      flags.length = ff.calculations.length →
      l.foldl (ForceField.numericalGradientStep env) (g, ff.withSetupFlags flags)
        = ((l.foldl (ForceField.numericalGradientStep env) (g, ff)).1,
            (l.foldl (ForceField.numericalGradientStep env) (g, ff)).2.withSetupFlags flags)
  | [], _, _, _ => rfl
  | i :: l, g, ff, hlen => by
    obtain ⟨hstep, hlen'⟩ := numericalGradientStep_withSetupFlags env flags hatom g ff i hlen
    simp only [List.foldl_cons]
    rw [hstep]
    exact foldl_numericalGradientStep_withSetupFlags env flags hatom l _ _ hlen'

/-- C10: two force fields that differ only in the setup flags of their
calculations return the same `energy()` and the same `gradient()`; for the
numerical gradient this uses that the energy of an atom does not read the
flags either. -/
theorem energy_gradient_ignore_setup (env : Environment) (ff : ForceField)
    (flags : List Bool) (hlen : flags.length = ff.calculations.length)
    (hatom : ∀ (g : ForceField) (i : Nat), flags.length = g.calculations.length →
      env.atomEnergy (g.withSetupFlags flags) i = env.atomEnergy g i) :
    (ff.withSetupFlags flags).energy env = ff.energy env
      ∧ ((ff.withSetupFlags flags).gradient env).1 = (ff.gradient env).1 := by
  constructor
  · rw [energy_eq_sum, energy_eq_sum]
    exact congrArg List.sum (map_energy_zipWith_setSetup ff.atoms ff.calculations flags hlen)
  · have hf : (ff.withSetupFlags flags).flags = ff.flags := rfl
    have ha : (ff.withSetupFlags flags).atoms = ff.atoms := rfl
    unfold ForceField.gradient
    rw [hf]
    by_cases hflag : ff.flags.AnalyticalGradient = true
    · simp only [hflag, if_true]
      exact foldl_accumulate_zipWith_setSetup ff.atoms ff.calculations flags _ hlen
    · simp only [hflag]
      unfold ForceField.numericalGradient
      have hc : (ff.withSetupFlags flags).atomCount = ff.atomCount := rfl
      rw [hc, foldl_numericalGradientStep_withSetupFlags env flags hatom _ _ _ hlen]
      simp

theorem exampleEnvironment_atomEnergy_withSetupFlags (flags : List Bool) (g : ForceField)
    (i : Nat) (hlen : flags.length = g.calculations.length) :
    exampleEnvironment.atomEnergy (g.withSetupFlags flags) i
      = exampleEnvironment.atomEnergy g i := by
  have key : ∀ (cs : List ForceFieldCalculation) (fl : List Bool), fl.length = cs.length →
      (((List.zipWith (fun c b => c.setSetup b) cs fl).filter
          (fun c => c.atoms.contains i)).map (fun c => c.energy g.atoms))
        = ((cs.filter (fun c => c.atoms.contains i)).map (fun c => c.energy g.atoms)) := by
    intro cs
    induction cs with
    | nil => intro fl _; simp
    | cons c cs ih =>
      intro fl h
      cases fl with
      | nil => simp at h
      | cons b fl =>
        have h' : fl.length = cs.length := by simpa using h
        have hc : (c.setSetup b).atoms = c.atoms := rfl
        have he : (c.setSetup b).energy = c.energy := rfl
        simp only [List.zipWith_cons_cons, List.filter_cons, hc]
        cases c.atoms.contains i
        · simpa using ih fl h'
        · simpa [he] using ih fl h'
  show List.sum _ = List.sum _
  exact congrArg List.sum (key g.calculations flags hlen)

theorem energy_gradient_ignore_setup_witness :
    [true, false].length
        = (exampleForceField 0 [exampleCalculation 1 false, exampleCalculation 2 true]).calculations.length
      ∧ ((exampleForceField 0 [exampleCalculation 1 false, exampleCalculation 2 true]).withSetupFlags
            [true, false]).energy exampleEnvironment
          = (exampleForceField 0 [exampleCalculation 1 false, exampleCalculation 2 true]).energy
              exampleEnvironment
      ∧ (((exampleForceField 0 [exampleCalculation 1 false, exampleCalculation 2 true]).withSetupFlags
            [true, false]).gradient exampleEnvironment).1
          = ((exampleForceField 0 [exampleCalculation 1 false, exampleCalculation 2 true]).gradient
              exampleEnvironment).1 :=
  ⟨rfl, energy_gradient_ignore_setup exampleEnvironment _ [true, false] rfl
    (fun g i h => exampleEnvironment_atomEnergy_withSetupFlags [true, false] g i h)⟩

/-! ### Removing a calculation -/

theorem vectorErase_append_singleton (kept rest : List ForceFieldCalculation)
    (h : rest.length = 1) : vectorErase (kept ++ rest) kept.length = some kept := by
  match rest, h with
  | [x], _ =>
    unfold vectorErase
    rw [if_pos (by simp), List.eraseIdx_append_of_length_le (le_refl _)]
    simp

theorem filter_address_of_split (l1 l2 : List ForceFieldCalculation) (c : ForceFieldCalculation)
    (hd : ((l1 ++ c :: l2).map (fun d => d.address)).Nodup) :
    (l1 ++ c :: l2).filter (fun d => d.address != c.address) = l1 ++ l2 := by
  rw [List.map_append, List.map_cons, List.nodup_append] at hd
  obtain ⟨_, hd2, hdisj⟩ := hd
  rw [List.nodup_cons] at hd2
  have h1 : ∀ d ∈ l1, (d.address != c.address) = true := by
    intro d hdmem
    have hne : d.address ≠ c.address := fun heq =>
      hdisj (List.mem_map_of_mem (fun d => d.address) hdmem)
        (by rw [heq]; exact List.mem_cons_self _ _)
    simpa using hne
  have h2 : ∀ d ∈ l2, (d.address != c.address) = true := by
    intro d hdmem
    have hne : d.address ≠ c.address := fun heq =>
      hd2.1 (by rw [← heq]; exact List.mem_map_of_mem (fun d => d.address) hdmem)
    simpa using hne
  rw [List.filter_append, List.filter_cons, List.filter_eq_self.2 h1, List.filter_eq_self.2 h2]
  simp

/-- C4: for a calculation of the list, the list holding each object
once, `removeCalculation` leaves the other calculations in their order,
so the calculation is gone and the count is one less, and `energy()` is
then the sum of the energies of the calculations that remain. -/
theorem removeCalculation_removes (env : Environment) (ff : ForceField)
    (c : ForceFieldCalculation) (hc : c ∈ ff.calculations)
    (hd : (ff.calculations.map (fun d => d.address)).Nodup) :
    ∃ ff', ff.removeCalculation c.address = some ff'
      ∧ c ∉ ff'.calculations
      ∧ (∀ d ∈ ff'.calculations, d.address ≠ c.address)
      ∧ ff'.calculationCount + 1 = ff.calculationCount
      ∧ ff'.calculations = ff.calculations.filter (fun d => d.address != c.address)
      ∧ ff'.calculations.Sublist ff.calculations
      ∧ ff'.atoms = ff.atoms
      ∧ ff'.energy env
          = ((ff.calculations.filter (fun d => d.address != c.address)).map
              (fun d => d.energy ff.atoms)).sum := by
  obtain ⟨l1, l2, hsplit⟩ := List.append_of_mem hc
  have hfilter : ff.calculations.filter (fun d => d.address != c.address) = l1 ++ l2 := by
    rw [hsplit] at hd ⊢
    exact filter_address_of_split l1 l2 c hd
  have hlen : ff.calculations.length = (l1 ++ l2).length + 1 := by
    rw [hsplit]
    simp only [List.length_append, List.length_cons]
    omega
  have hdrop : (ff.calculations.drop (l1 ++ l2).length).length = 1 := by
    rw [List.length_drop, hlen]
    omega
  have herase : vectorErase (stdRemove ff.calculations c.address).1
      (stdRemove ff.calculations c.address).2 = some (l1 ++ l2) := by
    unfold stdRemove
    simp only [hfilter]
    exact vectorErase_append_singleton _ _ hdrop
  have hnot : ∀ d ∈ l1 ++ l2, d.address ≠ c.address := by
    intro d hdmem
    rw [← hfilter, List.mem_filter] at hdmem
    simpa using hdmem.2
  refine ⟨{ ff with calculations := l1 ++ l2 }, ?_, ?_, hnot, ?_, hfilter.symm, ?_, rfl, ?_⟩
  · unfold ForceField.removeCalculation
    simp only [herase]
  · intro hmem
    exact hnot c hmem rfl
  · show (l1 ++ l2).length + 1 = ff.calculations.length
    exact hlen.symm
  · show (l1 ++ l2).Sublist ff.calculations
    rw [← hfilter]
    exact List.filter_sublist _
  · rw [energy_eq_sum, hfilter]

theorem removeCalculation_removes_witness :
    exampleCalculation 2 true
        ∈ (exampleForceField 0 [exampleCalculation 1 true, exampleCalculation 2 true,
            exampleCalculation 3 true]).calculations
      ∧ ((exampleForceField 0 [exampleCalculation 1 true, exampleCalculation 2 true,
            exampleCalculation 3 true]).calculations.map (fun d => d.address)).Nodup
      ∧ ∃ ff', (exampleForceField 0 [exampleCalculation 1 true, exampleCalculation 2 true,
            exampleCalculation 3 true]).removeCalculation (exampleCalculation 2 true).address
          = some ff'
        ∧ ff'.calculationCount + 1 = 3 :=
  ⟨List.mem_cons_of_mem _ (List.mem_cons_self _ _), by decide,
    (removeCalculation_removes exampleEnvironment
      (exampleForceField 0 [exampleCalculation 1 true, exampleCalculation 2 true,
        exampleCalculation 3 true])
      (exampleCalculation 2 true) (List.mem_cons_of_mem _ (List.mem_cons_self _ _))
      (by decide)).imp (fun _ h => ⟨h.1, h.2.2.2.1⟩)⟩

/-! ### The analytic gradient -/

theorem addAt_length (g : List Vector3) (k : Nat) (v : Vector3) :
    (addAt g k v).length = g.length := by
  unfold addAt
  cases g[k]? <;> simp

theorem addAt_getElem? (g : List Vector3) (k : Nat) (v : Vector3) (i : Nat) :
    (addAt g k v)[i]? = if k = i then g[i]?.map (fun x => x + v) else g[i]? := by
  unfold addAt
  cases h : g[k]? with
  | none =>
    by_cases hki : k = i
    · subst hki
      simp [h]
    · simp [hki]
  | some x =>
    by_cases hki : k = i
    · subst hki
      have hlt : k < g.length := (List.getElem?_eq_some.1 h).1
      simp [h, List.getElem?_set, hlt]
    · simp [hki, List.getElem?_set]

theorem foldl_addAt_getElem? (i : Nat) :
    ∀ (ps : List (Nat × Vector3)) (g : List Vector3),
      (ps.foldl (fun g entry => addAt g entry.1 entry.2) g)[i]?
        = g[i]?.map
            (fun x => x + ((ps.filter (fun entry => entry.1 = i)).map (fun entry => entry.2)).sum)
  | [], g => by simp
  | p :: ps, g => by
    rw [List.foldl_cons, foldl_addAt_getElem? i ps, addAt_getElem?]
    by_cases hp : p.1 = i
    · simp only [hp, if_true, Option.map_map, List.filter_cons, decide_True, List.map_cons,
        List.sum_cons]
      congr 1
      funext x
      simp only [Function.comp, add_assoc]
    · simp [hp, List.filter_cons]

theorem foldl_addAt_length :
    ∀ (ps : List (Nat × Vector3)) (g : List Vector3),
      (ps.foldl (fun g entry => addAt g entry.1 entry.2) g).length = g.length
  | [], _ => rfl
  | p :: ps, g => by rw [List.foldl_cons, foldl_addAt_length ps, addAt_length]

theorem zip_eq_map_range (as : List Nat) (vs : List Vector3) (h : vs.length = as.length) :
    as.zip vs = (List.range as.length).map (fun j => (as.getD j 0, vs.getD j 0)) := by
  apply List.ext_getElem
  · simp [h]
  · intro n h1 h2
    have hn : n < as.length := by simpa [h] using h1
    have hv : n < vs.length := by rw [h]; exact hn
    simp [List.getD_eq_getElem?_getD, List.getElem?_eq_getElem hn, List.getElem?_eq_getElem hv]

theorem zip_filter_sum (i : Nat) (as : List Nat) (vs : List Vector3)
    (h : vs.length = as.length) :
    (((as.zip vs).filter (fun entry => entry.1 = i)).map (fun entry => entry.2)).sum
      = (((List.range as.length).filter (fun j => as[j]? = some i)).map
          (fun j => vs.getD j 0)).sum := by
  rw [zip_eq_map_range as vs h, List.filter_map, List.map_map]
  congr 2
  apply List.filter_congr
  intro j hj
  have hn : j < as.length := List.mem_range.1 hj
  simp [List.getD_eq_getElem?_getD, List.getElem?_eq_getElem hn]

theorem accumulate_getElem? (g : List Vector3) (c : ForceFieldCalculation)
    (atoms : List ForceFieldAtom) (i : Nat)
    (h : (c.gradient atoms).length = c.atoms.length) :
    (accumulate g c atoms)[i]? = g[i]?.map (fun x => x + gradientContribution c atoms i) := by
  unfold accumulate gradientContribution
  rw [foldl_addAt_getElem?, zip_filter_sum i _ _ h]

theorem foldl_accumulate_getElem? (atoms : List ForceFieldAtom) (i : Nat) :
    ∀ (cs : List ForceFieldCalculation) (g : List Vector3),
      (∀ c ∈ cs, (c.gradient atoms).length = c.atoms.length) →
      (cs.foldl (fun g calculation => accumulate g calculation atoms) g)[i]?
        = g[i]?.map (fun x => x + (cs.map (fun c => gradientContribution c atoms i)).sum)
  | [], g, _ => by simp
  | c :: cs, g, h => by
    rw [List.foldl_cons,
      foldl_accumulate_getElem? atoms i cs _ (fun d hd => h d (List.mem_cons_of_mem _ hd)),
      accumulate_getElem? g c atoms i (h c (List.mem_cons_self _ _)), Option.map_map]
    congr 1
    funext x
    simp only [Function.comp, List.map_cons, List.sum_cons, add_assoc]

theorem foldl_accumulate_length (atoms : List ForceFieldAtom) :
    ∀ (cs : List ForceFieldCalculation) (g : List Vector3),
      (cs.foldl (fun g calculation => accumulate g calculation atoms) g).length = g.length
  | [], _ => rfl
  | c :: cs, g => by
    rw [List.foldl_cons, foldl_accumulate_length atoms cs]
    exact foldl_addAt_length _ _

theorem gradientContribution_eq_zero (c : ForceFieldCalculation) (atoms : List ForceFieldAtom)
    (i : Nat) (h : i ∉ c.atoms) : gradientContribution c atoms i = 0 := by
  unfold gradientContribution
  have hnil : (List.range c.atoms.length).filter (fun j => c.atoms[j]? = some i) = [] := by
    rw [List.filter_eq_nil_iff]
    intro j _ hj
    exact h (List.getElem?_mem (of_decide_eq_true hj))
  rw [hnil]
  rfl

/-- C2: with the AnalyticalGradient flag set, when the calculations
refer to atoms below `atomCount()` and return one gradient vector per
tuple position, `gradient()` has length `atomCount()`, its entry `i` is
the sum, over the calculations, of `gradient()[j]` over the tuple
positions `j` with `atom(j)->index() == i`, and no vector is addressed to
an index outside the array; without the flag `gradient()` is
`numericalGradient()`. -/
theorem gradient_analytical_or_numerical (env : Environment) (ff : ForceField)
    (hidx : ∀ c ∈ ff.calculations, ∀ k ∈ c.atoms, k < ff.atomCount)
    (hlen : ∀ c ∈ ff.calculations, (c.gradient ff.atoms).length = c.atoms.length) :
    (ff.flags.AnalyticalGradient = true →
        (ff.gradient env).1.length = ff.atomCount
          ∧ (∀ i, i < ff.atomCount →
              (ff.gradient env).1[i]?
                = some ((ff.calculations.map
                    (fun c => gradientContribution c ff.atoms i)).sum))
          ∧ (∀ i, ff.atomCount ≤ i → ∀ c ∈ ff.calculations,
              gradientContribution c ff.atoms i = 0))
      ∧ (ff.flags.AnalyticalGradient = false → ff.gradient env = ff.numericalGradient env) := by
  constructor
  · intro hflag
    unfold ForceField.gradient
    simp only [hflag, if_true]
    refine ⟨?_, ?_, ?_⟩
    · rw [foldl_accumulate_length, List.length_replicate]
    · intro i hi
      rw [foldl_accumulate_getElem? ff.atoms i ff.calculations _ hlen,
        List.getElem?_replicate_of_lt hi]
      simp
    · intro i hi c hc
      exact gradientContribution_eq_zero c ff.atoms i
        (fun hmem => absurd (hidx c hc i hmem) (Nat.not_lt.2 hi))
  · intro hflag
    unfold ForceField.gradient
    simp [hflag]

theorem gradient_analytical_or_numerical_witness :
    (∀ c ∈ (exampleForceField 0 [exampleCalculation 1 true]).calculations,
        ∀ k ∈ c.atoms, k < (exampleForceField 0 [exampleCalculation 1 true]).atomCount)
      ∧ (∀ c ∈ (exampleForceField 0 [exampleCalculation 1 true]).calculations,
          (c.gradient (exampleForceField 0 [exampleCalculation 1 true]).atoms).length
            = c.atoms.length)
      ∧ ((exampleForceField 0 [exampleCalculation 1 true]).gradient exampleEnvironment).1[0]?
          = some ⟨num (-6), num 0, num 0⟩ := by
  have hidx : ∀ c ∈ (exampleForceField 0 [exampleCalculation 1 true]).calculations,
      ∀ k ∈ c.atoms, k < (exampleForceField 0 [exampleCalculation 1 true]).atomCount := by
    intro c hc k hk
    have hc' : c = exampleCalculation 1 true := by simpa [exampleForceField] using hc
    subst hc'
    have hk' : k = 0 := by simpa [exampleCalculation] using hk
    subst hk'
    decide
  have hlen : ∀ c ∈ (exampleForceField 0 [exampleCalculation 1 true]).calculations,
      (c.gradient (exampleForceField 0 [exampleCalculation 1 true]).atoms).length
        = c.atoms.length := by
    intro c hc
    have hc' : c = exampleCalculation 1 true := by simpa [exampleForceField] using hc
    subst hc'
    rfl
  refine ⟨hidx, hlen, ?_⟩
  rw [((gradient_analytical_or_numerical exampleEnvironment
    (exampleForceField 0 [exampleCalculation 1 true]) hidx hlen).1 rfl).2.1 0 (by decide)]
  simp [exampleForceField, exampleCalculation, gradientContribution, List.range_succ]
  norm_num

/-! ### The numerical gradient restores the positions -/

theorem set_of_getElem? {α : Type} (l : List α) (i : Nat) (a : α) (h : l[i]? = some a) :
    l.set i a = l := by
  apply List.ext_getElem?
  intro n
  rw [List.getElem?_set]
  by_cases hin : i = n
  · subst hin
    have hlt : i < l.length := (List.getElem?_eq_some.1 h).1
    simp [hlt, h]
  · simp [hin]

theorem moveBy3_restore (atom : ForceFieldAtom) (e : ℚ) :
    (((atom.moveBy3 (num e) 0 0).moveBy3 (-num e) (num e) 0).moveBy3 0 (-num e) (num e)).moveBy3
        0 0 (-num e) = atom := by
  rcases atom with ⟨⟨x, y, z⟩, a⟩
  simp only [ForceFieldAtom.moveBy3, Vector3.moveBy3]
  cases x <;> cases y <;> cases z <;> simp [Float.zero_eq_num]

theorem moveAtomBy3_none (ff : ForceField) (i : Nat) (dx dy dz : Float)
    (h : ff.atoms[i]? = none) : ff.moveAtomBy3 i dx dy dz = ff := by
  unfold ForceField.moveAtomBy3
  rw [h]

theorem moveAtomBy3_some (ff : ForceField) (i : Nat) (dx dy dz : Float) (atom : ForceFieldAtom)
    (h : ff.atoms[i]? = some atom) :
    ff.moveAtomBy3 i dx dy dz = { ff with atoms := ff.atoms.set i (atom.moveBy3 dx dy dz) } := by
  unfold ForceField.moveAtomBy3
  rw [h]

theorem moveAtomBy3_set (ff : ForceField) (i : Nat) (dx dy dz : Float) (a : ForceFieldAtom)
    (hlt : i < ff.atoms.length) :
    ForceField.moveAtomBy3 { ff with atoms := ff.atoms.set i a } i dx dy dz
      = { ff with atoms := ff.atoms.set i (a.moveBy3 dx dy dz) } := by
  have hget : (ff.atoms.set i a)[i]? = some a := by
    rw [List.getElem?_set]
    simp [hlt]
  rw [moveAtomBy3_some _ i dx dy dz a hget]
  simp only [List.set_set]

theorem numericalGradientStep_forceField (env : Environment) (g : List Vector3)
    (ff : ForceField) (i : Nat) : (ForceField.numericalGradientStep env (g, ff) i).2 = ff := by
  unfold ForceField.numericalGradientStep
  simp only
  cases h : ff.atoms[i]? with
  | none => simp only [moveAtomBy3_none ff i _ _ _ h]
  | some atom =>
    have hlt : i < ff.atoms.length := (List.getElem?_eq_some.1 h).1
    rw [moveAtomBy3_some ff i _ _ _ atom h, moveAtomBy3_set ff i _ _ _ _ hlt,
      moveAtomBy3_set ff i _ _ _ _ hlt, moveAtomBy3_set ff i _ _ _ _ hlt,
      moveBy3_restore, set_of_getElem? ff.atoms i atom h]

theorem foldl_numericalGradientStep_forceField (env : Environment) :
    ∀ (l : List Nat) (g : List Vector3) (ff : ForceField),
      (l.foldl (ForceField.numericalGradientStep env) (g, ff)).2 = ff
  | [], _, _ => rfl
  | i :: l, g, ff => by
    have hpair : ForceField.numericalGradientStep env (g, ff) i
        = ((ForceField.numericalGradientStep env (g, ff) i).1, ff) :=
      Prod.ext rfl (numericalGradientStep_forceField env g ff i)
    rw [List.foldl_cons, hpair]
    exact foldl_numericalGradientStep_forceField env l _ ff

/-- `numericalGradient()` leaves every atom where it was. -/
theorem numericalGradient_forceField (env : Environment) (ff : ForceField) :
    (ff.numericalGradient env).2 = ff :=
  foldl_numericalGradientStep_forceField env _ _ _

/-- `gradient()` leaves the force field as it was. -/
theorem gradient_forceField (env : Environment) (ff : ForceField) :
    (ff.gradient env).2 = ff := by
  unfold ForceField.gradient
  split
  · rfl
  · exact numericalGradient_forceField env ff

/-- `rootMeanSquareGradient()` leaves the force field as it was. -/
theorem rootMeanSquareGradient_forceField (env : Environment) (ff : ForceField) :
    (ff.rootMeanSquareGradient env).2 = ff := by
  unfold ForceField.rootMeanSquareGradient
  split
  · rfl
  · exact gradient_forceField env ff

theorem restoreAtoms_moveAtoms :
    ∀ (atoms : List ForceFieldAtom) (gradient : List Vector3) (step : Float),
      restoreAtoms (moveAtoms atoms gradient step) (atoms.map (fun atom => atom.position))
        = atoms
  | [], _, _ => by simp [moveAtoms, restoreAtoms]
  | atom :: atoms, [], _ => by
    simp only [moveAtoms, List.map_cons, restoreAtoms]
    have h := restoreAtoms_moveAtoms atoms [] (num 0)
    have hm : ∀ l : List ForceFieldAtom, moveAtoms l [] (num 0) = l := by
      intro l
      cases l <;> rfl
    rw [hm] at h
    rw [h]
    rfl
  | atom :: atoms, g :: gradient, step => by
    simp only [moveAtoms, List.map_cons, restoreAtoms]
    rw [restoreAtoms_moveAtoms atoms gradient step]
    rfl

/-! ### The line search of `minimizationStep` -/

theorem lineSearchIteration_record (env : Environment) (s : LineSearch) :
    (lineSearchIteration env s).1.iterations = s.iterations + 1
      ∧ (lineSearchIteration env s).1.energies
          = s.energies ++ [ForceField.energy env
              { s.forceField with atoms := moveAtoms s.forceField.atoms s.gradient s.step }] := by
  unfold lineSearchIteration
  simp only
  split_ifs <;> exact ⟨rfl, rfl⟩

theorem lineSearchLoop_record (env : Environment) :
    ∀ (n : Nat) (s : LineSearch),
      s.iterations ≤ (lineSearchLoop env n s).iterations
        ∧ (lineSearchLoop env n s).iterations ≤ s.iterations + n
        ∧ (lineSearchLoop env n s).energies.length + s.iterations
            = s.energies.length + (lineSearchLoop env n s).iterations
        ∧ ∀ x ∈ s.energies, x ∈ (lineSearchLoop env n s).energies
  | 0, s => ⟨le_refl _, le_refl _, rfl, fun _ h => h⟩
  | n + 1, s => by
    obtain ⟨hit, hen⟩ := lineSearchIteration_record env s
    obtain ⟨h1, h2, h3, h4⟩ := lineSearchLoop_record env n (lineSearchIteration env s).1
    have hlen : (lineSearchIteration env s).1.energies.length = s.energies.length + 1 := by
      rw [hen]
      simp
    have hsub : ∀ x ∈ s.energies, x ∈ (lineSearchIteration env s).1.energies := by
      intro x hx
      rw [hen]
      exact List.mem_append_left _ hx
    unfold lineSearchLoop
    simp only
    split_ifs
    · exact ⟨by omega, by omega, by omega, hsub⟩
    · exact ⟨by omega, by omega, by omega, fun x hx => h4 x (hsub x hx)⟩

/-- C6: a call of `minimizationStep` runs at most 10 inner iterations,
each evaluating the total energy once after the energy evaluated before
the loop, and returns. -/
theorem minimizationStep_iterations (env : Environment) (ff : ForceField)
    (converganceValue : Float) (drawn : Nat) :
    (ff.minimizationStep env converganceValue drawn).iterations ≤ 10
      ∧ (ff.minimizationStep env converganceValue drawn).energies.length
          = (ff.minimizationStep env converganceValue drawn).iterations + 1 := by
  unfold ForceField.minimizationStep ForceField.lineSearch ForceField.lineSearchStart
  simp only
  obtain ⟨_, h2, h3, _⟩ := lineSearchLoop_record env 10
    { forceField := (ff.gradient env).2, gradient := (ff.gradient env).1, step := num (1 / 20),
      initialEnergy := (ff.gradient env).2.energy env, drawn := drawn, iterations := 0,
      energies := [(ff.gradient env).2.energy env] }
  simp only [List.length_singleton, Nat.zero_add, Nat.add_zero] at h2 h3
  exact ⟨h2, by omega⟩

/-- C7: `minimizationStep` returns true exactly when
`rootMeanSquareGradient()`, taken on the force field as the inner loop
left it, is below the tolerance; the atoms stay where the loop left
them. -/
theorem minimizationStep_converged_iff (env : Environment) (ff : ForceField)
    (converganceValue : Float) (drawn : Nat) :
    ((ff.minimizationStep env converganceValue drawn).converged = true
        ↔ ((ff.lineSearch env drawn).forceField.rootMeanSquareGradient env).1 < converganceValue)
      ∧ (ff.minimizationStep env converganceValue drawn).forceField
          = (ff.lineSearch env drawn).forceField := by
  unfold ForceField.minimizationStep
  simp only [decide_eq_true_eq, rootMeanSquareGradient_forceField, and_self]

/-! ### The energy never increases -/

theorem lineSearchIteration_energy (env : Environment) (s : LineSearch) (e0 e : ℚ)
    (hinit : s.initialEnergy = num e) (henergy : s.forceField.energy env = num e)
    (hle : e ≤ e0)
    (hfinal : ∀ x ∈ (lineSearchIteration env s).1.energies, x ≠ nan) :
    ∃ e', (lineSearchIteration env s).1.forceField.energy env = num e' ∧ e' ≤ e0
      ∧ ((lineSearchIteration env s).2 = false →
          (lineSearchIteration env s).1.initialEnergy = num e') := by
  have hmem : ForceField.energy env
      { s.forceField with atoms := moveAtoms s.forceField.atoms s.gradient s.step }
        ∈ (lineSearchIteration env s).1.energies := by
    rw [(lineSearchIteration_record env s).2]
    simp
  obtain ⟨ef, hef⟩ := Float.eq_num_of_ne_nan (hfinal _ hmem)
  unfold lineSearchIteration
  simp only [hef, hinit, Float.qIsNaN_num, Bool.false_eq_true, if_false, Float.num_lt_num]
  split_ifs with h1 h2 hcap h3
  · exact ⟨ef, hef, le_trans (le_of_lt h1.1) hle, fun h => absurd h (by simp)⟩
  · exact ⟨ef, hef, le_trans (le_of_lt h2) hle, fun _ => rfl⟩
  · exact ⟨ef, hef, le_trans (le_of_lt h2) hle, fun _ => rfl⟩
  · refine ⟨e, ?_, hle, fun _ => rfl⟩
    simp only [restoreAtoms_moveAtoms]
    exact henergy
  · have hee : ef = e := le_antisymm (not_lt.1 h3) (not_lt.1 h2)
    exact ⟨ef, hef, by rw [hee]; exact hle, fun _ => by rw [hee]⟩

theorem lineSearchLoop_energy (env : Environment) (e0 : ℚ) :
    ∀ (n : Nat) (s : LineSearch) (e : ℚ), s.initialEnergy = num e →
      s.forceField.energy env = num e → e ≤ e0 →
      (∀ x ∈ (lineSearchLoop env n s).energies, x ≠ nan) →
      ∃ e', (lineSearchLoop env n s).forceField.energy env = num e' ∧ e' ≤ e0
  | 0, s, e, _, henergy, hle, _ => ⟨e, henergy, hle⟩
  | n + 1, s, e, hinit, henergy, hle, hall => by
    have hrec := lineSearchLoop_record env n (lineSearchIteration env s).1
    unfold lineSearchLoop at hall ⊢
    simp only at hall ⊢
    cases hstop : (lineSearchIteration env s).2 with
    | true =>
      simp only [hstop, if_true] at hall ⊢
      obtain ⟨e', h1, h2, _⟩ := lineSearchIteration_energy env s e0 e hinit henergy hle hall
      exact ⟨e', h1, h2⟩
    | false =>
      simp only [hstop, Bool.false_eq_true, if_false] at hall ⊢
      obtain ⟨e', h1, h2, h3⟩ := lineSearchIteration_energy env s e0 e hinit henergy hle
        (fun x hx => hall x (hrec.2.2.2 x hx))
      exact lineSearchLoop_energy env e0 n _ e' (h3 hstop) h1 h2 hall

/-- In exact arithmetic: when no total energy evaluated during a call of
`minimizationStep` is NaN, the total energy at the positions the call
leaves is at most the total energy at the positions before the call. -/
theorem minimizationStep_energy_le_exact (env : Environment) (ff : ForceField)
    (converganceValue : Float) (drawn : Nat)
    (hnan : ∀ x ∈ (ff.minimizationStep env converganceValue drawn).energies, x ≠ nan) :
    (ff.minimizationStep env converganceValue drawn).forceField.energy env ≤ ff.energy env := by
  have hff : (ff.minimizationStep env converganceValue drawn).forceField
      = (ff.lineSearch env drawn).forceField := by
    unfold ForceField.minimizationStep
    simp only [rootMeanSquareGradient_forceField]
  have hen : (ff.minimizationStep env converganceValue drawn).energies
      = (ff.lineSearch env drawn).energies := rfl
  rw [hff]
  rw [hen] at hnan
  unfold ForceField.lineSearch ForceField.lineSearchStart at hnan ⊢
  simp only [gradient_forceField] at hnan ⊢
  have hrec := lineSearchLoop_record env 10
    { forceField := ff, gradient := (ff.gradient env).1, step := num (1 / 20),
      initialEnergy := ff.energy env, drawn := drawn, iterations := 0,
      energies := [ff.energy env] }
  obtain ⟨e0, he0⟩ := Float.eq_num_of_ne_nan
    (hnan _ (hrec.2.2.2 _ (List.mem_singleton.2 rfl)))
  obtain ⟨e', h1, h2⟩ := lineSearchLoop_energy env e0 10 _ e0 he0 he0 (le_refl _) hnan
  rw [h1, he0]
  exact h2

theorem lineSearchIteration_calculations (env : Environment) (s : LineSearch) :
    (lineSearchIteration env s).1.forceField.calculations = s.forceField.calculations := by
  unfold lineSearchIteration
  simp only [gradient_forceField]
  split_ifs <;> rfl

theorem lineSearchLoop_energies (env : Environment) (cs : List ForceFieldCalculation) :
    ∀ (n : Nat) (s : LineSearch), s.forceField.calculations = cs →
      (∀ x ∈ s.energies, ∃ atoms, x = (cs.map (fun c => c.energy atoms)).sum) →
      ∀ x ∈ (lineSearchLoop env n s).energies,
        ∃ atoms, x = (cs.map (fun c => c.energy atoms)).sum
  | 0, _, _, h => h
  | n + 1, s, hcs, h => by
    have hstep : ∀ x ∈ (lineSearchIteration env s).1.energies,
        ∃ atoms, x = (cs.map (fun c => c.energy atoms)).sum := by
      intro x hx
      rw [(lineSearchIteration_record env s).2, List.mem_append, List.mem_singleton] at hx
      rcases hx with hx | hx
      · exact h x hx
      · refine ⟨moveAtoms s.forceField.atoms s.gradient s.step, ?_⟩
        rw [hx, energy_eq_sum, ← hcs]
    have hcs' : (lineSearchIteration env s).1.forceField.calculations = cs := by
      rw [lineSearchIteration_calculations, hcs]
    unfold lineSearchLoop
    simp only
    split_ifs
    · exact hstep
    · exact lineSearchLoop_energies env cs n _ hcs' hstep

/-- Every total energy evaluated by `minimizationStep` is the sum of the
energies of the calculations of the force field at some positions of the
atoms. -/
theorem minimizationStep_energies (env : Environment) (ff : ForceField)
    (converganceValue : Float) (drawn : Nat) :
    ∀ x ∈ (ff.minimizationStep env converganceValue drawn).energies,
      ∃ atoms, x = (ff.calculations.map (fun c => c.energy atoms)).sum := by
  have hen : (ff.minimizationStep env converganceValue drawn).energies
      = (ff.lineSearch env drawn).energies := rfl
  rw [hen]
  unfold ForceField.lineSearch ForceField.lineSearchStart
  simp only [gradient_forceField]
  apply lineSearchLoop_energies env ff.calculations 10 _ rfl
  intro x hx
  rw [List.mem_singleton] at hx
  exact ⟨ff.atoms, by rw [hx, energy_eq_sum]⟩

theorem exampleCalculation_energy_ne_nan (address : Nat) (setup : Bool)
    (atoms : List ForceFieldAtom) :
    ([exampleCalculation address setup].map (fun c => c.energy atoms)).sum ≠ nan := by
  simp only [List.map_cons, List.map_nil, List.sum_cons, List.sum_nil, add_zero]
  unfold exampleCalculation
  simp only
  split <;> exact fun h => Float.noConfusion h

/-! ### Harmonic bond stretch at the equilibrium length -/

/-- C8: for numbers `k` and `r0`, two atoms at distance `r0` and a
distance gradient made of numbers, the amber and the uff bond-stretch
terms have energy 0 and the zero vector as gradient on both atoms. -/
theorem bondStretch_at_equilibrium (k r0 : ℚ) (g0x g0y g0z g1x g1y g1z : ℚ) :
    AmberBondCalculation.energy (num k) (num r0) (num r0) = 0
      ∧ AmberBondCalculation.gradient (num k) (num r0) (num r0)
          [⟨num g0x, num g0y, num g0z⟩, ⟨num g1x, num g1y, num g1z⟩] = [0, 0]
      ∧ UffBondStrechCalculation.energy (num k) (num r0) (num r0) = 0
      ∧ UffBondStrechCalculation.gradient (num k) (num r0) (num r0)
          [⟨num g0x, num g0y, num g0z⟩, ⟨num g1x, num g1y, num g1z⟩] = [0, 0] := by
  simp [AmberBondCalculation.energy, AmberBondCalculation.gradient,
    UffBondStrechCalculation.energy, UffBondStrechCalculation.gradient, scaleFirstTwo,
    Vector3.scaled, Float.zero_eq_num, Vector3.zero_eq_mk]


/-! ### The parallel and the sequential path of `energy()` -/

/-- C11: for the same calculations and atoms, the value of the parallel
path of `energy()` (the energies reduced by addition from zero in the
order the environment chooses) is the value of the sequential path (the
sum in list order); the same holds when the energies are first reduced
in groups and the group results are then reduced, and so `energy()` is
the sequential sum for every number of calculations. -/
theorem energy_parallel_eq_sequential (env : Environment) (atoms : List ForceFieldAtom)
    (cs : List ForceFieldCalculation) :
    blockingMappedReduced env cs (mapEnergy atoms) reduceEnergy
        = cs.foldl (fun energy calculation => energy + calculation.energy atoms) 0
      ∧ (∀ groups : List (List Float), groups.flatten.Perm (cs.map (mapEnergy atoms)) →
          (groups.map (fun group => group.foldl reduceEnergy 0)).foldl reduceEnergy 0
            = cs.foldl (fun energy calculation => energy + calculation.energy atoms) 0)
      ∧ (∀ ff : ForceField, ff.energy env
          = ff.calculations.foldl
              (fun energy calculation => energy + calculation.energy ff.atoms) 0) := by
  have hfold : reduceEnergy = fun x y : Float => x + y := rfl
  have hseq : ∀ (l : List ForceFieldCalculation) (a : List ForceFieldAtom),
      l.foldl (fun energy calculation => energy + calculation.energy a) 0
        = (l.map (mapEnergy a)).sum := by
    intro l a
    rw [foldl_energy_eq, foldl_add_eq_sum, zero_add]
    rfl
  refine ⟨?_, ?_, ?_⟩
  · unfold blockingMappedReduced
    rw [hfold, foldl_add_eq_sum, zero_add, (env.reduceOrder_perm _).sum_eq, hseq]
  · intro groups hperm
    rw [hseq, ← hperm.sum_eq, List.sum_flatten, hfold, foldl_add_eq_sum, zero_add]
    congr 1
    apply List.map_congr_left
    intro group _
    rw [foldl_add_eq_sum, zero_add]
  · intro ff
    rw [energy_eq_sum, hseq]
    rfl

/-! ### The rejected step of the line search -/

/-- C20: in an inner iteration whose new total energy is greater than
the baseline (so neither is NaN), the iteration ends with every atom
where it was before the move, the step size multiplied by 0.1 and the
baseline unchanged, and the loop goes on. -/
theorem lineSearchIteration_rejected (env : Environment) (s : LineSearch)
    (h : s.initialEnergy < ForceField.energy env
      { s.forceField with atoms := moveAtoms s.forceField.atoms s.gradient s.step }) :
    (lineSearchIteration env s).1.forceField = s.forceField
      ∧ (lineSearchIteration env s).1.forceField.atoms.map (fun atom => atom.position)
          = s.forceField.atoms.map (fun atom => atom.position)
      ∧ (lineSearchIteration env s).1.step = s.step * num (1 / 10)
      ∧ (lineSearchIteration env s).1.initialEnergy = s.initialEnergy
      ∧ (lineSearchIteration env s).1.gradient = s.gradient
      ∧ (lineSearchIteration env s).2 = false := by
  obtain ⟨e, he⟩ : ∃ e, s.initialEnergy = num e := by
    cases hs : s.initialEnergy with
    | nan => rw [hs] at h; exact absurd h (Float.not_nan_lt _)
    | num e => exact ⟨e, rfl⟩
  obtain ⟨ef, hef⟩ : ∃ ef, ForceField.energy env
      { s.forceField with atoms := moveAtoms s.forceField.atoms s.gradient s.step } = num ef := by
    cases hs : ForceField.energy env
        { s.forceField with atoms := moveAtoms s.forceField.atoms s.gradient s.step } with
    | nan => rw [hs] at h; exact absurd h (Float.not_lt_nan _)
    | num ef => exact ⟨ef, rfl⟩
  rw [he, hef, Float.num_lt_num] at h
  have hnot : ¬ ef < e := not_lt.2 (le_of_lt h)
  unfold lineSearchIteration
  simp only [hef, he, Float.qIsNaN_num, Bool.false_eq_true, if_false, Float.num_lt_num, hnot,
    false_and, h, if_true, restoreAtoms_moveAtoms, and_self]

theorem lineSearchIteration_rejected_witness :
    exampleLineSearch.initialEnergy < ForceField.energy exampleEnvironment
        { exampleLineSearch.forceField with
          atoms := moveAtoms exampleLineSearch.forceField.atoms exampleLineSearch.gradient
            exampleLineSearch.step }
      ∧ (lineSearchIteration exampleEnvironment exampleLineSearch).1.forceField
          = exampleLineSearch.forceField
      ∧ (lineSearchIteration exampleEnvironment exampleLineSearch).1.step = num (1 / 25) := by
  have h : exampleLineSearch.initialEnergy < ForceField.energy exampleEnvironment
      { exampleLineSearch.forceField with
        atoms := moveAtoms exampleLineSearch.forceField.atoms exampleLineSearch.gradient
          exampleLineSearch.step } := by
    rw [energy_eq_sum]
    simp [exampleLineSearch, exampleForceField, exampleCalculation, moveAtoms,
      ForceFieldAtom.moveBy, Vector3.moveBy, Vector3.add, Vector3.scaled, Vector3.neg_eq_mk]
    norm_num
  have hs := lineSearchIteration_rejected exampleEnvironment exampleLineSearch h
  refine ⟨h, hs.1, ?_⟩
  rw [hs.2.2.1]
  simp [exampleLineSearch]
  norm_num


/-! ### The root mean square gradient -/

theorem foldl_lengthSquared_eq_sum (g : List Vector3) :
    g.foldl (fun sum v => sum + v.lengthSquared) 0 = (g.map Vector3.lengthSquared).sum := by
  rw [← List.foldl_map (g := fun (x y : Float) => x + y), foldl_add_eq_sum, zero_add]

theorem rootMeanSquareGradient_value (env : Environment) (ff : ForceField) :
    (ff.atomCount = 0 → (ff.rootMeanSquareGradient env).1 = 0)
      ∧ (ff.atomCount ≠ 0 → (ff.rootMeanSquareGradient env).1
          = env.sqrt (((ff.gradient env).1.map Vector3.lengthSquared).sum
              / (num 3 * num ff.atomCount))) := by
  constructor
  · intro h
    have hs : ff.size = 0 := h
    unfold ForceField.rootMeanSquareGradient
    rw [if_pos hs]
  · intro h
    have hs : ¬ ff.size = 0 := h
    unfold ForceField.rootMeanSquareGradient
    rw [if_neg hs]
    simp only [foldl_lengthSquared_eq_sum]
    rfl

/-- C12, as the code has it: without atoms `rootMeanSquareGradient()` is
0, and with `N` atoms it is the square root of the sum of the squared
lengths of the gradient vectors divided by `3 N`, the mean being taken
over the `3 N` coordinates. -/
theorem rootMeanSquareGradient_eq (env : Environment) (ff : ForceField) :
    (ff.atomCount = 0 → (ff.rootMeanSquareGradient env).1 = 0)
      ∧ (ff.atomCount ≠ 0 → (ff.rootMeanSquareGradient env).1
          = env.sqrt (((ff.gradient env).1.map Vector3.lengthSquared).sum
              / (num 3 * num ff.atomCount))) :=
  rootMeanSquareGradient_value env ff

theorem exampleLinear_gradient :
    ((exampleForceField 0 [exampleLinearCalculation 1]).gradient exampleRootEnvironment).1
      = [⟨num 2, num 2, num 2⟩] := by
  simp [ForceField.gradient, exampleForceField, exampleLinearCalculation, accumulate, addAt,
    ForceField.atomCount, Vector3.zero_eq_mk]
  show Vector3.add _ _ = _
  simp [Vector3.add]

/-- C12, as stated, fails: for one atom with gradient `(2, 2, 2)` the sum
of the squared lengths over `N` is 12, and `rootMeanSquareGradient()`
returns 2, the square root of 12 / 3, which is neither the square root
of 12 taken by the environment nor a number whose square is 12. -/
theorem rootMeanSquareGradient_not_over_atoms :
    (((exampleForceField 0 [exampleLinearCalculation 1]).gradient
          exampleRootEnvironment).1.map Vector3.lengthSquared).sum
        / num (exampleForceField 0 [exampleLinearCalculation 1]).atomCount = num 12
      ∧ ((exampleForceField 0 [exampleLinearCalculation 1]).rootMeanSquareGradient
          exampleRootEnvironment).1 = num 2
      ∧ exampleRootEnvironment.sqrt (num 12) = num 3
      ∧ ((exampleForceField 0 [exampleLinearCalculation 1]).rootMeanSquareGradient
            exampleRootEnvironment).1
          ≠ exampleRootEnvironment.sqrt
              ((((exampleForceField 0 [exampleLinearCalculation 1]).gradient
                  exampleRootEnvironment).1.map Vector3.lengthSquared).sum
                / num (exampleForceField 0 [exampleLinearCalculation 1]).atomCount)
      ∧ num 2 * num 2 ≠ num 12 := by
  have hsum : (((exampleForceField 0 [exampleLinearCalculation 1]).gradient
        exampleRootEnvironment).1.map Vector3.lengthSquared).sum = num 12 := by
    rw [exampleLinear_gradient]
    simp [Vector3.lengthSquared]
    norm_num
  have hcount : (exampleForceField 0 [exampleLinearCalculation 1]).atomCount = 1 := rfl
  have hdiv : (num 12 : Float) / num ((1 : ℕ) : ℚ) = num 12 := by
    show Float.div _ _ = _
    simp [Float.div]
  have hdiv3 : (num 12 : Float) / (num 3 * num ((1 : ℕ) : ℚ)) = num 4 := by
    show Float.div _ (Float.mul _ _) = _
    simp [Float.div, Float.mul]
    norm_num
  have hsqrt4 : exampleSqrt (num 4) = num 2 := by
    simp [exampleSqrt]
    norm_num [Nat.sqrt]
  have hsqrt12 : exampleSqrt (num 12) = num 3 := by
    simp [exampleSqrt]
    norm_num [Nat.sqrt]
  have hrms : ((exampleForceField 0 [exampleLinearCalculation 1]).rootMeanSquareGradient
      exampleRootEnvironment).1 = num 2 := by
    rw [(rootMeanSquareGradient_value exampleRootEnvironment _).2 (by decide), hsum, hcount, hdiv3]
    exact hsqrt4
  refine ⟨by rw [hsum, hcount, hdiv], hrms, hsqrt12, ?_, ?_⟩
  · rw [hrms, hsum, hcount, hdiv]
    show num 2 ≠ exampleSqrt (num 12)
    rw [hsqrt12]
    intro h
    injection h with h
    norm_num at h
  · intro h
    injection h with h
    norm_num at h


/-! ### The center of mass -/

/-- C16: for two atoms of mass 1 at the origin and at `(2, 0, 0)`,
`centerOfMass()` divides the weighted sums by `int(sw * size()) = 4` and
returns `(1/2, 0, 0)`, whereas the mass-weighted mean position is
`(1, 0, 0)`. -/
theorem centerOfMass_divides_by_size :
    exampleMolecule.centerOfMass = ⟨num (1 / 2), num 0, num 0⟩
      ∧ exampleMolecule.massWeightedMean = ⟨num 1, num 0, num 0⟩
      ∧ exampleMolecule.centerOfMass ≠ exampleMolecule.massWeightedMean := by
  have h1 : exampleMolecule.centerOfMass = ⟨num (1 / 2), num 0, num 0⟩ := by
    simp [Molecule.centerOfMass, Molecule.isEmpty, Molecule.size, Molecule.atomCount,
      exampleMolecule, Molecule.centerOfMassLoop, Float.zero_eq_num, Float.ofInt, Float.toInt]
    norm_num
  have h2 : exampleMolecule.massWeightedMean = ⟨num 1, num 0, num 0⟩ := by
    simp [Molecule.massWeightedMean, exampleMolecule, Float.zero_eq_num]
    norm_num
  refine ⟨h1, h2, ?_⟩
  rw [h1, h2]
  intro h
  injection h with hx
  injection hx with hx
  norm_num at hx


/-! ### Internal coordinates given in radians -/

/-- C18: on internal coordinates with one row, after
`setCoordinatesRadians(0, 1, 0, 0)` the call `coordinates(0)` returns the
distance multiplied by `RadiansToDegrees`, for every value of that
constant; with the constant at `180 / Pi` the distance read back is not
the distance 1 that was set. -/
theorem setCoordinatesRadians_scales_distance :
    (∀ k : Constants,
        (exampleInternalCoordinates.setCoordinatesRadians k 0 (num 1) (num 0) (num 0)).bind
            (fun ic => ic.coordinates 0)
          = some [num 1 * k.RadiansToDegrees, num 0 * k.RadiansToDegrees,
              num 0 * k.RadiansToDegrees])
      ∧ (exampleInternalCoordinates.setCoordinatesRadians exampleConstants 0 (num 1) (num 0)
            (num 0)).bind (fun ic => ic.coordinates 0)
          = some [num (180000000000000000 / 3141592653589793), num 0, num 0]
      ∧ num (180000000000000000 / 3141592653589793) ≠ num 1 := by
  refine ⟨?_, ?_, ?_⟩
  · intro k
    simp [InternalCoordinates.setCoordinatesRadians, InternalCoordinates.coordinates,
      exampleInternalCoordinates]
  · simp [InternalCoordinates.setCoordinatesRadians, InternalCoordinates.coordinates,
      exampleInternalCoordinates, exampleConstants]
    norm_num
  · intro h
    injection h with h
    norm_num at h

/-! ### The gradient of a scalar field -/

/-- The vector `ScalarField::gradient` returns is, in every component,
the difference `value(p - h e) - value(p + h e)` over `2 h`. -/
theorem ScalarField.gradient_components (f : ScalarField) (p : Point3) :
    (f.gradient p).x
        = (f.valueAt (p.moveBy3 (-num (1 / 10000)) 0 0) - f.valueAt (p.moveBy3 (num (1 / 10000)) 0 0))
            / (num 2 * num (1 / 10000))
      ∧ (f.gradient p).y
        = (f.valueAt (p.moveBy3 0 (-num (1 / 10000)) 0) - f.valueAt (p.moveBy3 0 (num (1 / 10000)) 0))
            / (num 2 * num (1 / 10000))
      ∧ (f.gradient p).z
        = (f.valueAt (p.moveBy3 0 0 (-num (1 / 10000))) - f.valueAt (p.moveBy3 0 0 (num (1 / 10000))))
            / (num 2 * num (1 / 10000)) :=
  ⟨rfl, rfl, rfl⟩

theorem exampleScalarField_valueAt (x : ℚ) (hx0 : 0 ≤ x) (hx1 : x < 1) :
    exampleScalarField.valueAt ⟨num x, num (1 / 2), num (1 / 2)⟩ = num x := by
  have hfx : ⌊x⌋ = 0 := by
    rw [Int.floor_eq_iff]
    constructor
    · simpa using hx0
    · simpa using hx1
  have hfh : ⌊(2⁻¹ : ℚ)⌋ = 0 := by norm_num
  simp [ScalarField.valueAt, ScalarField.value, exampleScalarField, Float.floorInt,
    Float.ofInt, hfx, hfh, Float.zero_eq_num]

/-- C19: on a field whose value increases along the first axis (value
`i` at the grid point `(i, j, k)`, interpolated value `x` inside the first
cell), `ScalarField::gradient` at `(1/2, 1/2, 1/2)` has first component
`-1`, while the central difference `(value(p + h e) - value(p - h e)) /
(2 h)` is `+1`. -/
theorem scalarField_gradient_sign :
    (exampleScalarField.gradient ⟨num (1 / 2), num (1 / 2), num (1 / 2)⟩).x = num (-1)
      ∧ (exampleScalarField.centralDifference ⟨num (1 / 2), num (1 / 2), num (1 / 2)⟩).x
          = num 1 := by
  have hp : exampleScalarField.valueAt
      (Vector3.moveBy3 ⟨num (1 / 2), num (1 / 2), num (1 / 2)⟩ (num (1 / 10000)) 0 0)
        = num (1 / 2 + 1 / 10000) := by
    have h := exampleScalarField_valueAt (1 / 2 + 1 / 10000) (by norm_num) (by norm_num)
    rw [← h]
    simp [Vector3.moveBy3, Float.zero_eq_num]
  have hm : exampleScalarField.valueAt
      (Vector3.moveBy3 ⟨num (1 / 2), num (1 / 2), num (1 / 2)⟩ (-num (1 / 10000)) 0 0)
        = num (1 / 2 - 1 / 10000) := by
    have h := exampleScalarField_valueAt (1 / 2 - 1 / 10000) (by norm_num) (by norm_num)
    rw [← h]
    simp [Vector3.moveBy3, Float.zero_eq_num]
    norm_num
  constructor
  · rw [(ScalarField.gradient_components _ _).1, hp, hm]
    simp
    norm_num
  · show (exampleScalarField.valueAt (Vector3.moveBy3 _ (num (1 / 10000)) 0 0)
        - exampleScalarField.valueAt (Vector3.moveBy3 _ (-num (1 / 10000)) 0 0))
          / (num 2 * num (1 / 10000)) = num 1
    rw [hp, hm]
    simp
    norm_num


/-! ### The result of `MmffForceField::setup` -/

theorem foldl_setupLoop (outcome : Nat → Bool) :
    ∀ (l : List ForceFieldCalculation) (ok : Bool) (g : ForceField),
      (l.foldl (MmffForceField.setupLoop outcome) (ok, g)).1
          = (ok && l.all (fun c => outcome c.address))
        ∧ (l.foldl (MmffForceField.setupLoop outcome) (ok, g)).2.calculations
          = g.calculations.map (fun c =>
              if c.address ∈ l.map (fun d => d.address) then c.setSetup (outcome c.address)
              else c)
  | [], ok, g => by simp
  | c0 :: l, ok, g => by
    obtain ⟨h1, h2⟩ := foldl_setupLoop outcome l
      (MmffForceField.setupLoop outcome (ok, g) c0).1
      (MmffForceField.setupLoop outcome (ok, g) c0).2
    rw [List.foldl_cons]
    constructor
    · rw [h1]
      simp only [MmffForceField.setupLoop, List.all_cons]
      cases outcome c0.address <;> cases ok <;> simp
    · rw [h2]
      simp only [MmffForceField.setupLoop, ForceField.setCalculationSetup, List.map_map,
        List.map_cons, List.mem_cons]
      apply List.map_congr_left
      intro c _
      simp only [Function.comp]
      by_cases hc0 : c.address = c0.address
      · have haddr : (c.setSetup (outcome c0.address)).address = c.address := rfl
        simp only [hc0, if_true, true_or, haddr]
        split_ifs <;> rfl
      · simp only [hc0, if_false, false_or]

/-- C14: once the parameter file is loaded, `MmffForceField::setup` sets
up every calculation of `calculations()` and records each result as the
setup flag; it returns true exactly when every one of these results is
true, and its return value is the value of `isSetup()` afterwards. -/
theorem mmffSetup_result (stale readOk : Bool) (outcome : Nat → Bool) (ff : ForceField)
    (atoms : List ForceFieldAtom) (calculations : List ForceFieldCalculation)
    (hloaded : (stale && !readOk) = false) :
    (MmffForceField.setup stale readOk outcome ff atoms calculations).2.calculations
        = (ff.calculations ++ calculations).map (fun c => c.setSetup (outcome c.address))
      ∧ (∀ c ∈ (MmffForceField.setup stale readOk outcome ff atoms calculations).2.calculations,
          c.setup = outcome c.address)
      ∧ ((MmffForceField.setup stale readOk outcome ff atoms calculations).1 = true
          ↔ ∀ c ∈ ff.calculations ++ calculations, outcome c.address = true)
      ∧ (MmffForceField.setup stale readOk outcome ff atoms calculations).1
          = (MmffForceField.setup stale readOk outcome ff atoms calculations).2.isSetup := by
  unfold MmffForceField.setup
  rw [hloaded]
  simp only [Bool.false_eq_true, if_false]
  obtain ⟨h1, h2⟩ := foldl_setupLoop outcome (ff.calculations ++ calculations) true
    { ff with atoms := ff.atoms ++ atoms, calculations := ff.calculations ++ calculations }
  have hcalcs : (List.foldl (MmffForceField.setupLoop outcome)
      (true, { ff with atoms := ff.atoms ++ atoms,
                       calculations := ff.calculations ++ calculations })
      (ff.calculations ++ calculations)).2.calculations
        = (ff.calculations ++ calculations).map (fun c => c.setSetup (outcome c.address)) := by
    rw [h2]
    apply List.map_congr_left
    intro c hc
    rw [if_pos (List.mem_map_of_mem (fun d => d.address) hc)]
  have hflags : ∀ c ∈ (ff.calculations ++ calculations).map
      (fun c => c.setSetup (outcome c.address)), c.setup = outcome c.address := by
    intro c hc
    obtain ⟨d, _, hd⟩ := List.mem_map.1 hc
    rw [← hd]
    rfl
  have hok : (List.foldl (MmffForceField.setupLoop outcome)
      (true, { ff with atoms := ff.atoms ++ atoms,
                       calculations := ff.calculations ++ calculations })
      (ff.calculations ++ calculations)).1 = true
        ↔ ∀ c ∈ ff.calculations ++ calculations, outcome c.address = true := by
    rw [h1]
    simp only [Bool.true_and, List.all_eq_true]
  refine ⟨hcalcs, ?_, hok, ?_⟩
  · rw [hcalcs]
    exact hflags
  · rw [Bool.eq_iff_iff, hok]
    unfold ForceField.isSetup
    rw [isSetupLoop_iff, hcalcs]
    constructor
    · intro h c hc
      rw [hflags c hc]
      obtain ⟨d, hd, hdc⟩ := List.mem_map.1 hc
      rw [← hdc]
      exact h d hd
    · intro h c hc
      have hmem := List.mem_map_of_mem (fun c => c.setSetup (outcome c.address)) hc
      have := h _ hmem
      rw [hflags _ hmem] at this
      exact this

theorem mmffSetup_result_witness :
    (false && !true) = false
      ∧ (MmffForceField.setup false true (fun address => decide (address = 1))
            (exampleForceField 0 [exampleCalculation 1 false]) [] [exampleCalculation 2 false]).1
          = (MmffForceField.setup false true (fun address => decide (address = 1))
            (exampleForceField 0 [exampleCalculation 1 false]) []
              [exampleCalculation 2 false]).2.isSetup :=
  ⟨rfl, (mmffSetup_result false true (fun address => decide (address = 1))
    (exampleForceField 0 [exampleCalculation 1 false]) [] [exampleCalculation 2 false] rfl).2.2.2⟩


/-! ### Coordinate synchronization -/

theorem atomLoop_some (a : Nat) :
    ∀ (l : List ForceFieldAtom) (k i : Nat), atomLoop a l k = some i →
      k ≤ i ∧ ∃ f, l[i - k]? = some f ∧ f.atom = a
  | [], _, _, h => by simp [atomLoop] at h
  | f :: l, k, i, h => by
    unfold atomLoop at h
    by_cases hf : f.atom = a
    · rw [if_pos hf] at h
      injection h with h
      subst h
      exact ⟨le_refl _, f, by simp, hf⟩
    · rw [if_neg hf] at h
      obtain ⟨hle, g, hg, hga⟩ := atomLoop_some a l (k + 1) i h
      refine ⟨by omega, g, ?_, hga⟩
      have hi : i - k = (i - (k + 1)) + 1 := by omega
      rw [hi, List.getElem?_cons_succ]
      exact hg

theorem atomLoop_congr (a : Nat) :
    ∀ (l l' : List ForceFieldAtom) (k : Nat),
      l.map (fun f => f.atom) = l'.map (fun f => f.atom) → atomLoop a l k = atomLoop a l' k
  | [], [], _, _ => rfl
  | [], _ :: _, _, h => by simp at h
  | _ :: _, [], _, h => by simp at h
  | f :: l, g :: l', k, h => by
    simp only [List.map_cons, List.cons.injEq] at h
    unfold atomLoop
    rw [h.1, atomLoop_congr a l l' (k + 1) h.2]

theorem forceField_atom_some (ff : ForceField) (a i : Nat) (h : ff.atom a = some i) :
    ∃ f, ff.atoms[i]? = some f ∧ f.atom = a := by
  obtain ⟨_, f, hf, hfa⟩ := atomLoop_some a ff.atoms 0 i h
  exact ⟨f, by simpa using hf, hfa⟩

theorem readCoordinatesAtom_atoms (ff : ForceField) (a : Atom) :
    (ff.readCoordinatesAtom a).atoms.map (fun f => f.atom) = ff.atoms.map (fun f => f.atom) := by
  unfold ForceField.readCoordinatesAtom
  cases hidx : ff.atom a.address with
  | none => rfl
  | some i =>
    cases hf : ff.atoms[i]? with
    | none => simp only [hf]
    | some f =>
      simp only [hf, List.map_set]
      apply set_of_getElem?
      rw [List.getElem?_map, hf]
      rfl

theorem readCoordinatesAtom_atom (ff : ForceField) (a : Atom) (p : Nat) :
    (ff.readCoordinatesAtom a).atom p = ff.atom p :=
  atomLoop_congr p _ _ 0 (readCoordinatesAtom_atoms ff a)

theorem readCoordinatesAtom_getElem? (ff : ForceField) (a : Atom) (j : Nat) :
    (ff.readCoordinatesAtom a).atoms[j]?
      = if ff.atom a.address = some j then
          ff.atoms[j]?.map (fun f => f.setPosition a.position)
        else ff.atoms[j]? := by
  unfold ForceField.readCoordinatesAtom
  cases hidx : ff.atom a.address with
  | none => simp
  | some i =>
    obtain ⟨f, hf, _⟩ := forceField_atom_some ff a.address i hidx
    have hlt : i < ff.atoms.length := (List.getElem?_eq_some.1 hf).1
    simp only [hf, Option.some.injEq]
    by_cases hij : i = j
    · subst hij
      simp [List.getElem?_set, hlt, hf]
    · simp [List.getElem?_set, hij]

theorem readCoordinates_atom (p : Nat) :
    ∀ (atoms : List Atom) (ff : ForceField),
      (atoms.foldl ForceField.readCoordinatesAtom ff).atom p = ff.atom p
  | [], _ => rfl
  | a :: atoms, ff => by
    rw [List.foldl_cons, readCoordinates_atom p atoms, readCoordinatesAtom_atom]

theorem readCoordinates_frame (j : Nat) :
    ∀ (atoms : List Atom) (ff : ForceField), (∀ a ∈ atoms, ff.atom a.address ≠ some j) →
      (atoms.foldl ForceField.readCoordinatesAtom ff).atoms[j]? = ff.atoms[j]?
  | [], _, _ => rfl
  | a :: atoms, ff, h => by
    rw [List.foldl_cons, readCoordinates_frame j atoms, readCoordinatesAtom_getElem?,
      if_neg (h a (List.mem_cons_self _ _))]
    intro b hb
    rw [readCoordinatesAtom_atom]
    exact h b (List.mem_cons_of_mem _ hb)

theorem readCoordinates_getElem? :
    ∀ (atoms : List Atom) (ff : ForceField), (atoms.map (fun a => a.address)).Nodup →
      ∀ a ∈ atoms, ∀ i, ff.atom a.address = some i →
        (atoms.foldl ForceField.readCoordinatesAtom ff).atoms[i]?
          = ff.atoms[i]?.map (fun f => f.setPosition a.position)
  | [], _, _, _, h, _, _ => by simp at h
  | a0 :: atoms, ff, hd, a, ha, i, hi => by
    rw [List.map_cons, List.nodup_cons] at hd
    rw [List.foldl_cons]
    rcases List.mem_cons.1 ha with h0 | hrest
    · subst h0
      rw [readCoordinates_frame i atoms, readCoordinatesAtom_getElem?, if_pos hi]
      intro b hb hbi
      rw [readCoordinatesAtom_atom] at hbi
      obtain ⟨f, hf, hfa⟩ := forceField_atom_some ff a.address i hi
      obtain ⟨g, hg, hgb⟩ := forceField_atom_some ff b.address i hbi
      rw [hf] at hg
      injection hg with hg
      apply hd.1
      rw [← hfa, hg, hgb]
      exact List.mem_map_of_mem (fun a => a.address) hb
    · rw [readCoordinates_getElem? atoms _ hd.2 a hrest i
        (by rw [readCoordinatesAtom_atom]; exact hi), readCoordinatesAtom_getElem?]
      split_ifs
      · rw [Option.map_map]
        rfl
      · rfl

/-- C13: for a molecule whose atoms are distinct objects,
`readCoordinates(molecule)` gives the force-field atom returned by
`atom(a)` the position of `a` for every atom `a` of the molecule that has
one and leaves every other force-field atom as it was (the molecule is
only read); `writeCoordinates(molecule)` gives each atom that has a
force-field atom the position of that atom and leaves the others (the
force field is only read); and `writeCoordinates` after
`readCoordinates` leaves the molecule as it was. -/
theorem coordinates_synchronization (ff : ForceField) (m : Molecule)
    (hd : (m.atoms.map (fun a => a.address)).Nodup) :
    (∀ a ∈ m.atoms, ∀ i, ff.atom a.address = some i →
        (ff.readCoordinates m).atoms[i]? = ff.atoms[i]?.map (fun f => f.setPosition a.position))
      ∧ (∀ j, (∀ a ∈ m.atoms, ff.atom a.address ≠ some j) →
          (ff.readCoordinates m).atoms[j]? = ff.atoms[j]?)
      ∧ (∀ p, (ff.readCoordinates m).atom p = ff.atom p)
      ∧ (∀ a i f, ff.atom a.address = some i → ff.atoms[i]? = some f →
          ff.writeCoordinatesAtom a = { a with position := f.position })
      ∧ (∀ a, ff.atom a.address = none → ff.writeCoordinatesAtom a = a)
      ∧ (ff.writeCoordinates m).atoms = m.atoms.map ff.writeCoordinatesAtom
      ∧ (ff.readCoordinates m).writeCoordinates m = m := by
  refine ⟨readCoordinates_getElem? m.atoms ff hd, fun j => readCoordinates_frame j m.atoms ff,
    fun p => readCoordinates_atom p m.atoms ff, ?_, ?_, rfl, ?_⟩
  · intro a i f hi hf
    unfold ForceField.writeCoordinatesAtom
    simp only [hi, hf]
  · intro a hnone
    unfold ForceField.writeCoordinatesAtom
    simp only [hnone]
  · unfold ForceField.writeCoordinates
    have hmap : m.atoms.map (ff.readCoordinates m).writeCoordinatesAtom = m.atoms := by
      conv_rhs => rw [← List.map_id m.atoms]
      apply List.map_congr_left
      intro a ha
      unfold ForceField.writeCoordinatesAtom
      have hatom : (ff.readCoordinates m).atom a.address = ff.atom a.address :=
        readCoordinates_atom a.address m.atoms ff
      rw [hatom]
      cases hi : ff.atom a.address with
      | none => rfl
      | some i =>
        obtain ⟨f, hf, _⟩ := forceField_atom_some ff a.address i hi
        have hget := readCoordinates_getElem? m.atoms ff hd a ha i hi
        rw [hf] at hget
        have hget' : (ff.readCoordinates m).atoms[i]? = some (f.setPosition a.position) := hget
        simp only [hget']
        rfl
    simp only [hmap]

theorem coordinates_synchronization_witness :
    (exampleMolecule.atoms.map (fun a => a.address)).Nodup
      ∧ ((exampleForceField 0 []).readCoordinates exampleMolecule).writeCoordinates exampleMolecule
          = exampleMolecule :=
  ⟨by decide, (coordinates_synchronization (exampleForceField 0 []) exampleMolecule
    (by decide)).2.2.2.2.2.2⟩


/-! ### The Wilson angle -/

theorem exampleSqrt_squares :
    exampleSqrt (num 9) = num 3 ∧ exampleSqrt (num 16) = num 4
      ∧ exampleSqrt (num 25) = num 5 := by
  refine ⟨?_, ?_, ?_⟩ <;>
  · simp [exampleSqrt]
    norm_num [Nat.sqrt]

theorem normalized_dot_normalized (sqrt : Float → Float) (v1 v2 v3 w1 w2 w3 m n : ℚ)
    (hv : sqrt (Vector3.lengthSquared ⟨num v1, num v2, num v3⟩) = num m) (hm : m ≠ 0)
    (hw : sqrt (Vector3.lengthSquared ⟨num w1, num w2, num w3⟩) = num n) (hn : n ≠ 0) :
    (Vector3.normalized sqrt ⟨num v1, num v2, num v3⟩).dot
        (Vector3.normalized sqrt ⟨num w1, num w2, num w3⟩)
      = Vector3.dot ⟨num v1, num v2, num v3⟩ ⟨num w1, num w2, num w3⟩
          / (Vector3.length sqrt ⟨num v1, num v2, num v3⟩
              * Vector3.length sqrt ⟨num w1, num w2, num w3⟩)
      ∧ ∃ x, (Vector3.normalized sqrt ⟨num v1, num v2, num v3⟩).dot
          (Vector3.normalized sqrt ⟨num w1, num w2, num w3⟩) = num x := by
  have hmn : m * n ≠ 0 := mul_ne_zero hm hn
  have h : (Vector3.normalized sqrt ⟨num v1, num v2, num v3⟩).dot
      (Vector3.normalized sqrt ⟨num w1, num w2, num w3⟩)
        = num (v1 / m * (w1 / n) + v2 / m * (w2 / n) + v3 / m * (w3 / n)) := by
    simp only [Vector3.normalized, Vector3.length, hv, hw, Vector3.dot, Float.num_div_num,
      if_neg hm, if_neg hn, Float.num_mul_num, Float.num_add_num]
  refine ⟨?_, _, h⟩
  rw [h]
  simp only [Vector3.length, hv, hw, Vector3.dot, Float.num_div_num, if_neg hmn,
    Float.num_mul_num, Float.num_add_num]
  congr 1
  field_simp

theorem lookup_cons_eq (k key : String) (n : Nat) (rest : List (String × Nat)) :
    ((key, n) :: rest).lookup k = if k = key then some n else rest.lookup k := by
  rw [List.lookup_cons]
  by_cases h : k = key
  · simp [h]
  · have hb : (k == key) = false := by simpa using h
    rw [hb, if_neg h]

theorem lookup_eq_none_of_keys (k : String) (m : List (String × Nat))
    (h : k ∉ m.map Prod.fst) : m.lookup k = none := by
  rw [List.lookup_eq_none_iff]
  intro p hp
  have hne : k ≠ p.1 := fun heq => h (by rw [heq]; exact List.mem_map_of_mem Prod.fst hp)
  simpa using hne

theorem mem_keys_of_lookup (k : String) (m : List (String × Nat))
    (h : (m.lookup k).isSome = true) : k ∈ m.map Prod.fst := by
  rw [List.lookup_isSome_iff] at h
  obtain ⟨p, hp, hk⟩ := h
  have hk' : k = p.1 := by simpa using hk
  rw [hk']
  exact List.mem_map_of_mem Prod.fst hp

/-- The effect of `composition[symbol]++` on a map with increasing keys:
the keys stay increasing, the value of the symbol goes up by one from its
old value or from zero, and the other values stay. -/
theorem mapIncrement_lookup (s : String) :
    ∀ m : List (String × Nat), (m.map Prod.fst).Pairwise (fun a b => a < b) →
      ((mapIncrement s m).map Prod.fst).Pairwise (fun a b => a < b)
        ∧ ∀ k, (mapIncrement s m).lookup k
            = if k = s then some ((m.lookup s).getD 0 + 1) else m.lookup k
  | [], _ => by
    refine ⟨by simp [mapIncrement], ?_⟩
    intro k
    simp only [mapIncrement, lookup_cons_eq, List.lookup_nil, Option.getD_none, Nat.zero_add]
  | (key, n) :: rest, hsorted => by
    have hs := hsorted
    simp only [List.map_cons, List.pairwise_cons] at hs
    obtain ⟨hkey, hrest⟩ := hs
    obtain ⟨ih1, ih2⟩ := mapIncrement_lookup s rest hrest
    unfold mapIncrement
    by_cases hlt : s < key
    · rw [if_pos hlt]
      refine ⟨?_, ?_⟩
      · simp only [List.map_cons, List.pairwise_cons]
        refine ⟨?_, hkey, hrest⟩
        intro a ha
        rcases List.mem_cons.1 ha with h | h
        · rw [h]; exact hlt
        · exact lt_trans hlt (hkey a h)
      · intro k
        have hnone : ((key, n) :: rest).lookup s = none := by
          apply lookup_eq_none_of_keys
          intro hmem
          simp only [List.map_cons, List.mem_cons] at hmem
          rcases hmem with h | h
          · rw [h] at hlt; exact lt_irrefl _ hlt
          · exact lt_asymm hlt (hkey s h)
        rw [lookup_cons_eq, hnone]
        rfl
    · rw [if_neg hlt]
      by_cases heq : s = key
      · rw [if_pos heq]
        refine ⟨hsorted, ?_⟩
        intro k
        rw [lookup_cons_eq, lookup_cons_eq, lookup_cons_eq, heq, if_pos rfl]
        by_cases hk : k = key
        · simp [hk]
        · simp [hk]
      · rw [if_neg heq]
        have hgt : key < s := lt_of_le_of_ne (not_lt.1 hlt) (fun h => heq h.symm)
        refine ⟨?_, ?_⟩
        · simp only [List.map_cons, List.pairwise_cons]
          refine ⟨?_, ih1⟩
          intro a ha
          by_cases has : a = s
          · rw [has]; exact hgt
          · apply hkey
            apply mem_keys_of_lookup
            have hsome : ((mapIncrement s rest).lookup a).isSome = true := by
              rw [List.lookup_isSome_iff]
              obtain ⟨p, hp, hpa⟩ := List.mem_map.1 ha
              exact ⟨p, hp, by simp [hpa]⟩
            rw [ih2, if_neg has] at hsome
            exact hsome
        · intro k
          rw [lookup_cons_eq, lookup_cons_eq, lookup_cons_eq, ih2, if_neg heq]
          by_cases hk : k = key
          · rw [if_pos hk, hk, if_neg (fun h => heq h.symm), if_pos rfl]
          · rw [if_neg hk, if_neg hk]


theorem foldl_mapIncrement_lookup :
    ∀ (l l0 : List String) (m : List (String × Nat)),
      (m.map Prod.fst).Pairwise (fun a b => a < b) →
      (∀ k, m.lookup k = if k ∈ l0 then some (l0.count k) else none) →
      ((l.foldl (fun composition s => mapIncrement s composition) m).map Prod.fst).Pairwise
          (fun a b => a < b)
        ∧ ∀ k, (l.foldl (fun composition s => mapIncrement s composition) m).lookup k
            = if k ∈ l0 ++ l then some ((l0 ++ l).count k) else none
  | [], l0, m, hs, hl => by
    refine ⟨hs, ?_⟩
    intro k
    simpa using hl k
  | s :: l, l0, m, hs, hl => by
    obtain ⟨h1, h2⟩ := mapIncrement_lookup s m hs
    have hstep : ∀ k, (mapIncrement s m).lookup k
        = if k ∈ l0 ++ [s] then some ((l0 ++ [s]).count k) else none := by
      intro k
      rw [h2]
      have hval : (m.lookup s).getD 0 = l0.count s := by
        rw [hl s]
        by_cases hmem : s ∈ l0
        · rw [if_pos hmem]; rfl
        · rw [if_neg hmem, List.count_eq_zero_of_not_mem hmem]; rfl
      by_cases hk : k = s
      · subst hk
        rw [if_pos rfl, if_pos (by simp), hval]
        simp
      · rw [if_neg hk, hl k]
        have hcount : (l0 ++ [s]).count k = l0.count k := by
          rw [List.count_append, List.count_singleton]
          have hb : (s == k) = false := by simpa using fun h : s = k => hk h.symm
          simp [hb]
        have hmem : k ∈ l0 ++ [s] ↔ k ∈ l0 := by simp [hk]
        by_cases hin : k ∈ l0
        · rw [if_pos hin, if_pos (hmem.2 hin), hcount]
        · rw [if_neg hin, if_neg (fun h => hin (hmem.1 h))]
    have ih := foldl_mapIncrement_lookup l (l0 ++ [s]) (mapIncrement s m) h1 hstep
    rw [List.foldl_cons]
    have happ : l0 ++ [s] ++ l = l0 ++ s :: l := by simp
    rw [happ] at ih
    exact ih

theorem eq_of_lookup_eq :
    ∀ (m1 m2 : List (String × Nat)), (m1.map Prod.fst).Pairwise (fun a b => a < b) →
      (m2.map Prod.fst).Pairwise (fun a b => a < b) →
      (∀ k, m1.lookup k = m2.lookup k) → m1 = m2
  | [], [], _, _, _ => rfl
  | [], (k2, v2) :: r2, _, _, h => by
    have := h k2
    rw [lookup_cons_eq, if_pos rfl] at this
    simp at this
  | (k1, v1) :: r1, [], _, _, h => by
    have := h k1
    rw [lookup_cons_eq, if_pos rfl] at this
    simp at this
  | (k1, v1) :: r1, (k2, v2) :: r2, hs1, hs2, h => by
    simp only [List.map_cons, List.pairwise_cons] at hs1 hs2
    obtain ⟨hk1, hr1⟩ := hs1
    obtain ⟨hk2, hr2⟩ := hs2
    have hn1 : r1.lookup k1 = none :=
      lookup_eq_none_of_keys k1 r1 (fun hmem => lt_irrefl _ (hk1 k1 hmem))
    have hn2 : r2.lookup k2 = none :=
      lookup_eq_none_of_keys k2 r2 (fun hmem => lt_irrefl _ (hk2 k2 hmem))
    have hkeys : k1 = k2 := by
      by_contra hne
      rcases lt_or_gt_of_ne hne with hlt | hgt
      · have h1 := h k1
        rw [lookup_cons_eq, if_pos rfl, lookup_cons_eq, if_neg hne,
          lookup_eq_none_of_keys k1 r2 (fun hmem => lt_asymm hlt (hk2 k1 hmem))] at h1
        simp at h1
      · have h2 := h k2
        rw [lookup_cons_eq, if_neg (fun heq => hne heq.symm), lookup_cons_eq, if_pos rfl,
          lookup_eq_none_of_keys k2 r1 (fun hmem => lt_asymm hgt (hk1 k2 hmem))] at h2
        simp at h2
    subst hkeys
    have hvals : v1 = v2 := by
      have h1 := h k1
      rw [lookup_cons_eq, if_pos rfl, lookup_cons_eq, if_pos rfl] at h1
      exact Option.some.inj h1
    subst hvals
    have htail : ∀ k, r1.lookup k = r2.lookup k := by
      intro k
      by_cases hk : k = k1
      · rw [hk, hn1, hn2]
      · have hk' := h k
        rw [lookup_cons_eq, if_neg hk, lookup_cons_eq, if_neg hk] at hk'
        exact hk'
    rw [eq_of_lookup_eq r1 r2 hr1 hr2 htail]

theorem lookup_map_count (c : String → Nat) (k : String) :
    ∀ L : List String, (L.map (fun s => (s, c s))).lookup k
      = if k ∈ L then some (c k) else none
  | [] => by simp
  | s :: L => by
    rw [List.map_cons, lookup_cons_eq, lookup_map_count c k L]
    by_cases hk : k = s
    · rw [if_pos hk, if_pos (by rw [hk]; exact List.mem_cons_self _ _), hk]
    · rw [if_neg hk]
      have hmem : k ∈ s :: L ↔ k ∈ L := by simp [hk]
      by_cases hin : k ∈ L
      · rw [if_pos hin, if_pos (hmem.2 hin)]
      · rw [if_neg hin, if_neg (fun h => hin (hmem.1 h))]

theorem sortedSymbols_pairwise (symbols : List String) :
    (symbols.dedup.insertionSort (fun a b => a ≤ b)).Pairwise (fun a b => a < b) :=
  List.Sorted.lt_of_le (List.sorted_insertionSort _ _)
    ((List.perm_insertionSort _ _).nodup_iff.2 (List.nodup_dedup _))

theorem mem_sortedSymbols (symbols : List String) (k : String) :
    k ∈ symbols.dedup.insertionSort (fun a b => a ≤ b) ↔ k ∈ symbols := by
  rw [(List.perm_insertionSort _ _).mem_iff, List.mem_dedup]

/-- The map built by the first loop of `Molecule::formula` holds the
distinct symbols in increasing order, each with the number of its
atoms. -/
theorem composition_eq (symbols : List String) :
    symbols.foldl (fun composition s => mapIncrement s composition) []
      = (symbols.dedup.insertionSort (fun a b => a ≤ b)).map (fun s => (s, symbols.count s)) := by
  obtain ⟨h1, h2⟩ := foldl_mapIncrement_lookup symbols [] [] (by simp) (by simp)
  apply eq_of_lookup_eq _ _ h1
  · rw [List.map_map]
    have hid : (Prod.fst ∘ fun s => (s, symbols.count s)) = id := rfl
    rw [hid, List.map_id]
    exact sortedSymbols_pairwise symbols
  · intro k
    rw [h2, lookup_map_count]
    simp only [List.nil_append, mem_sortedSymbols]


theorem foldl_append_join :
    ∀ (l : List String) (init : String),
      l.foldl (fun r s => r ++ s) init = init ++ String.join l
  | [], init => by
    show init = init ++ ""
    rw [String.append_empty]
  | a :: l, init => by
    show l.foldl (fun r s => r ++ s) (init ++ a) = init ++ l.foldl (fun r s => r ++ s) ("" ++ a)
    rw [foldl_append_join l (init ++ a), foldl_append_join l ("" ++ a), String.empty_append,
      String.append_assoc]

theorem join_cons (a : String) (l : List String) : String.join (a :: l) = a ++ String.join l := by
  show l.foldl (fun r s => r ++ s) ("" ++ a) = a ++ String.join l
  rw [foldl_append_join, String.empty_append]

theorem writeEntry_eq (formula symbol : String) (count : Nat) :
    writeEntry formula symbol count
      = formula ++ (symbol ++ (if count > 1 then toString count else "")) := by
  unfold writeEntry
  by_cases h : count > 1
  · simp only [h, if_true, String.append_assoc]
  · simp only [h, if_false, String.append_empty]

theorem foldl_writeEntry (c : String → Nat) :
    ∀ (L : List String) (init : String),
      (L.map (fun s => (s, c s))).foldl (fun formula entry => writeEntry formula entry.1 entry.2)
          init
        = init ++ String.join (L.map (fun s => s ++ (if c s > 1 then toString (c s) else "")))
  | [], init => by
    show init = init ++ ""
    rw [String.append_empty]
  | s :: L, init => by
    rw [List.map_cons, List.foldl_cons, foldl_writeEntry c L, List.map_cons, join_cons,
      writeEntry_eq, String.append_assoc]

theorem mapContains_map (c : String → Nat) (k : String) (L : List String) :
    mapContains k (L.map (fun s => (s, c s))) = decide (k ∈ L) := by
  unfold mapContains
  rw [lookup_map_count]
  by_cases h : k ∈ L <;> simp [h]

theorem mapValue_map (c : String → Nat) (k : String) (L : List String) (h : k ∈ L) :
    mapValue k (L.map (fun s => (s, c s))) = c k := by
  unfold mapValue
  rw [lookup_map_count, if_pos h]
  rfl

theorem mapErase_map (c : String → Nat) (k : String) (L : List String) :
    mapErase k (L.map (fun s => (s, c s))) = (L.filter (fun s => s != k)).map (fun s => (s, c s)) := by
  unfold mapErase
  rw [List.filter_map]
  rfl

/-- C15: `Molecule::formula` is the Hill-system formula of the symbols
of the atoms: with carbon, `C`, then `H` if present, then the other
symbols in alphabetical order; without carbon, all symbols in
alphabetical order; each symbol is followed by its number of atoms
exactly when that number is greater than 1; and the molecule without
atoms has the empty formula. -/
theorem formula_eq_hillFormula (m : Molecule) :
    m.formula = hillFormula (m.atoms.map (fun atom => atom.symbol))
      ∧ (m.atoms = [] → m.formula = "") := by
  have hcomp : m.atoms.foldl (fun composition atom => mapIncrement atom.symbol composition) []
      = ((m.atoms.map (fun atom => atom.symbol)).dedup.insertionSort (fun a b => a ≤ b)).map
          (fun s => (s, (m.atoms.map (fun atom => atom.symbol)).count s)) := by
    rw [← composition_eq, List.foldl_map]
  have hmain : m.formula = hillFormula (m.atoms.map (fun atom => atom.symbol)) := by
    unfold Molecule.formula hillFormula hillOrder
    simp only [hcomp]
    generalize m.atoms.map (fun atom => atom.symbol) = symbols
    have hC : mapContains "C" ((symbols.dedup.insertionSort (fun a b => a ≤ b)).map
        (fun s => (s, symbols.count s))) = decide ("C" ∈ symbols) := by
      rw [mapContains_map]
      exact decide_eq_decide.2 (mem_sortedSymbols symbols "C")
    rw [hC]
    by_cases hc : "C" ∈ symbols
    · have hcs : "C" ∈ symbols.dedup.insertionSort (fun a b => a ≤ b) :=
        (mem_sortedSymbols symbols "C").2 hc
      have hH : mapContains "H" (mapErase "C" ((symbols.dedup.insertionSort
          (fun a b => a ≤ b)).map (fun s => (s, symbols.count s)))) = decide ("H" ∈ symbols) := by
        rw [mapErase_map, mapContains_map]
        apply decide_eq_decide.2
        rw [List.mem_filter, mem_sortedSymbols]
        simp
      simp only [hc, decide_True, if_true, hH, mapValue_map _ _ _ hcs]
      by_cases hh : "H" ∈ symbols
      · have hhs : "H" ∈ (symbols.dedup.insertionSort (fun a b => a ≤ b)).filter
            (fun s => s != "C") := by
          rw [List.mem_filter, mem_sortedSymbols]
          exact ⟨hh, by decide⟩
        simp only [hh, decide_True, if_true, mapErase_map, mapValue_map _ _ _ hhs,
          List.filter_filter, foldl_writeEntry]
        simp only [writeEntry_eq, List.map_cons, List.map_append,
          List.map_nil, join_cons, List.singleton_append, String.empty_append,
          String.append_assoc]
      · simp only [hh, decide_False, if_false, Bool.false_eq_true, mapErase_map,
          List.filter_filter, foldl_writeEntry]
        simp only [writeEntry_eq, List.map_cons, List.nil_append,
          join_cons, String.empty_append, String.append_assoc]
    · simp only [hc, decide_False, if_false, Bool.false_eq_true, foldl_writeEntry,
        String.empty_append]
  refine ⟨hmain, ?_⟩
  intro hnil
  unfold Molecule.formula
  rw [hnil]
  rfl

/-! ### Adding and removing a molecule -/

theorem stdRemoveMolecule_append_new (molecules : List Nat) (m : Nat) (h : m ∉ molecules) :
    stdRemoveMolecule (molecules ++ [m]) m = (molecules ++ [m], molecules.length) := by
  have hfilter : (molecules ++ [m]).filter (fun molecule => molecule != m) = molecules := by
    rw [List.filter_append]
    have h1 : molecules.filter (fun molecule => molecule != m) = molecules := by
      rw [List.filter_eq_self]
      intro a ha
      simp only [bne_iff_ne, ne_eq]
      intro hm
      exact h (hm ▸ ha)
    rw [h1]
    simp
  unfold stdRemoveMolecule
  simp only [hfilter, List.drop_left]

theorem removeMolecule_addMolecule_new (ff : ForceField) (m : Nat) (h : m ∉ ff.molecules) :
    (ff.addMolecule m).removeMolecule m = some ff := by
  unfold ForceField.removeMolecule ForceField.addMolecule
  simp only [stdRemoveMolecule_append_new ff.molecules m h]
  unfold vectorEraseMolecule
  simp [List.eraseIdx_append_of_length_le]

/-- C27, as the code has it: for a molecule that is not yet in the list,
`addMolecule` followed by `removeMolecule` gives back the force field,
so `molecules()` is the original list in its order; `addMolecule` always
appends the molecule at the end, and neither call changes atoms or
calculations. -/
theorem addMolecule_removeMolecule_new (ff : ForceField) (m : Nat) (h : m ∉ ff.molecules) :
    (ff.addMolecule m).molecules = ff.molecules ++ [m]
      ∧ (ff.addMolecule m).atoms = ff.atoms
      ∧ (ff.addMolecule m).calculations = ff.calculations
      ∧ (ff.addMolecule m).removeMolecule m = some ff
      ∧ ∀ removed, (ff.addMolecule m).removeMolecule m = some removed →
          removed.molecules = ff.molecules ∧ removed.atoms = ff.atoms
            ∧ removed.calculations = ff.calculations := by
  refine ⟨rfl, rfl, rfl, removeMolecule_addMolecule_new ff m h, ?_⟩
  intro removed hremoved
  rw [removeMolecule_addMolecule_new ff m h] at hremoved
  cases hremoved
  exact ⟨rfl, rfl, rfl⟩

theorem addMolecule_removeMolecule_new_witness :
    3 ∉ exampleMoleculeForceField.molecules
      ∧ (exampleMoleculeForceField.addMolecule 3).removeMolecule 3
          = some exampleMoleculeForceField :=
  ⟨by decide, (addMolecule_removeMolecule_new exampleMoleculeForceField 3 (by decide)).2.2.2.1⟩

/-- C27 fails for a molecule that is already in the list: with the
molecules 1 and 2, adding the molecule 1 again and removing it leaves the
molecules 2 and 1, not 1 and 2. -/
theorem addMolecule_removeMolecule_present :
    ((exampleMoleculeForceField.addMolecule 1).removeMolecule 1).map
        (fun ff => ff.molecules) = some [2, 1]
      ∧ exampleMoleculeForceField.molecules = [1, 2] := by
  constructor
  · rfl
  · rfl

/-! ### The step size of the line search -/

theorem lineSearchAfter_succ (env : Environment) :
    ∀ (k : Nat) (s : LineSearch),
      lineSearchAfter env (k + 1) s = (lineSearchIteration env (lineSearchAfter env k s)).1
  | 0, _ => rfl
  | k + 1, s => by
    have h := lineSearchAfter_succ env k (lineSearchIteration env s).1
    exact h

theorem lineSearchIteration_lowers (env : Environment) (s : LineSearch) (q : ℚ)
    (hstep : s.step = num q) (h : lineSearchLowers env s) :
    (lineSearchIteration env s).2 = false
      ∧ (lineSearchIteration env s).1.step = num (min 1 (q * 2))
      ∧ (lineSearchIteration env s).1.initialEnergy = lineSearchFinalEnergy env s := by
  obtain ⟨hnan, hlt, hconv⟩ := h
  unfold lineSearchFinalEnergy at hnan hlt hconv ⊢
  unfold lineSearchIteration
  simp only [hstep] at hnan hlt hconv ⊢
  simp only [hnan, Bool.false_eq_true, if_false, hlt, hconv, and_false, if_true,
    Float.num_mul_num, Float.num_lt_num]
  refine ⟨trivial, ?_, trivial⟩
  by_cases hcap : 1 < q * 2
  · simp only [hcap, if_true, min_eq_left (le_of_lt hcap)]
  · simp only [hcap, if_false, min_eq_right (not_lt.1 hcap)]

theorem lineSearchIteration_step_bounds (env : Environment) (s : LineSearch) (q : ℚ)
    (hstep : s.step = num q) (hpos : 0 < q) (hle : q ≤ 1) :
    ∃ q', (lineSearchIteration env s).1.step = num q' ∧ 0 < q' ∧ q' ≤ 1 := by
  unfold lineSearchIteration
  simp only [hstep, Float.num_mul_num, Float.num_lt_num]
  split_ifs with h1 h2 h3 hcap h4
  · exact ⟨q, rfl, hpos, hle⟩
  · exact ⟨q, rfl, hpos, hle⟩
  · exact ⟨1, rfl, by norm_num, le_refl _⟩
  · exact ⟨q * 2, rfl, by linarith only [hpos], not_lt.1 hcap⟩
  · exact ⟨q * (1 / 10), rfl, by linarith only [hpos], by linarith only [hpos, hle]⟩
  · exact ⟨q, rfl, hpos, hle⟩

theorem lineSearchLoop_step_bounds (env : Environment) :
    ∀ (n : Nat) (s : LineSearch) (q : ℚ), s.step = num q → 0 < q → q ≤ 1 →
      ∃ q', (lineSearchLoop env n s).step = num q' ∧ 0 < q' ∧ q' ≤ 1
  | 0, _, q, hstep, hpos, hle => ⟨q, hstep, hpos, hle⟩
  | n + 1, s, q, hstep, hpos, hle => by
    obtain ⟨q', hq', hpos', hle'⟩ := lineSearchIteration_step_bounds env s q hstep hpos hle
    unfold lineSearchLoop
    simp only
    split_ifs
    · exact ⟨q', hq', hpos', hle'⟩
    · exact lineSearchLoop_step_bounds env n _ q' hq' hpos' hle'

theorem lineSearchAfter_step_bounds (env : Environment) :
    ∀ (n : Nat) (s : LineSearch) (q : ℚ), s.step = num q → 0 < q → q ≤ 1 →
      ∃ q', (lineSearchAfter env n s).step = num q' ∧ 0 < q' ∧ q' ≤ 1
  | 0, _, q, hstep, hpos, hle => ⟨q, hstep, hpos, hle⟩
  | n + 1, s, q, hstep, hpos, hle => by
    obtain ⟨q', hq', hpos', hle'⟩ := lineSearchIteration_step_bounds env s q hstep hpos hle
    exact lineSearchAfter_step_bounds env n _ q' hq' hpos' hle'

theorem min_one_doubled (q : ℚ) (k : Nat) (hpos : 0 < q) :
    min 1 (min 1 (q * 2) * 2 ^ k) = min 1 (q * 2 ^ (k + 1)) := by
  have hk : (1 : ℚ) ≤ 2 ^ k := one_le_pow₀ (by norm_num)
  have hexp : q * 2 ^ (k + 1) = q * 2 * 2 ^ k := by ring
  rw [hexp]
  by_cases h : q * 2 ≤ 1
  · rw [min_eq_right h]
  · have h1 : 1 < q * 2 := not_le.1 h
    rw [min_eq_left (le_of_lt h1), one_mul, min_eq_left hk, min_eq_left]
    nlinarith

theorem lineSearchAfter_lowers (env : Environment) :
    ∀ (k : Nat) (s : LineSearch) (q : ℚ), s.step = num q → 0 < q → q ≤ 1 →
      (∀ j, j < k → lineSearchLowers env (lineSearchAfter env j s)) →
      (lineSearchAfter env k s).step = num (min 1 (q * 2 ^ k))
  | 0, s, q, hstep, _, hle, _ => by
    rw [pow_zero, mul_one, min_eq_right hle]
    exact hstep
  | k + 1, s, q, hstep, hpos, _, hall => by
    have h0 := lineSearchIteration_lowers env s q hstep (hall 0 (Nat.succ_pos k))
    have hpos' : 0 < min 1 (q * 2) := lt_min (by norm_num) (by linarith)
    have hrec := lineSearchAfter_lowers env k (lineSearchIteration env s).1 (min 1 (q * 2))
      h0.2.1 hpos' (min_le_left _ _) (fun j hj => hall (j + 1) (Nat.succ_lt_succ hj))
    rw [min_one_doubled q k hpos] at hrec
    exact hrec

theorem lineSearchLoop_after (env : Environment) :
    ∀ (k : Nat) (s : LineSearch) (m : Nat),
      (∀ j, j < k → (lineSearchIteration env (lineSearchAfter env j s)).2 = false) →
      lineSearchLoop env (k + m) s = lineSearchLoop env m (lineSearchAfter env k s)
  | 0, s, m, _ => by rw [Nat.zero_add]; rfl
  | k + 1, s, m, hall => by
    have h0 : (lineSearchIteration env s).2 = false := hall 0 (Nat.succ_pos k)
    have hrec := lineSearchLoop_after env k (lineSearchIteration env s).1 m
      (fun j hj => hall (j + 1) (Nat.succ_lt_succ hj))
    have hk : k + 1 + m = (k + m) + 1 := by omega
    rw [hk]
    show (if (lineSearchIteration env s).2 then (lineSearchIteration env s).1
      else lineSearchLoop env (k + m) (lineSearchIteration env s).1) = _
    rw [h0]
    exact hrec

/-- C21: the inner loop of `minimizationStep` starts with the step size
0.05; when the first `k` iterations all lower the energy without meeting
the stop criterion, the step size after them is `min(1, 0.05 * 2^k)`, each
of them makes its new energy the baseline of the next and does not leave
the loop, so the call goes on from there with the remaining iterations;
and after any number of iterations, whatever they do, the step size is a
number that is strictly positive and at most 1. -/
theorem lineSearch_step_size (env : Environment) (ff : ForceField) (drawn k : Nat)
    (hlowers : ∀ j, j < k →
      lineSearchLowers env (lineSearchAfter env j (ff.lineSearchStart env drawn))) :
    (ff.lineSearchStart env drawn).step = num (1 / 20)
      ∧ (lineSearchAfter env k (ff.lineSearchStart env drawn)).step
          = num (min 1 (1 / 20 * 2 ^ k))
      ∧ (∀ j, j < k →
          (lineSearchAfter env (j + 1) (ff.lineSearchStart env drawn)).initialEnergy
            = lineSearchFinalEnergy env (lineSearchAfter env j (ff.lineSearchStart env drawn)))
      ∧ (k ≤ 10 → ff.lineSearch env drawn
          = lineSearchLoop env (10 - k) (lineSearchAfter env k (ff.lineSearchStart env drawn)))
      ∧ (∀ n, ∃ q, (lineSearchAfter env n (ff.lineSearchStart env drawn)).step = num q
          ∧ 0 < q ∧ q ≤ 1)
      ∧ (∀ n, ∃ q, (lineSearchLoop env n (ff.lineSearchStart env drawn)).step = num q
          ∧ 0 < q ∧ q ≤ 1)
      ∧ ∃ q, (ff.lineSearch env drawn).step = num q ∧ 0 < q ∧ q ≤ 1 := by
  have hstart : (ff.lineSearchStart env drawn).step = num (1 / 20) := rfl
  have hpos : (0 : ℚ) < 1 / 20 := by norm_num
  have hle : (1 / 20 : ℚ) ≤ 1 := by norm_num
  have hbounds : ∀ j, ∃ q, (lineSearchAfter env j (ff.lineSearchStart env drawn)).step = num q
      ∧ 0 < q ∧ q ≤ 1 :=
    fun j => lineSearchAfter_step_bounds env j _ _ hstart hpos hle
  have hstep : ∀ j, j < k →
      (lineSearchIteration env (lineSearchAfter env j (ff.lineSearchStart env drawn))).2 = false
        ∧ (lineSearchAfter env (j + 1) (ff.lineSearchStart env drawn)).initialEnergy
            = lineSearchFinalEnergy env
                (lineSearchAfter env j (ff.lineSearchStart env drawn)) := by
    intro j hj
    obtain ⟨q, hq, _, _⟩ := hbounds j
    have h := lineSearchIteration_lowers env _ q hq (hlowers j hj)
    rw [lineSearchAfter_succ]
    exact ⟨h.1, h.2.2⟩
  refine ⟨hstart, lineSearchAfter_lowers env k _ _ hstart hpos hle hlowers,
    fun j hj => (hstep j hj).2, ?_, hbounds,
    fun n => lineSearchLoop_step_bounds env n _ _ hstart hpos hle,
    lineSearchLoop_step_bounds env 10 _ _ hstart hpos hle⟩
  intro hk
  have h := lineSearchLoop_after env k (ff.lineSearchStart env drawn) (10 - k)
    (fun j hj => (hstep j hj).1)
  have h10 : k + (10 - k) = 10 := by omega
  rw [h10] at h
  exact h

theorem lineSearch_step_size_witness :
    (∀ j, j < 1 → lineSearchLowers exampleEnvironment (lineSearchAfter exampleEnvironment j
        ((exampleForceField 0 [exampleCalculation 1 true]).lineSearchStart
          exampleEnvironment 0)))
      ∧ (lineSearchAfter exampleEnvironment 1
          ((exampleForceField 0 [exampleCalculation 1 true]).lineSearchStart
            exampleEnvironment 0)).step = num (1 / 10) := by
  have hlowers : ∀ j, j < 1 → lineSearchLowers exampleEnvironment
      (lineSearchAfter exampleEnvironment j
        ((exampleForceField 0 [exampleCalculation 1 true]).lineSearchStart
          exampleEnvironment 0)) := by
    intro j hj
    have hj0 : j = 0 := by omega
    subst hj0
    unfold lineSearchLowers lineSearchFinalEnergy lineSearchAfter ForceField.lineSearchStart
    simp only [gradient_forceField, energy_eq_sum]
    simp [ForceField.gradient, exampleForceField, exampleCalculation, accumulate, addAt,
      ForceField.atomCount, moveAtoms, ForceFieldAtom.moveBy, Vector3.moveBy, Vector3.add,
      Vector3.scaled, Vector3.neg_eq_mk, Vector3.add_eq_mk, Vector3.zero_eq_mk,
      Float.zero_eq_num, Float.qAbs_num]
    norm_num
    rw [abs_of_pos (by norm_num : (0 : ℚ) < 171 / 100)]
    norm_num
  have h := (lineSearch_step_size exampleEnvironment
    (exampleForceField 0 [exampleCalculation 1 true]) 0 1 hlowers).2.1
  refine ⟨hlowers, ?_⟩
  rw [h]
  norm_num

/-! ### A line search along the zero gradient -/

theorem moveAtoms_zero :
    ∀ (atoms : List ForceFieldAtom) (gradient : List Vector3) (q : ℚ),
      (∀ g ∈ gradient, g = 0) → moveAtoms atoms gradient (num q) = atoms
  | [], _, _, _ => by simp [moveAtoms]
  | _ :: _, [], _, _ => by simp [moveAtoms]
  | atom :: atoms, g :: gradient, q, h => by
    have hg : g = 0 := h g (List.mem_cons_self _ _)
    have hrest := moveAtoms_zero atoms gradient q
      (fun g' hg' => h g' (List.mem_cons_of_mem _ hg'))
    subst hg
    simp only [moveAtoms, hrest, List.cons.injEq, and_true]
    have hx : ∀ a : Float, a + num 0 = a := fun a => add_zero a
    simp [ForceFieldAtom.moveBy, Vector3.moveBy, Vector3.add, Vector3.scaled,
      Vector3.neg_eq_mk, Vector3.zero_eq_mk, Float.zero_eq_num, hx]

theorem lineSearchIteration_zero_gradient (env : Environment) (s : LineSearch) (q e : ℚ)
    (hzero : ∀ g ∈ s.gradient, g = 0) (hstep : s.step = num q)
    (hinit : s.initialEnergy = num e) (henergy : s.forceField.energy env = num e) :
    lineSearchFinalEnergy env s = num e
      ∧ lineSearchIteration env s
          = ({ s with iterations := s.iterations + 1, energies := s.energies ++ [num e] },
              false) := by
  have hmoved : ForceField.energy env
      { s.forceField with atoms := moveAtoms s.forceField.atoms s.gradient s.step }
        = num e := by
    rw [hstep, moveAtoms_zero _ _ q hzero]
    exact henergy
  refine ⟨hmoved, ?_⟩
  unfold lineSearchIteration
  simp only [hmoved, hinit, Float.qIsNaN_num, Bool.false_eq_true, if_false, Float.num_lt_num,
    lt_irrefl, false_and]
  rw [hstep, moveAtoms_zero _ _ q hzero]

theorem lineSearchLoop_zero_gradient (env : Environment) (q e : ℚ) :
    ∀ (n : Nat) (s : LineSearch), (∀ g ∈ s.gradient, g = 0) → s.step = num q →
      s.initialEnergy = num e → s.forceField.energy env = num e →
      lineSearchLoop env n s
        = { s with iterations := s.iterations + n,
                   energies := s.energies ++ List.replicate n (num e) }
  | 0, s, _, _, _, _ => by simp [lineSearchLoop]
  | n + 1, s, hzero, hstep, hinit, henergy => by
    have h := (lineSearchIteration_zero_gradient env s q e hzero hstep hinit henergy).2
    unfold lineSearchLoop
    simp only [h, Bool.false_eq_true, if_false]
    have hrec := lineSearchLoop_zero_gradient env q e n
      { s with iterations := s.iterations + 1, energies := s.energies ++ [num e] }
      hzero hstep hinit henergy
    rw [hrec]
    simp only [List.append_assoc, List.singleton_append, LineSearch.mk.injEq, true_and]
    exact ⟨by omega, by rw [List.replicate_succ]⟩

theorem lineSearchAfter_zero_gradient (env : Environment) (q e : ℚ) :
    ∀ (n : Nat) (s : LineSearch), (∀ g ∈ s.gradient, g = 0) → s.step = num q →
      s.initialEnergy = num e → s.forceField.energy env = num e →
      lineSearchAfter env n s
        = { s with iterations := s.iterations + n,
                   energies := s.energies ++ List.replicate n (num e) }
  | 0, s, _, _, _, _ => by simp [lineSearchAfter]
  | n + 1, s, hzero, hstep, hinit, henergy => by
    have h := (lineSearchIteration_zero_gradient env s q e hzero hstep hinit henergy).2
    unfold lineSearchAfter
    simp only [h]
    have hrec := lineSearchAfter_zero_gradient env q e n
      { s with iterations := s.iterations + 1, energies := s.energies ++ [num e] }
      hzero hstep hinit henergy
    rw [hrec]
    simp only [List.append_assoc, List.singleton_append, LineSearch.mk.injEq, true_and]
    exact ⟨by omega, by rw [List.replicate_succ]⟩

/-- In exact arithmetic: when the gradient computed at entry is zero for
every atom and the total energy is not NaN, `minimizationStep` returns
with the force field, and so every position, as it was; it runs all 10
inner iterations, and each of them starts from the unmoved atoms with the
step size 0.05 and the entry energy as baseline, finds the new energy
equal to the baseline, so that neither comparison holds, and does not
leave the loop. -/
theorem minimizationStep_zero_gradient_exact (env : Environment) (ff : ForceField)
    (converganceValue : Float) (drawn : Nat)
    (hzero : ∀ g ∈ (ff.gradient env).1, g = 0) (hnan : ff.energy env ≠ nan) :
    (ff.minimizationStep env converganceValue drawn).forceField = ff
      ∧ (ff.minimizationStep env converganceValue drawn).forceField.atoms.map
            (fun atom => atom.position) = ff.atoms.map (fun atom => atom.position)
      ∧ (ff.minimizationStep env converganceValue drawn).iterations = 10
      ∧ ff.lineSearch env drawn = lineSearchAfter env 10 (ff.lineSearchStart env drawn)
      ∧ ∀ j, (lineSearchAfter env j (ff.lineSearchStart env drawn)).forceField = ff
          ∧ (lineSearchAfter env j (ff.lineSearchStart env drawn)).step = num (1 / 20)
          ∧ (lineSearchAfter env j (ff.lineSearchStart env drawn)).initialEnergy
              = ff.energy env
          ∧ lineSearchFinalEnergy env (lineSearchAfter env j (ff.lineSearchStart env drawn))
              = ff.energy env
          ∧ ¬ (lineSearchFinalEnergy env (lineSearchAfter env j (ff.lineSearchStart env drawn))
              < (lineSearchAfter env j (ff.lineSearchStart env drawn)).initialEnergy)
          ∧ ¬ ((lineSearchAfter env j (ff.lineSearchStart env drawn)).initialEnergy
              < lineSearchFinalEnergy env
                  (lineSearchAfter env j (ff.lineSearchStart env drawn)))
          ∧ (lineSearchIteration env
              (lineSearchAfter env j (ff.lineSearchStart env drawn))).2 = false := by
  obtain ⟨e, he⟩ := Float.eq_num_of_ne_nan hnan
  have hff : (ff.lineSearchStart env drawn).forceField = ff := gradient_forceField env ff
  have hz : ∀ g ∈ (ff.lineSearchStart env drawn).gradient, g = 0 := hzero
  have hstep : (ff.lineSearchStart env drawn).step = num (1 / 20) := rfl
  have henergy : (ff.lineSearchStart env drawn).forceField.energy env = num e := by
    rw [hff, he]
  have hinit : (ff.lineSearchStart env drawn).initialEnergy = num e := henergy
  have hloop := lineSearchLoop_zero_gradient env (1 / 20) e 10 _ hz hstep hinit henergy
  have hafter := fun j =>
    lineSearchAfter_zero_gradient env (1 / 20) e j _ hz hstep hinit henergy
  have hsearch : ff.lineSearch env drawn
      = lineSearchAfter env 10 (ff.lineSearchStart env drawn) := by
    rw [hafter 10]
    exact hloop
  have hresult : (ff.minimizationStep env converganceValue drawn).forceField = ff := by
    have h1 : (ff.minimizationStep env converganceValue drawn).forceField
        = (ff.lineSearch env drawn).forceField :=
      rootMeanSquareGradient_forceField env _
    rw [h1, hsearch, hafter 10]
    exact hff
  refine ⟨hresult, by rw [hresult], ?_, hsearch, ?_⟩
  · have h1 : (ff.minimizationStep env converganceValue drawn).iterations
        = (ff.lineSearch env drawn).iterations := rfl
    rw [h1, hsearch, hafter 10]
    rfl
  · intro j
    have hj := lineSearchIteration_zero_gradient env
      (lineSearchAfter env j (ff.lineSearchStart env drawn)) (1 / 20) e
      (by rw [hafter j]; exact hz) (by rw [hafter j]; exact hstep)
      (by rw [hafter j]; exact hinit)
      (by rw [hafter j]; exact henergy)
    have hbase : (lineSearchAfter env j (ff.lineSearchStart env drawn)).initialEnergy
        = num e := by rw [hafter j]; exact hinit
    refine ⟨by rw [hafter j]; exact hff, by rw [hafter j]; exact hstep, by rw [hbase, he],
      by rw [hj.1, he], ?_, ?_, by rw [hj.2]⟩
    · rw [hj.1, hbase]
      exact lt_irrefl e
    · rw [hj.1, hbase]
      exact lt_irrefl e

/-! ### The inner iteration whose energy is NaN -/

theorem moveAtoms_nil (atoms : List ForceFieldAtom) (step : Float) :
    moveAtoms atoms [] step = atoms := by
  cases atoms <;> simp [moveAtoms]

theorem moveAtoms_length :
    ∀ (atoms : List ForceFieldAtom) (gradient : List Vector3) (step : Float),
      (moveAtoms atoms gradient step).length = atoms.length
  | [], _, _ => by simp [moveAtoms]
  | _ :: _, [], _ => by simp [moveAtoms]
  | _ :: atoms, _ :: gradient, step => by
    simp [moveAtoms, moveAtoms_length atoms gradient step]

theorem wiggleAtoms_moveAtoms (env : Environment) :
    ∀ (atoms : List ForceFieldAtom) (gradient : List Vector3) (step : Float) (drawn i : Nat),
      (wiggleAtoms env (moveAtoms atoms gradient step)
          (atoms.map (fun atom => atom.position)) drawn)[i]?
        = (atoms[i]?).map (fun atom => atom.moveBy (env.randomUnitVector (drawn + i)))
  | [], _, _, _, _ => by simp [moveAtoms, wiggleAtoms]
  | atom :: atoms, [], step, drawn, i => by
    have hrec := wiggleAtoms_moveAtoms env atoms [] step (drawn + 1)
    rw [moveAtoms_nil] at hrec ⊢
    simp only [List.map_cons, wiggleAtoms]
    cases i with
    | zero =>
      simp only [List.getElem?_cons_zero, Option.map_some', Nat.add_zero]
      rfl
    | succ i =>
      simp only [List.getElem?_cons_succ, hrec i]
      have hi : drawn + 1 + i = drawn + (i + 1) := by omega
      rw [hi]
  | atom :: atoms, g :: gradient, step, drawn, i => by
    have hrec := wiggleAtoms_moveAtoms env atoms gradient step (drawn + 1)
    simp only [moveAtoms, List.map_cons, wiggleAtoms]
    cases i with
    | zero =>
      simp only [List.getElem?_cons_zero, Option.map_some', Nat.add_zero]
      rfl
    | succ i =>
      simp only [List.getElem?_cons_succ, hrec i]
      have hi : drawn + 1 + i = drawn + (i + 1) := by omega
      rw [hi]

theorem lengthSquared_moved_sub (px py pz vx vy vz : ℚ) :
    (Vector3.sub (Vector3.moveBy ⟨num px, num py, num pz⟩ ⟨num vx, num vy, num vz⟩)
        ⟨num px, num py, num pz⟩).lengthSquared
      = Vector3.lengthSquared ⟨num vx, num vy, num vz⟩ := by
  simp [Vector3.sub, Vector3.moveBy, Vector3.add, Vector3.lengthSquared]

theorem moveAtomBy3_moveAtomBy3 (ff : ForceField) (i : Nat) (a b c a' b' c' : Float) :
    (ff.moveAtomBy3 i a b c).moveAtomBy3 i a' b' c'
      = ff.moveAtomBy3 i (a + a') (b + b') (c + c') := by
  cases h : ff.atoms[i]? with
  | none => rw [moveAtomBy3_none ff i _ _ _ h, moveAtomBy3_none ff i _ _ _ h,
      moveAtomBy3_none ff i _ _ _ h]
  | some atom =>
    have hlt : i < ff.atoms.length := (List.getElem?_eq_some.1 h).1
    rw [moveAtomBy3_some ff i a b c atom h, moveAtomBy3_set ff i _ _ _ _ hlt,
      moveAtomBy3_some ff i _ _ _ atom h]
    simp only [ForceFieldAtom.moveBy3, Vector3.moveBy3, add_assoc]

theorem numericalGradientStep_eq (env : Environment) (g : List Vector3) (ff : ForceField)
    (i : Nat) :
    ForceField.numericalGradientStep env (g, ff) i
      = (g.set i (ff.forwardDifference env i), ff) := by
  refine Prod.ext ?_ (numericalGradientStep_forceField env g ff i)
  have hx : num (1 / 10000000000) + -num (1 / 10000000000) = (0 : Float) := by
    simp [Float.zero_eq_num]
  unfold ForceField.numericalGradientStep ForceField.forwardDifference
  simp only [moveAtomBy3_moveAtomBy3, hx, zero_add, add_zero]

theorem foldl_set_not_mem (v : Nat → Vector3) (i : Nat) :
    ∀ (l : List Nat) (g : List Vector3), i ∉ l →
      (l.foldl (fun g j => g.set j (v j)) g)[i]? = g[i]?
  | [], _, _ => rfl
  | j :: l, g, h => by
    have hj : j ≠ i := fun hji => h (hji ▸ List.mem_cons_self _ _)
    rw [List.foldl_cons, foldl_set_not_mem v i l _ (fun hm => h (List.mem_cons_of_mem _ hm)),
      List.getElem?_set_ne hj]

theorem foldl_set_mem (v : Nat → Vector3) (i : Nat) :
    ∀ (l : List Nat) (g : List Vector3), i ∈ l → i < g.length →
      (l.foldl (fun g j => g.set j (v j)) g)[i]? = some (v i)
  | [], _, h, _ => absurd h (List.not_mem_nil i)
  | j :: l, g, h, hlt => by
    rw [List.foldl_cons]
    by_cases hmem : i ∈ l
    · exact foldl_set_mem v i l _ hmem (by rw [List.length_set]; exact hlt)
    · have hij : i = j := by
        rcases List.mem_cons.1 h with h1 | h1
        · exact h1
        · exact absurd h1 hmem
      subst hij
      rw [foldl_set_not_mem v i l _ hmem, List.getElem?_set_self hlt]

theorem foldl_numericalGradientStep_eq (env : Environment) (ff : ForceField) :
    ∀ (l : List Nat) (g : List Vector3),
      l.foldl (ForceField.numericalGradientStep env) (g, ff)
        = (l.foldl (fun g j => g.set j (ff.forwardDifference env j)) g, ff)
  | [], _ => rfl
  | i :: l, g => by
    rw [List.foldl_cons, numericalGradientStep_eq, foldl_numericalGradientStep_eq env ff l]
    rfl

/-- C23: one pass of the loop of `numericalGradient` for the atom `i`
stores the forward differences of that atom's energy, taken between the
force field as it is and the force field with the atom on
`p + (eps, 0, 0)`, `p + (0, eps, 0)` and `p + (0, 0, eps)` for its
position `p` and `eps = 1e-10`, every other atom staying where it is, and
leaves the force field as it was; so `numericalGradient` returns these
differences for every atom and leaves every position as before the
call. -/
theorem numericalGradient_points (env : Environment) (ff : ForceField) :
    (∀ g i, ForceField.numericalGradientStep env (g, ff) i
        = (g.set i (ff.forwardDifference env i), ff))
      ∧ (∀ i, i < ff.atomCount →
          (ff.numericalGradient env).1[i]? = some (ff.forwardDifference env i))
      ∧ (ff.numericalGradient env).2 = ff
      ∧ (ff.numericalGradient env).2.atoms.map (fun atom => atom.position)
          = ff.atoms.map (fun atom => atom.position)
      ∧ ∀ i atom dx dy dz, ff.atoms[i]? = some atom →
          (ff.moveAtomBy3 i dx dy dz).atoms[i]?
              = some ⟨⟨atom.position.x + dx, atom.position.y + dy, atom.position.z + dz⟩,
                  atom.atom⟩
            ∧ (∀ j, j ≠ i → (ff.moveAtomBy3 i dx dy dz).atoms[j]? = ff.atoms[j]?)
            ∧ (ff.moveAtomBy3 i dx dy dz).calculations = ff.calculations := by
  refine ⟨fun g i => numericalGradientStep_eq env g ff i, ?_,
    numericalGradient_forceField env ff, by rw [numericalGradient_forceField], ?_⟩
  · intro i hi
    unfold ForceField.numericalGradient
    rw [foldl_numericalGradientStep_eq]
    exact foldl_set_mem _ i _ _ (List.mem_range.2 hi) (by rw [List.length_replicate]; exact hi)
  · intro i atom dx dy dz hatom
    have hlt : i < ff.atoms.length := (List.getElem?_eq_some.1 hatom).1
    rw [moveAtomBy3_some ff i dx dy dz atom hatom]
    refine ⟨?_, ?_, rfl⟩
    · simp only [List.getElem?_set_self hlt]
      rfl
    · intro j hj
      simp only [List.getElem?_set_ne (Ne.symm hj)]

/-! ### The rows read by `toCartesianCoordinates` -/

theorem coordinates_size_none (ic : InternalCoordinates) (row : Nat) (h : ic.size ≤ row) :
    ic.coordinates row = none := by
  unfold InternalCoordinates.coordinates
  rw [if_neg (not_lt.2 h)]

theorem coordinates_isSome (ic : InternalCoordinates) (row : Nat) (h : row < ic.size)
    (hlen : ic.coordinateArray.length = 3 * ic.size) :
    ∃ r theta phi, ic.coordinates row = some [r, theta, phi] := by
  unfold InternalCoordinates.coordinates
  rw [if_pos h]
  have h0 : row * 3 + 0 < ic.coordinateArray.length := by omega
  have h1 : row * 3 + 1 < ic.coordinateArray.length := by omega
  have h2 : row * 3 + 2 < ic.coordinateArray.length := by omega
  rw [List.getElem?_eq_getElem h0, List.getElem?_eq_getElem h1, List.getElem?_eq_getElem h2]
  exact ⟨_, _, _, rfl⟩

theorem connections_isSome (ic : InternalCoordinates) (row : Nat) (h : row < ic.size)
    (hlen : ic.connectionArray.length = 3 * ic.size) :
    ic.connections row = some [ic.connectionArray.getD (row * 3 + 0) 0,
      ic.connectionArray.getD (row * 3 + 1) 0, ic.connectionArray.getD (row * 3 + 2) 0] := by
  unfold InternalCoordinates.connections
  rw [if_pos h]
  have h0 : row * 3 + 0 < ic.connectionArray.length := by omega
  have h1 : row * 3 + 1 < ic.connectionArray.length := by omega
  have h2 : row * 3 + 2 < ic.connectionArray.length := by omega
  simp only [List.getD_eq_getElem?_getD, List.getElem?_eq_getElem h0,
    List.getElem?_eq_getElem h1, List.getElem?_eq_getElem h2, Option.getD_some]

theorem toCartesianCoordinates_small (k : Constants) (sqrt cos sin : Float → Float)
    (ic : InternalCoordinates) (h : ic.size = 1 ∨ ic.size = 2) :
    ic.toCartesianCoordinates k sqrt cos sin = none := by
  unfold InternalCoordinates.toCartesianCoordinates InternalCoordinates.toCartesianFirstThree
  rcases h with h | h
  · have hrow : ic.coordinates 1 = none := coordinates_size_none ic 1 (by omega)
    simp [h, hrow, Coordinates.setPosition, Coordinates.create]
  · have hrow : ic.coordinates 2 = none := coordinates_size_none ic 2 (by omega)
    cases h1 : ic.coordinates 1 with
    | none => simp [h, h1, Coordinates.setPosition, Coordinates.create]
    | some row1 => simp [h, h1, hrow, Coordinates.setPosition, Coordinates.create]

theorem toCartesianFirstThree_isSome (k : Constants) (cos sin : Float → Float)
    (ic : InternalCoordinates) (h3 : 3 ≤ ic.size)
    (hlen : ic.coordinateArray.length = 3 * ic.size) :
    ∃ c, ic.toCartesianFirstThree k cos sin (Coordinates.create ic.size) = some c
      ∧ c.length = ic.size := by
  obtain ⟨r1, t1, p1, hrow1⟩ := coordinates_isSome ic 1 (by omega) hlen
  obtain ⟨r2, t2, p2, hrow2⟩ := coordinates_isSome ic 2 (by omega) hlen
  have h0 : 0 < ic.size := by omega
  have h1 : 1 < ic.size := by omega
  have h2 : 2 < ic.size := by omega
  have hge1 : ic.size ≥ 1 := by omega
  have hge2 : ic.size ≥ 2 := by omega
  unfold InternalCoordinates.toCartesianFirstThree
  simp [hrow1, hrow2, Coordinates.setPosition, Coordinates.create, h0, h1, h2, hge1, hge2]

theorem position_isSome (c : List Point3) (index : Int) (h0 : 0 ≤ index)
    (hlt : index.toNat < c.length) : ∃ p, Coordinates.position c index = some p := by
  unfold Coordinates.position
  rw [if_pos h0, List.getElem?_eq_getElem hlt]
  exact ⟨_, rfl⟩

theorem toCartesianRow_isSome (k : Constants) (sqrt cos sin : Float → Float)
    (ic : InternalCoordinates) (c : List Point3) (i : Nat) (hi : i < ic.size)
    (hc : c.length = ic.size) (hlen : ic.coordinateArray.length = 3 * ic.size)
    (hconnections : ic.connectionArray.length = 3 * ic.size)
    (hearlier : ∀ j, j < 3 → 0 ≤ ic.connectionArray.getD (i * 3 + j) 0
      ∧ ic.connectionArray.getD (i * 3 + j) 0 < i) :
    ∃ c', ic.toCartesianRow k sqrt cos sin c i = some c' ∧ c'.length = ic.size := by
  obtain ⟨r, theta, phi, hrow⟩ := coordinates_isSome ic i hi hlen
  have hconn := connections_isSome ic i hi hconnections
  have hpos : ∀ j, j < 3 →
      ∃ p, Coordinates.position c (ic.connectionArray.getD (i * 3 + j) 0) = some p := by
    intro j hj
    obtain ⟨h0, hlt⟩ := hearlier j hj
    refine position_isSome c _ h0 ?_
    have : (ic.connectionArray.getD (i * 3 + j) 0).toNat < i := by omega
    omega
  obtain ⟨p0, hp0⟩ := hpos 0 (by omega)
  obtain ⟨p1, hp1⟩ := hpos 1 (by omega)
  obtain ⟨p2, hp2⟩ := hpos 2 (by omega)
  unfold InternalCoordinates.toCartesianRow
  simp only [hrow, hconn, List.getD_cons_zero, List.getD_cons_succ, hp0, hp1, hp2]
  unfold Coordinates.setPosition
  rw [if_pos (by omega)]
  exact ⟨_, rfl, by rw [List.length_set]; exact hc⟩

theorem toCartesianLoop_isSome (k : Constants) (sqrt cos sin : Float → Float)
    (ic : InternalCoordinates) (hlen : ic.coordinateArray.length = 3 * ic.size)
    (hconnections : ic.connectionArray.length = 3 * ic.size) :
    ∀ (remaining i : Nat) (c : List Point3), i + remaining = ic.size → c.length = ic.size →
      (∀ row j, i ≤ row → row < ic.size → j < 3 →
        0 ≤ ic.connectionArray.getD (row * 3 + j) 0
          ∧ ic.connectionArray.getD (row * 3 + j) 0 < row) →
      ∃ c', ic.toCartesianLoop k sqrt cos sin i remaining c = some c' ∧ c'.length = ic.size
  | 0, _, c, _, hc, _ => ⟨c, rfl, hc⟩
  | remaining + 1, i, c, hsum, hc, hearlier => by
    obtain ⟨c', hrow, hc'⟩ := toCartesianRow_isSome k sqrt cos sin ic c i (by omega) hc hlen
      hconnections (fun j hj => hearlier i j (le_refl i) (by omega) hj)
    unfold InternalCoordinates.toCartesianLoop
    simp only [hrow]
    exact toCartesianLoop_isSome k sqrt cos sin ic hlen hconnections remaining (i + 1) c'
      (by omega) hc' (fun row j hrow hlt hj => hearlier row j (by omega) hlt hj)

theorem toCartesianCoordinates_isSome (k : Constants) (sqrt cos sin : Float → Float)
    (ic : InternalCoordinates) (h3 : 3 ≤ ic.size)
    (hlen : ic.coordinateArray.length = 3 * ic.size)
    (hconnections : ic.connectionArray.length = 3 * ic.size)
    (hearlier : ∀ row j, 3 ≤ row → row < ic.size → j < 3 →
      0 ≤ ic.connectionArray.getD (row * 3 + j) 0
        ∧ ic.connectionArray.getD (row * 3 + j) 0 < row) :
    ∃ c, ic.toCartesianCoordinates k sqrt cos sin = some c ∧ c.length = ic.size := by
  obtain ⟨c, hfirst, hc⟩ := toCartesianFirstThree_isSome k cos sin ic h3 hlen
  unfold InternalCoordinates.toCartesianCoordinates
  simp only [hfirst]
  exact toCartesianLoop_isSome k sqrt cos sin ic hlen hconnections (ic.size - 3) 3 c
    (by omega) hc hearlier

/-- C30: on internal coordinates with one row, `toCartesianCoordinates`
calls `coordinates(1)`, and with two rows `coordinates(2)`; the assertion
`row < size` of that call fails, whatever the arrays hold, so the
conversion does not return. From three rows on, with three entries a row
in both arrays and connections that refer to earlier rows, every call
passes its assertion and the conversion returns a position for each
row. -/
theorem toCartesianCoordinates_assertion :
    (∀ ic : InternalCoordinates, ic.coordinates ic.size = none)
      ∧ exampleInternalCoordinates.size = 1
      ∧ exampleInternalCoordinates.coordinates 1 = none
      ∧ exampleInternalCoordinatesTwo.size = 2
      ∧ exampleInternalCoordinatesTwo.coordinates 2 = none
      ∧ (∀ (k : Constants) (sqrt cos sin : Float → Float),
          exampleInternalCoordinates.toCartesianCoordinates k sqrt cos sin = none
            ∧ exampleInternalCoordinatesTwo.toCartesianCoordinates k sqrt cos sin = none)
      ∧ (∀ (k : Constants) (sqrt cos sin : Float → Float) (ic : InternalCoordinates),
          ic.size = 1 ∨ ic.size = 2 → ic.toCartesianCoordinates k sqrt cos sin = none)
      ∧ ∀ (k : Constants) (sqrt cos sin : Float → Float) (ic : InternalCoordinates),
          3 ≤ ic.size → ic.coordinateArray.length = 3 * ic.size →
          ic.connectionArray.length = 3 * ic.size →
          (∀ row j, 3 ≤ row → row < ic.size → j < 3 →
            0 ≤ ic.connectionArray.getD (row * 3 + j) 0
              ∧ ic.connectionArray.getD (row * 3 + j) 0 < row) →
          ∃ c, ic.toCartesianCoordinates k sqrt cos sin = some c ∧ c.length = ic.size := by
  refine ⟨fun ic => coordinates_size_none ic ic.size (le_refl _), rfl,
    coordinates_size_none _ 1 (le_refl _), rfl, coordinates_size_none _ 2 (le_refl _),
    fun k sqrt cos sin => ⟨toCartesianCoordinates_small k sqrt cos sin _ (Or.inl rfl),
      toCartesianCoordinates_small k sqrt cos sin _ (Or.inr rfl)⟩,
    toCartesianCoordinates_small, toCartesianCoordinates_isSome⟩

/-! ### The equilibrium angle of the uff torsion term -/

theorem uffTorsion_setup_groupSix (k : Constants) (sqrt log : Float → Float)
    (bondorder : Float) (b c : UffTorsionAtom) (hb : 3 ≤ b.type.length)
    (hc : 3 ≤ c.type.length) (hb3 : b.type[2]? = some '3') (hc3 : c.type[2]? = some '3')
    (hbsix : b.isGroupSix = true) (hcsix : c.isGroupSix = true) :
    ∃ V, UffTorsionCalculation.setup k sqrt log bondorder b c = some [V, num 2, num 90] := by
  unfold UffTorsionCalculation.setup
  have hlen : ¬ (b.type.length < 3 ∨ c.type.length < 3) := by omega
  simp only [hlen, if_false, hb3, hc3, and_self, if_true, hbsix, hcsix]
  exact ⟨_, rfl⟩

theorem uffTorsion_setup_other (k : Constants) (sqrt log : Float → Float)
    (bondorder : Float) (b c : UffTorsionAtom) (parameters : List Float)
    (hsetup : UffTorsionCalculation.setup k sqrt log bondorder b c = some parameters)
    (hother : ¬ (b.type[2]? = some '3' ∧ c.type[2]? = some '3'
      ∧ b.isGroupSix = true ∧ c.isGroupSix = true)) :
    parameters[2]? = some (num 180 * k.DegreesToRadians)
      ∨ parameters[2]? = some (num 90 * k.DegreesToRadians)
      ∨ parameters[2]? = some (num 0) := by
  unfold UffTorsionCalculation.setup at hsetup
  split_ifs at hsetup with h1 h2 h3
  all_goals first
    | (simp only [Option.some.injEq] at hsetup; subst hsetup; simp; done)
    | exact absurd ⟨h2.1, h2.2, h3.1, h3.2⟩ hother

/-- C29: for two sp3 oxygens of group six `setup()` returns true and
stores `phi0 = 90`, the angle in degrees, which is none of 0, pi/2 and pi
and is not `90 * DegreesToRadians`; the same value 90 is stored for every
pair of sp3 atoms of group six, so that `energy()` evaluates `cos(n *
phi0)` at 180 radians. In every other case in which `setup()` returns
true, the stored `phi0` is `180 * DegreesToRadians`, `90 *
DegreesToRadians` or 0. -/
theorem uffTorsion_setup_phi0 :
    (∀ (k : Constants) (sqrt log : Float → Float) (bondorder : Float),
        UffTorsionCalculation.setup k sqrt log bondorder exampleOxygen exampleOxygen
          = some [num 2, num 2, num 90])
      ∧ num 90 ≠ num 0
      ∧ num 90 ≠ exampleConstants.Pi / num 2
      ∧ num 90 ≠ exampleConstants.Pi
      ∧ num 90 ≠ num 90 * exampleConstants.DegreesToRadians
      ∧ (∀ (cos : Float → Float) (phi : Float),
          UffTorsionCalculation.energy cos (num 2) (num 2) (num 90) phi
            = num (1 / 2) * num 2 * (num 1 - cos (num 180) * cos (num 2 * phi)))
      ∧ (∀ (k : Constants) (sqrt log : Float → Float) (bondorder : Float)
          (b c : UffTorsionAtom), 3 ≤ b.type.length → 3 ≤ c.type.length →
          b.type[2]? = some '3' → c.type[2]? = some '3' →
          b.isGroupSix = true → c.isGroupSix = true →
          ∃ V, UffTorsionCalculation.setup k sqrt log bondorder b c
            = some [V, num 2, num 90])
      ∧ ∀ (k : Constants) (sqrt log : Float → Float) (bondorder : Float)
          (b c : UffTorsionAtom) (parameters : List Float),
          UffTorsionCalculation.setup k sqrt log bondorder b c = some parameters →
          ¬ (b.type[2]? = some '3' ∧ c.type[2]? = some '3'
            ∧ b.isGroupSix = true ∧ c.isGroupSix = true) →
          parameters[2]? = some (num 180 * k.DegreesToRadians)
            ∨ parameters[2]? = some (num 90 * k.DegreesToRadians)
            ∨ parameters[2]? = some (num 0) := by
  refine ⟨?_, ?_, ?_, ?_, ?_, ?_, uffTorsion_setup_groupSix, uffTorsion_setup_other⟩
  · intro k sqrt log bondorder
    simp [UffTorsionCalculation.setup, exampleOxygen]
  · intro h
    injection h with h
    norm_num at h
  · simp only [exampleConstants, Float.num_div_num]
    intro h
    split_ifs at h
    injection h with h
    norm_num at h
  · intro h
    simp only [exampleConstants] at h
    injection h with h
    norm_num at h
  · simp only [exampleConstants, Float.num_mul_num]
    intro h
    injection h with h
    norm_num at h
  · intro cos phi
    simp [UffTorsionCalculation.energy]
    norm_num

/-! ### The amber nonbonded term and its derivative -/

theorem amberNonbonded_hasDerivAt (Pi epsilon sigma qa qb r : ℝ) (hr : r ≠ 0) :
    HasDerivAt (fun x => AmberNonbondedCalculation.energy Pi epsilon sigma qa qb x)
      (AmberNonbondedCalculation.de_dr Pi epsilon sigma qa qb r) r := by
  have hsr : HasDerivAt (fun x : ℝ => sigma / x) (-sigma / r ^ 2) r := by
    have h := (hasDerivAt_const r sigma).div (hasDerivAt_id r) hr
    convert h using 1
    simp
  have hinv : HasDerivAt (fun x : ℝ => x⁻¹) (-(r ^ 2)⁻¹) r := hasDerivAt_inv hr
  have hel : HasDerivAt (fun x : ℝ => qa * qb / (4 * Pi * 1 * x))
      (-(qa * qb / (4 * Pi * 1 * r ^ 2))) r := by
    have h := hinv.const_mul (qa * qb / (4 * Pi * 1))
    convert h using 1
    · funext x
      rw [div_mul_eq_div_div, div_eq_mul_inv (qa * qb / (4 * Pi * 1)) x]
    · rw [div_mul_eq_div_div, div_eq_mul_inv (qa * qb / (4 * Pi * 1)) (r ^ 2)]
      ring
  have hvdw := ((hsr.pow 12).sub ((hsr.pow 6).const_mul 2)).const_mul epsilon
  have h := hvdw.add hel
  unfold AmberNonbondedCalculation.energy AmberNonbondedCalculation.de_dr
  convert h using 1
  simp only [Nat.cast_ofNat]
  ring

/-- C24: over the reals, for every well depth, radius, charges and value
of `Pi`, and every distance `r > 0`, the energy of
`AmberNonbondedCalculation::energy` is
`epsilon * ((sigma / r)^12 - 2 * (sigma / r)^6) + qa * qb / (4 * Pi * r)`
and the scalar `de_dr` of `gradient()` is its derivative with respect to
`r`; with zero charges and `sigma = r` the energy is `-epsilon`, `de_dr`
is zero, and `gradient()` returns two zero vectors. -/
theorem amberNonbonded_derivative (Pi epsilon sigma qa qb r : ℝ) (hr : 0 < r) :
    AmberNonbondedCalculation.energy Pi epsilon sigma qa qb r
        = epsilon * ((sigma / r) ^ 12 - 2 * (sigma / r) ^ 6) + qa * qb / (4 * Pi * r)
      ∧ HasDerivAt (fun x => AmberNonbondedCalculation.energy Pi epsilon sigma qa qb x)
          (AmberNonbondedCalculation.de_dr Pi epsilon sigma qa qb r) r
      ∧ AmberNonbondedCalculation.energy Pi epsilon r 0 0 r = -epsilon
      ∧ AmberNonbondedCalculation.de_dr Pi epsilon r 0 0 r = 0
      ∧ ∀ g0 g1 : ℝ × ℝ × ℝ,
          AmberNonbondedCalculation.gradient [g0, g1] Pi epsilon r 0 0 r
            = [(0, 0, 0), (0, 0, 0)] := by
  have hne : r ≠ 0 := ne_of_gt hr
  have hzero : AmberNonbondedCalculation.de_dr Pi epsilon r 0 0 r = 0 := by
    unfold AmberNonbondedCalculation.de_dr
    simp [div_self hne]
  refine ⟨?_, amberNonbonded_hasDerivAt Pi epsilon sigma qa qb r hne, ?_, hzero, ?_⟩
  · unfold AmberNonbondedCalculation.energy
    simp
  · unfold AmberNonbondedCalculation.energy
    simp [div_self hne]
    ring
  · intro g0 g1
    unfold AmberNonbondedCalculation.gradient
    rw [hzero]
    simp [scaleFirstTwoOver]

theorem amberNonbonded_derivative_witness :
    (0 : ℝ) < 2
      ∧ HasDerivAt (fun x => AmberNonbondedCalculation.energy Real.pi 1 2 0 0 x)
          (AmberNonbondedCalculation.de_dr Real.pi 1 2 0 0 2) 2
      ∧ AmberNonbondedCalculation.energy Real.pi 1 (2 : ℝ) 0 0 2 = -1 :=
  ⟨by norm_num, (amberNonbonded_derivative Real.pi 1 2 0 0 2 (by norm_num)).2.1,
    (amberNonbonded_derivative Real.pi 1 2 0 0 2 (by norm_num)).2.2.1⟩

/-! ### The amber torsion term and its derivative -/

theorem fourierTerm_hasDerivAt (V gamma d n phi : ℝ) :
    HasDerivAt (fun x => V * (1 + Real.cos ((n * x - gamma) * d)))
      (V * (-Real.sin ((n * phi - gamma) * d) * n) * d) phi := by
  have hinner : HasDerivAt (fun x : ℝ => (n * x - gamma) * d) (n * d) phi := by
    have h := (((hasDerivAt_id phi).const_mul n).sub_const gamma).mul_const d
    convert h using 1
    simp
  have h := ((hinner.cos).const_add 1).const_mul V
  convert h using 1
  ring

/-- C25: over the reals, for every value of the parameters and of the
conversion factor, `AmberTorsionCalculation::energy` is the sum of the
four terms `V_n * (1 + cos((n * phi - gamma_n) * DegreesToRadians))`,
`n = 1..4`, in particular with the factor `pi / 180`, and the scalar
`de_dphi` of `gradient()` is the derivative of that energy with respect
to the angle `phi` in degrees. -/
theorem amberTorsion_derivative (d V1 V2 V3 V4 gamma1 gamma2 gamma3 gamma4 phi : ℝ) :
    AmberTorsionCalculation.energy Real.cos d V1 V2 V3 V4 gamma1 gamma2 gamma3 gamma4 phi
        = V1 * (1 + Real.cos ((1 * phi - gamma1) * d))
          + V2 * (1 + Real.cos ((2 * phi - gamma2) * d))
          + V3 * (1 + Real.cos ((3 * phi - gamma3) * d))
          + V4 * (1 + Real.cos ((4 * phi - gamma4) * d))
      ∧ AmberTorsionCalculation.energy Real.cos (Real.pi / 180) V1 V2 V3 V4
            gamma1 gamma2 gamma3 gamma4 phi
          = V1 * (1 + Real.cos ((1 * phi - gamma1) * Real.pi / 180))
            + V2 * (1 + Real.cos ((2 * phi - gamma2) * Real.pi / 180))
            + V3 * (1 + Real.cos ((3 * phi - gamma3) * Real.pi / 180))
            + V4 * (1 + Real.cos ((4 * phi - gamma4) * Real.pi / 180))
      ∧ HasDerivAt
          (fun x => AmberTorsionCalculation.energy Real.cos d V1 V2 V3 V4
            gamma1 gamma2 gamma3 gamma4 x)
          (AmberTorsionCalculation.de_dphi Real.sin d V1 V2 V3 V4
            gamma1 gamma2 gamma3 gamma4 phi) phi
      ∧ HasDerivAt
          (fun x => AmberTorsionCalculation.energy Real.cos (Real.pi / 180) V1 V2 V3 V4
            gamma1 gamma2 gamma3 gamma4 x)
          (AmberTorsionCalculation.de_dphi Real.sin (Real.pi / 180) V1 V2 V3 V4
            gamma1 gamma2 gamma3 gamma4 phi) phi := by
  have hderiv : ∀ d : ℝ, HasDerivAt
      (fun x => AmberTorsionCalculation.energy Real.cos d V1 V2 V3 V4
        gamma1 gamma2 gamma3 gamma4 x)
      (AmberTorsionCalculation.de_dphi Real.sin d V1 V2 V3 V4
        gamma1 gamma2 gamma3 gamma4 phi) phi := by
    intro d
    have h := (((fourierTerm_hasDerivAt V1 gamma1 d 1 phi).add
      (fourierTerm_hasDerivAt V2 gamma2 d 2 phi)).add
      (fourierTerm_hasDerivAt V3 gamma3 d 3 phi)).add
      (fourierTerm_hasDerivAt V4 gamma4 d 4 phi)
    unfold AmberTorsionCalculation.energy AmberTorsionCalculation.de_dphi
    simp only [zero_add]
    convert h using 1
    ring
  refine ⟨?_, ?_, hderiv d, hderiv (Real.pi / 180)⟩
  · unfold AmberTorsionCalculation.energy
    simp only [zero_add]
  · unfold AmberTorsionCalculation.energy
    simp only [zero_add, mul_div_assoc]

/-! ### The uff angle-bend term and its derivative -/

theorem uffAngleBend_hasDerivAt (ka c0 c1 c2 theta : ℝ) :
    HasDerivAt (fun x => UffAngleBendCalculation.energy Real.cos ka c0 c1 c2 x)
      (UffAngleBendCalculation.de_dtheta Real.sin ka c1 c2 theta) theta := by
  have hcos : HasDerivAt (fun x : ℝ => c1 * Real.cos x) (c1 * -Real.sin theta) theta :=
    (Real.hasDerivAt_cos theta).const_mul c1
  have hcos2 : HasDerivAt (fun x : ℝ => c2 * Real.cos (2 * x))
      (c2 * (-Real.sin (2 * theta) * (2 * 1))) theta :=
    (((hasDerivAt_id theta).const_mul 2).cos).const_mul c2
  have h := (((hcos.const_add c0).add hcos2)).const_mul ka
  unfold UffAngleBendCalculation.energy UffAngleBendCalculation.de_dtheta
  convert h using 1
  ring

/-- C28, as the code has it in exact arithmetic: over the reals, for
every force constant and every equilibrium angle `theta0` with
`sin(theta0) != 0`, the coefficients stored by
`setup` are `c2 = 1 / (4 sin^2(theta0))` (so that `c2 * 4 sin^2(theta0) =
1`), `c1 = -4 c2 cos(theta0)` and `c0 = c2 (2 cos^2(theta0) + 1)`; with
them the energy of `energy()` and the scalar `de_dtheta` of `gradient()`
are both zero at `theta = theta0`; and for all coefficients and every
`theta` that scalar is the derivative of the energy with respect to
`theta`. -/
theorem uffAngleBend_derivative (ka theta0 : ℝ) (hsin : Real.sin theta0 ≠ 0) :
    UffAngleBendCalculation.coefficients Real.cos Real.sin theta0
        = (1 / (4 * Real.sin theta0 ^ 2) * (2 * Real.cos theta0 ^ 2 + 1),
            -4 * (1 / (4 * Real.sin theta0 ^ 2)) * Real.cos theta0,
            1 / (4 * Real.sin theta0 ^ 2))
      ∧ (UffAngleBendCalculation.coefficients Real.cos Real.sin theta0).2.2
          * (4 * Real.sin theta0 ^ 2) = 1
      ∧ UffAngleBendCalculation.energy Real.cos ka
          (UffAngleBendCalculation.coefficients Real.cos Real.sin theta0).1
          (UffAngleBendCalculation.coefficients Real.cos Real.sin theta0).2.1
          (UffAngleBendCalculation.coefficients Real.cos Real.sin theta0).2.2 theta0 = 0
      ∧ UffAngleBendCalculation.de_dtheta Real.sin ka
          (UffAngleBendCalculation.coefficients Real.cos Real.sin theta0).2.1
          (UffAngleBendCalculation.coefficients Real.cos Real.sin theta0).2.2 theta0 = 0
      ∧ ∀ c0 c1 c2 theta : ℝ,
          HasDerivAt (fun x => UffAngleBendCalculation.energy Real.cos ka c0 c1 c2 x)
            (UffAngleBendCalculation.de_dtheta Real.sin ka c1 c2 theta) theta := by
  have hne : 4 * Real.sin theta0 ^ 2 ≠ 0 := mul_ne_zero (by norm_num) (pow_ne_zero 2 hsin)
  refine ⟨rfl, ?_, ?_, ?_, fun c0 c1 c2 theta => uffAngleBend_hasDerivAt ka c0 c1 c2 theta⟩
  · unfold UffAngleBendCalculation.coefficients
    simp only
    exact one_div_mul_cancel hne
  · unfold UffAngleBendCalculation.energy UffAngleBendCalculation.coefficients
    simp only [Real.cos_two_mul]
    ring
  · unfold UffAngleBendCalculation.de_dtheta UffAngleBendCalculation.coefficients
    simp only [Real.sin_two_mul]
    ring

theorem uffAngleBend_derivative_witness :
    Real.sin (Real.pi / 2) ≠ 0
      ∧ UffAngleBendCalculation.energy Real.cos 1
          (UffAngleBendCalculation.coefficients Real.cos Real.sin (Real.pi / 2)).1
          (UffAngleBendCalculation.coefficients Real.cos Real.sin (Real.pi / 2)).2.1
          (UffAngleBendCalculation.coefficients Real.cos Real.sin (Real.pi / 2)).2.2
          (Real.pi / 2) = 0 :=
  ⟨by simp, (uffAngleBend_derivative 1 (Real.pi / 2) (by simp)).2.2.1⟩

/-! ### `minimizationStep` in double arithmetic with numerical gradients -/

/-! ### The uff angle-bend term in double arithmetic -/

/-- C28, as stated, fails in double arithmetic: for `theta0` the `double`
nearest to pi (a linear centre, 180 degrees) the library gives
`sin(theta0) = 1.2246467991473532e-16`, which is not zero, and
`cos(theta0) = -1`, `cos(2 theta0) = 1`; the coefficients of `setup` are
then about `5.0e31`, `6.7e31` and `1.7e31`, and with `ka = 1` the energy
at `theta = theta0` is `-2^52`, about `-4.5e15`, not zero. -/
theorem uffAngleBend_energy_rounded :
    exampleLibrarySin (num exampleDoublePi) ≠ num 0
      ∧ Rounded.UffAngleBendCalculation.coefficients roundDouble exampleLibraryCos
          exampleLibrarySin (num exampleDoublePi)
          = (num 50008008527129452141234173771776, num 66677344702839275526445068189696,
              num 16669336175709818881611267047424)
      ∧ Rounded.UffAngleBendCalculation.energy roundDouble exampleLibraryCos (num 1)
          (num 50008008527129452141234173771776) (num 66677344702839275526445068189696)
          (num 16669336175709818881611267047424) (num exampleDoublePi)
          = num (-4503599627370496) := by
  decide!

/-! ### The rounded engine with the identity is the exact engine -/

theorem Float.rounded_id (x : Float) : x.rounded (fun q => q) = x := by
  cases x <;> rfl

theorem rounded_add_id (a b : Vector3) : Rounded.Vector3.add (fun q => q) a b = a + b := by
  simp only [Rounded.Vector3.add, Float.rounded_id]
  rfl

theorem rounded_scaled_id (a : Vector3) (s : Float) :
    Rounded.Vector3.scaled (fun q => q) a s = a.scaled s := by
  simp only [Rounded.Vector3.scaled, Float.rounded_id]
  rfl

theorem rounded_lengthSquared_id (a : Vector3) :
    Rounded.Vector3.lengthSquared (fun q => q) a = a.lengthSquared := by
  simp only [Rounded.Vector3.lengthSquared, Float.rounded_id]
  rfl

theorem rounded_atomMoveBy_id (atom : ForceFieldAtom) (v : Vector3) :
    Rounded.ForceFieldAtom.moveBy (fun q => q) atom v = atom.moveBy v := by
  simp only [Rounded.ForceFieldAtom.moveBy, Rounded.Vector3.moveBy, rounded_add_id]
  rfl

theorem rounded_atomMoveBy3_id (atom : ForceFieldAtom) (dx dy dz : Float) :
    Rounded.ForceFieldAtom.moveBy3 (fun q => q) atom dx dy dz = atom.moveBy3 dx dy dz := by
  simp only [Rounded.ForceFieldAtom.moveBy3, Rounded.Vector3.moveBy3, Float.rounded_id]
  rfl

theorem rounded_addAt_id (gradient : List Vector3) (index : Nat) (v : Vector3) :
    Rounded.addAt (fun q => q) gradient index v = addAt gradient index v := by
  simp only [Rounded.addAt, addAt, rounded_add_id]

theorem rounded_accumulate_id (gradient : List Vector3) (calculation : ForceFieldCalculation)
    (atoms : List ForceFieldAtom) :
    Rounded.accumulate (fun q => q) gradient calculation atoms
      = accumulate gradient calculation atoms := by
  simp only [Rounded.accumulate, accumulate, rounded_addAt_id]

theorem rounded_moveAtoms_id :
    ∀ (atoms : List ForceFieldAtom) (gradient : List Vector3) (step : Float),
      Rounded.moveAtoms (fun q => q) atoms gradient step = moveAtoms atoms gradient step
  | [], _, _ => by simp [Rounded.moveAtoms, moveAtoms]
  | _ :: _, [], _ => by simp [Rounded.moveAtoms, moveAtoms]
  | atom :: atoms, g :: gradient, step => by
    simp only [Rounded.moveAtoms, moveAtoms, rounded_atomMoveBy_id, rounded_scaled_id,
      rounded_moveAtoms_id atoms gradient step]

theorem rounded_wiggleAtoms_id (env : Environment) :
    ∀ (atoms : List ForceFieldAtom) (positions : List Point3) (drawn : Nat),
      Rounded.wiggleAtoms (fun q => q) env atoms positions drawn
        = wiggleAtoms env atoms positions drawn
  | [], _, _ => by simp [Rounded.wiggleAtoms, wiggleAtoms]
  | _ :: _, [], _ => by simp [Rounded.wiggleAtoms, wiggleAtoms]
  | atom :: atoms, p :: positions, drawn => by
    simp only [Rounded.wiggleAtoms, wiggleAtoms, rounded_atomMoveBy_id,
      rounded_wiggleAtoms_id env atoms positions (drawn + 1)]

theorem rounded_energy_id (env : Environment) (ff : ForceField) :
    Rounded.ForceField.energy (fun q => q) env ff = ff.energy env := by
  have hreduce : Rounded.reduceEnergy (fun q => q) = reduceEnergy := by
    funext result energy
    simp only [Rounded.reduceEnergy, reduceEnergy, Float.rounded_id]
  simp only [Rounded.ForceField.energy, ForceField.energy, Float.rounded_id, hreduce]

theorem rounded_moveAtomBy3_id (ff : ForceField) (index : Nat) (dx dy dz : Float) :
    Rounded.ForceField.moveAtomBy3 (fun q => q) ff index dx dy dz
      = ff.moveAtomBy3 index dx dy dz := by
  simp only [Rounded.ForceField.moveAtomBy3, ForceField.moveAtomBy3, rounded_atomMoveBy3_id]

theorem rounded_numericalGradient_id (env : Environment) (ff : ForceField) :
    Rounded.ForceField.numericalGradient (fun q => q) env ff = ff.numericalGradient env := by
  have hstep : Rounded.ForceField.numericalGradientStep (fun q => q) env
      = ForceField.numericalGradientStep env := by
    funext state i
    simp only [Rounded.ForceField.numericalGradientStep, ForceField.numericalGradientStep,
      rounded_moveAtomBy3_id, Float.rounded_id]
  simp only [Rounded.ForceField.numericalGradient, ForceField.numericalGradient, hstep]

theorem rounded_gradient_id (env : Environment) (ff : ForceField) :
    Rounded.ForceField.gradient (fun q => q) env ff = ff.gradient env := by
  simp only [Rounded.ForceField.gradient, ForceField.gradient, rounded_accumulate_id,
    rounded_numericalGradient_id]

theorem rounded_rootMeanSquareGradient_id (env : Environment) (ff : ForceField) :
    Rounded.ForceField.rootMeanSquareGradient (fun q => q) env ff
      = ff.rootMeanSquareGradient env := by
  simp only [Rounded.ForceField.rootMeanSquareGradient, ForceField.rootMeanSquareGradient,
    rounded_gradient_id, rounded_lengthSquared_id, Float.rounded_id]

theorem rounded_lineSearchIteration_id (env : Environment) (s : LineSearch) :
    Rounded.lineSearchIteration (fun q => q) env s = lineSearchIteration env s := by
  simp only [Rounded.lineSearchIteration, lineSearchIteration, rounded_moveAtoms_id,
    rounded_energy_id, rounded_wiggleAtoms_id, rounded_gradient_id, Float.rounded_id]

theorem rounded_lineSearchLoop_id (env : Environment) :
    ∀ (n : Nat) (s : LineSearch),
      Rounded.lineSearchLoop (fun q => q) env n s = lineSearchLoop env n s
  | 0, _ => rfl
  | n + 1, s => by
    simp only [Rounded.lineSearchLoop, lineSearchLoop, rounded_lineSearchIteration_id,
      rounded_lineSearchLoop_id env n]

/-- With the identity as rounding, `minimizationStep` of the rounded
engine is `minimizationStep` of the exact engine. -/
theorem rounded_minimizationStep_id (env : Environment) (ff : ForceField)
    (converganceValue : Float) (drawn : Nat) :
    Rounded.ForceField.minimizationStep (fun q => q) env ff converganceValue drawn
      = ff.minimizationStep env converganceValue drawn := by
  simp only [Rounded.ForceField.minimizationStep, ForceField.minimizationStep,
    Rounded.ForceField.lineSearch, ForceField.lineSearch, Rounded.ForceField.lineSearchStart,
    ForceField.lineSearchStart, rounded_lineSearchLoop_id, rounded_gradient_id,
    rounded_energy_id, rounded_rootMeanSquareGradient_id, Float.rounded_id]

/-! ### The energy never increases: analytic gradients in rounded arithmetic -/

theorem rounded_gradient_forceField (round : ℚ → ℚ) (env : Environment) (ff : ForceField)
    (hflag : ff.flags.AnalyticalGradient = true) :
    (Rounded.ForceField.gradient round env ff).2 = ff := by
  unfold Rounded.ForceField.gradient
  rw [if_pos hflag]

theorem rounded_rootMeanSquareGradient_forceField (round : ℚ → ℚ) (env : Environment)
    (ff : ForceField) (hflag : ff.flags.AnalyticalGradient = true) :
    (Rounded.ForceField.rootMeanSquareGradient round env ff).2 = ff := by
  unfold Rounded.ForceField.rootMeanSquareGradient
  split
  · rfl
  · exact rounded_gradient_forceField round env ff hflag

theorem rounded_restoreAtoms_moveAtoms (round : ℚ → ℚ) :
    ∀ (atoms : List ForceFieldAtom) (gradient : List Vector3) (step : Float),
      restoreAtoms (Rounded.moveAtoms round atoms gradient step)
        (atoms.map (fun atom => atom.position)) = atoms
  | [], _, _ => by simp [Rounded.moveAtoms, restoreAtoms]
  | atom :: atoms, [], step => by
    have h := restoreAtoms_moveAtoms (atom :: atoms) [] step
    rw [moveAtoms_nil] at h
    simp only [Rounded.moveAtoms]
    exact h
  | atom :: atoms, g :: gradient, step => by
    simp only [Rounded.moveAtoms, List.map_cons, restoreAtoms,
      rounded_restoreAtoms_moveAtoms round atoms gradient step]
    rfl

theorem rounded_lineSearchIteration_record (round : ℚ → ℚ) (env : Environment)
    (s : LineSearch) :
    (Rounded.lineSearchIteration round env s).1.iterations = s.iterations + 1
      ∧ (Rounded.lineSearchIteration round env s).1.energies
          = s.energies ++ [Rounded.ForceField.energy round env
              { s.forceField with
                atoms := Rounded.moveAtoms round s.forceField.atoms s.gradient s.step }] := by
  unfold Rounded.lineSearchIteration
  simp only
  split_ifs <;> exact ⟨rfl, rfl⟩

theorem rounded_lineSearchLoop_record (round : ℚ → ℚ) (env : Environment) :
    ∀ (n : Nat) (s : LineSearch),
      s.iterations ≤ (Rounded.lineSearchLoop round env n s).iterations
        ∧ (Rounded.lineSearchLoop round env n s).iterations ≤ s.iterations + n
        ∧ (Rounded.lineSearchLoop round env n s).energies.length + s.iterations
            = s.energies.length + (Rounded.lineSearchLoop round env n s).iterations
        ∧ ∀ x ∈ s.energies, x ∈ (Rounded.lineSearchLoop round env n s).energies
  | 0, s => ⟨le_refl _, le_refl _, rfl, fun _ h => h⟩
  | n + 1, s => by
    obtain ⟨hit, hen⟩ := rounded_lineSearchIteration_record round env s
    obtain ⟨h1, h2, h3, h4⟩ :=
      rounded_lineSearchLoop_record round env n (Rounded.lineSearchIteration round env s).1
    have hlen : (Rounded.lineSearchIteration round env s).1.energies.length
        = s.energies.length + 1 := by
      rw [hen]
      simp
    have hsub : ∀ x ∈ s.energies, x ∈ (Rounded.lineSearchIteration round env s).1.energies := by
      intro x hx
      rw [hen]
      exact List.mem_append_left _ hx
    unfold Rounded.lineSearchLoop
    simp only
    split_ifs
    · exact ⟨by omega, by omega, by omega, hsub⟩
    · exact ⟨by omega, by omega, by omega, fun x hx => h4 x (hsub x hx)⟩

theorem rounded_lineSearchIteration_flags (round : ℚ → ℚ) (env : Environment)
    (s : LineSearch) (hflag : s.forceField.flags.AnalyticalGradient = true) :
    (Rounded.lineSearchIteration round env s).1.forceField.flags.AnalyticalGradient = true := by
  unfold Rounded.lineSearchIteration
  simp only
  split_ifs
  · show (Rounded.ForceField.gradient round env _).2.flags.AnalyticalGradient = true
    rw [rounded_gradient_forceField round env _ (by exact hflag)]
    exact hflag
  all_goals exact hflag

theorem rounded_lineSearchLoop_flags (round : ℚ → ℚ) (env : Environment) :
    ∀ (n : Nat) (s : LineSearch), s.forceField.flags.AnalyticalGradient = true →
      (Rounded.lineSearchLoop round env n s).forceField.flags.AnalyticalGradient = true
  | 0, _, h => h
  | n + 1, s, h => by
    have hstep := rounded_lineSearchIteration_flags round env s h
    unfold Rounded.lineSearchLoop
    simp only
    split_ifs
    · exact hstep
    · exact rounded_lineSearchLoop_flags round env n _ hstep

theorem rounded_lineSearchIteration_energy (round : ℚ → ℚ) (env : Environment)
    (s : LineSearch) (e0 e : ℚ)
    (hinit : s.initialEnergy = num e)
    (henergy : Rounded.ForceField.energy round env s.forceField = num e) (hle : e ≤ e0)
    (hfinal : ∀ x ∈ (Rounded.lineSearchIteration round env s).1.energies, x ≠ nan) :
    ∃ e', Rounded.ForceField.energy round env
          (Rounded.lineSearchIteration round env s).1.forceField = num e' ∧ e' ≤ e0
      ∧ ((Rounded.lineSearchIteration round env s).2 = false →
          (Rounded.lineSearchIteration round env s).1.initialEnergy = num e') := by
  have hmem : Rounded.ForceField.energy round env
      { s.forceField with
        atoms := Rounded.moveAtoms round s.forceField.atoms s.gradient s.step }
        ∈ (Rounded.lineSearchIteration round env s).1.energies := by
    rw [(rounded_lineSearchIteration_record round env s).2]
    simp
  obtain ⟨ef, hef⟩ := Float.eq_num_of_ne_nan (hfinal _ hmem)
  unfold Rounded.lineSearchIteration
  simp only [hef, hinit, Float.qIsNaN_num, Bool.false_eq_true, if_false, Float.num_lt_num]
  split_ifs with h1 h2 hcap h3
  · exact ⟨ef, hef, le_trans (le_of_lt h1.1) hle, fun h => absurd h (by simp)⟩
  · exact ⟨ef, hef, le_trans (le_of_lt h2) hle, fun _ => rfl⟩
  · exact ⟨ef, hef, le_trans (le_of_lt h2) hle, fun _ => rfl⟩
  · refine ⟨e, ?_, hle, fun _ => rfl⟩
    simp only [rounded_restoreAtoms_moveAtoms]
    exact henergy
  · have hee : ef = e := le_antisymm (not_lt.1 h3) (not_lt.1 h2)
    exact ⟨ef, hef, by rw [hee]; exact hle, fun _ => by rw [hee]⟩

theorem rounded_lineSearchLoop_energy (round : ℚ → ℚ) (env : Environment) (e0 : ℚ) :
    ∀ (n : Nat) (s : LineSearch) (e : ℚ), s.initialEnergy = num e →
      Rounded.ForceField.energy round env s.forceField = num e → e ≤ e0 →
      (∀ x ∈ (Rounded.lineSearchLoop round env n s).energies, x ≠ nan) →
      ∃ e', Rounded.ForceField.energy round env
          (Rounded.lineSearchLoop round env n s).forceField = num e' ∧ e' ≤ e0
  | 0, s, e, _, henergy, hle, _ => ⟨e, henergy, hle⟩
  | n + 1, s, e, hinit, henergy, hle, hall => by
    have hrec :=
      rounded_lineSearchLoop_record round env n (Rounded.lineSearchIteration round env s).1
    unfold Rounded.lineSearchLoop at hall ⊢
    simp only at hall ⊢
    cases hstop : (Rounded.lineSearchIteration round env s).2 with
    | true =>
      simp only [hstop, if_true] at hall ⊢
      obtain ⟨e', h1, h2, _⟩ :=
        rounded_lineSearchIteration_energy round env s e0 e hinit henergy hle hall
      exact ⟨e', h1, h2⟩
    | false =>
      simp only [hstop, Bool.false_eq_true, if_false] at hall ⊢
      obtain ⟨e', h1, h2, h3⟩ :=
        rounded_lineSearchIteration_energy round env s e0 e hinit henergy hle
          (fun x hx => hall x (hrec.2.2.2 x hx))
      exact rounded_lineSearchLoop_energy round env e0 n _ e' (h3 hstop) h1 h2 hall

theorem rounded_minimizationStep_energy_le (round : ℚ → ℚ) (env : Environment)
    (ff : ForceField) (converganceValue : Float) (drawn : Nat)
    (hflag : ff.flags.AnalyticalGradient = true)
    (hnan : ∀ x ∈ (Rounded.ForceField.minimizationStep round env ff converganceValue
      drawn).energies, x ≠ nan) :
    Rounded.ForceField.energy round env
        (Rounded.ForceField.minimizationStep round env ff converganceValue drawn).forceField
      ≤ Rounded.ForceField.energy round env ff := by
  have hstart : (Rounded.ForceField.lineSearchStart round env ff drawn).forceField = ff :=
    rounded_gradient_forceField round env ff hflag
  have hsearch : (Rounded.ForceField.lineSearch round env ff drawn).forceField.flags.AnalyticalGradient
      = true :=
    rounded_lineSearchLoop_flags round env 10 _ (by rw [hstart]; exact hflag)
  have hff : (Rounded.ForceField.minimizationStep round env ff converganceValue drawn).forceField
      = (Rounded.ForceField.lineSearch round env ff drawn).forceField :=
    rounded_rootMeanSquareGradient_forceField round env _ hsearch
  have hen : (Rounded.ForceField.minimizationStep round env ff converganceValue drawn).energies
      = (Rounded.ForceField.lineSearch round env ff drawn).energies := rfl
  rw [hff]
  rw [hen] at hnan
  have hrec := rounded_lineSearchLoop_record round env 10
    (Rounded.ForceField.lineSearchStart round env ff drawn)
  have hinit : (Rounded.ForceField.lineSearchStart round env ff drawn).initialEnergy
      = Rounded.ForceField.energy round env ff := by
    show Rounded.ForceField.energy round env (Rounded.ForceField.gradient round env ff).2 = _
    rw [rounded_gradient_forceField round env ff hflag]
  have hmem : Rounded.ForceField.energy round env ff
      ∈ (Rounded.ForceField.lineSearchStart round env ff drawn).energies := by
    show _ ∈ [Rounded.ForceField.energy round env (Rounded.ForceField.gradient round env ff).2]
    rw [rounded_gradient_forceField round env ff hflag]
    exact List.mem_singleton.2 rfl
  obtain ⟨e0, he0⟩ := Float.eq_num_of_ne_nan (hnan _ (hrec.2.2.2 _ hmem))
  obtain ⟨e', h1, h2⟩ := rounded_lineSearchLoop_energy round env e0 10
    (Rounded.ForceField.lineSearchStart round env ff drawn) e0 (by rw [hinit, he0])
    (by rw [hstart, he0]) (le_refl _) hnan
  have h1' : Rounded.ForceField.energy round env
      (Rounded.ForceField.lineSearch round env ff drawn).forceField = num e' := h1
  rw [h1', he0]
  exact h2

/-! ### A line search along the zero gradient: analytic gradients in rounded arithmetic -/

theorem rounded_moveAtoms_zero (round : ℚ → ℚ) (hround : round 0 = 0) :
    ∀ (atoms : List ForceFieldAtom) (gradient : List Vector3) (q : ℚ),
      (∀ g ∈ gradient, g = 0) →
      (∀ atom ∈ atoms, Rounded.Vector3.isRounded round atom.position) →
      Rounded.moveAtoms round atoms gradient (num q) = atoms
  | [], _, _, _, _ => by simp [Rounded.moveAtoms]
  | _ :: _, [], _, _, _ => by simp [Rounded.moveAtoms]
  | atom :: atoms, g :: gradient, q, h, hrep => by
    have hg : g = 0 := h g (List.mem_cons_self _ _)
    have hrest := rounded_moveAtoms_zero round hround atoms gradient q
      (fun g' hg' => h g' (List.mem_cons_of_mem _ hg'))
      (fun a ha => hrep a (List.mem_cons_of_mem _ ha))
    obtain ⟨hx, hy, hz⟩ := hrep atom (List.mem_cons_self _ _)
    subst hg
    simp only [Rounded.moveAtoms, hrest, List.cons.injEq, and_true]
    have hscaled : Rounded.Vector3.scaled round (-(0 : Vector3)) (num q)
        = ⟨num 0, num 0, num 0⟩ := by
      simp [Rounded.Vector3.scaled, Vector3.neg_eq_mk, Vector3.zero_eq_mk, Float.zero_eq_num,
        Float.rounded, hround]
    have hadd : ∀ a : Float, a + num 0 = a := fun a => add_zero a
    rw [hscaled]
    simp only [Rounded.ForceFieldAtom.moveBy, Rounded.Vector3.moveBy, Rounded.Vector3.add,
      hadd, hx, hy, hz]

theorem rounded_lineSearchIteration_zero_gradient (round : ℚ → ℚ) (env : Environment)
    (s : LineSearch) (q e : ℚ) (hround : round 0 = 0)
    (hzero : ∀ g ∈ s.gradient, g = 0)
    (hrep : ∀ atom ∈ s.forceField.atoms, Rounded.Vector3.isRounded round atom.position)
    (hstep : s.step = num q) (hinit : s.initialEnergy = num e)
    (henergy : Rounded.ForceField.energy round env s.forceField = num e) :
    Rounded.lineSearchIteration round env s
      = ({ s with iterations := s.iterations + 1, energies := s.energies ++ [num e] },
          false) := by
  have hmoved : Rounded.ForceField.energy round env
      { s.forceField with
        atoms := Rounded.moveAtoms round s.forceField.atoms s.gradient s.step } = num e := by
    rw [hstep, rounded_moveAtoms_zero round hround _ _ q hzero hrep]
    exact henergy
  unfold Rounded.lineSearchIteration
  simp only [hmoved, hinit, Float.qIsNaN_num, Bool.false_eq_true, if_false, Float.num_lt_num,
    lt_irrefl, false_and]
  rw [hstep, rounded_moveAtoms_zero round hround _ _ q hzero hrep]

theorem rounded_lineSearchLoop_zero_gradient (round : ℚ → ℚ) (env : Environment) (q e : ℚ)
    (hround : round 0 = 0) :
    ∀ (n : Nat) (s : LineSearch), (∀ g ∈ s.gradient, g = 0) →
      (∀ atom ∈ s.forceField.atoms, Rounded.Vector3.isRounded round atom.position) →
      s.step = num q → s.initialEnergy = num e →
      Rounded.ForceField.energy round env s.forceField = num e →
      Rounded.lineSearchLoop round env n s
        = { s with iterations := s.iterations + n,
                   energies := s.energies ++ List.replicate n (num e) }
  | 0, s, _, _, _, _, _ => by simp [Rounded.lineSearchLoop]
  | n + 1, s, hzero, hrep, hstep, hinit, henergy => by
    have h := rounded_lineSearchIteration_zero_gradient round env s q e hround hzero hrep hstep
      hinit henergy
    unfold Rounded.lineSearchLoop
    simp only [h, Bool.false_eq_true, if_false]
    have hrec := rounded_lineSearchLoop_zero_gradient round env q e hround n
      { s with iterations := s.iterations + 1, energies := s.energies ++ [num e] }
      hzero hrep hstep hinit henergy
    rw [hrec]
    simp only [List.append_assoc, List.singleton_append, LineSearch.mk.injEq, true_and]
    exact ⟨by omega, by rw [List.replicate_succ]⟩

theorem rounded_minimizationStep_zero_gradient (round : ℚ → ℚ) (env : Environment)
    (ff : ForceField) (converganceValue : Float) (drawn : Nat)
    (hflag : ff.flags.AnalyticalGradient = true) (hround : round 0 = 0)
    (hrep : ∀ atom ∈ ff.atoms, Rounded.Vector3.isRounded round atom.position)
    (hzero : ∀ g ∈ (Rounded.ForceField.gradient round env ff).1, g = 0)
    (hnan : Rounded.ForceField.energy round env ff ≠ nan) :
    (Rounded.ForceField.minimizationStep round env ff converganceValue drawn).forceField = ff
      ∧ (Rounded.ForceField.minimizationStep round env ff converganceValue drawn).iterations
          = 10
      ∧ (Rounded.ForceField.minimizationStep round env ff converganceValue drawn).energies
          = List.replicate 11 (Rounded.ForceField.energy round env ff)
      ∧ (Rounded.ForceField.lineSearch round env ff drawn).step = num (round (1 / 20))
      ∧ (Rounded.ForceField.lineSearch round env ff drawn).initialEnergy
          = Rounded.ForceField.energy round env ff := by
  obtain ⟨e, he⟩ := Float.eq_num_of_ne_nan hnan
  have hff : (Rounded.ForceField.lineSearchStart round env ff drawn).forceField = ff :=
    rounded_gradient_forceField round env ff hflag
  have hz : ∀ g ∈ (Rounded.ForceField.lineSearchStart round env ff drawn).gradient, g = 0 :=
    hzero
  have hstep : (Rounded.ForceField.lineSearchStart round env ff drawn).step
      = num (round (1 / 20)) := rfl
  have henergy : Rounded.ForceField.energy round env
      (Rounded.ForceField.lineSearchStart round env ff drawn).forceField = num e := by
    rw [hff, he]
  have hinit : (Rounded.ForceField.lineSearchStart round env ff drawn).initialEnergy = num e :=
    henergy
  have hen : (Rounded.ForceField.lineSearchStart round env ff drawn).energies = [num e] := by
    show [Rounded.ForceField.energy round env
      (Rounded.ForceField.lineSearchStart round env ff drawn).forceField] = _
    rw [henergy]
  have hloop : Rounded.ForceField.lineSearch round env ff drawn
      = { Rounded.ForceField.lineSearchStart round env ff drawn with
          iterations := (Rounded.ForceField.lineSearchStart round env ff drawn).iterations + 10,
          energies := (Rounded.ForceField.lineSearchStart round env ff drawn).energies
            ++ List.replicate 10 (num e) } :=
    rounded_lineSearchLoop_zero_gradient round env (round (1 / 20)) e hround 10 _ hz
      (by rw [hff]; exact hrep) hstep hinit henergy
  have hsearch : (Rounded.ForceField.lineSearch round env ff drawn).forceField = ff := by
    rw [hloop]
    exact hff
  have hresult : (Rounded.ForceField.minimizationStep round env ff converganceValue
      drawn).forceField = ff := by
    have h1 : (Rounded.ForceField.minimizationStep round env ff converganceValue
        drawn).forceField = (Rounded.ForceField.lineSearch round env ff drawn).forceField :=
      rounded_rootMeanSquareGradient_forceField round env _ (by rw [hsearch]; exact hflag)
    rw [h1, hsearch]
  refine ⟨hresult, ?_, ?_, ?_, ?_⟩
  · show (Rounded.ForceField.lineSearch round env ff drawn).iterations = 10
    rw [hloop]
    rfl
  · show (Rounded.ForceField.lineSearch round env ff drawn).energies = _
    rw [hloop, he]
    simp only [hen]
    rfl
  · rw [hloop]
    exact hstep
  · rw [hloop, he]
    exact hinit

/-! ### `minimizationStep` in double arithmetic with numerical gradients -/

/-- C5, as stated, fails in double arithmetic with numerical gradients:
for one atom at `x = 1/16` and the energy `(x - 1/16)^2` the total energy
before the call is 0; the four `moveBy` calls of `numericalGradient()`
leave the atom at `1/16 - 2^-57`, the seven moves of the line search that
change the energy are rejected, and the total energy at the positions the
call leaves is `2^-114`, about `4.8e-35`; no energy evaluated is NaN. -/
theorem minimizationStep_energy_increases :
    (exampleNumericalForceField [exampleDoubleCalculation 1]).flags.AnalyticalGradient = false
      ∧ Rounded.ForceField.energy roundDouble exampleEnvironment
          (exampleNumericalForceField [exampleDoubleCalculation 1]) = num 0
      ∧ (∀ x ∈ (Rounded.ForceField.minimizationStep roundDouble exampleEnvironment
          (exampleNumericalForceField [exampleDoubleCalculation 1]) (num 1) 0).energies,
            x ≠ nan)
      ∧ ((Rounded.ForceField.numericalGradient roundDouble exampleEnvironment
          (exampleNumericalForceField [exampleDoubleCalculation 1])).2.atoms.map
            (fun atom => atom.position.x)) = [num (1 / 16 - 1 / 2 ^ 57)]
      ∧ ((Rounded.ForceField.minimizationStep roundDouble exampleEnvironment
          (exampleNumericalForceField [exampleDoubleCalculation 1]) (num 1) 0).forceField.atoms.map
            (fun atom => atom.position.x)) = [num (1 / 16 - 1 / 2 ^ 57)]
      ∧ Rounded.ForceField.energy roundDouble exampleEnvironment
          (Rounded.ForceField.minimizationStep roundDouble exampleEnvironment
            (exampleNumericalForceField [exampleDoubleCalculation 1]) (num 1) 0).forceField
          = num (1 / 2 ^ 114)
      ∧ ¬ (Rounded.ForceField.energy roundDouble exampleEnvironment
            (Rounded.ForceField.minimizationStep roundDouble exampleEnvironment
              (exampleNumericalForceField [exampleDoubleCalculation 1]) (num 1) 0).forceField
          ≤ Rounded.ForceField.energy roundDouble exampleEnvironment
              (exampleNumericalForceField [exampleDoubleCalculation 1])) := by
  decide!

/-- C26, as stated, fails in double arithmetic with numerical gradients:
for one atom at `(1/16, 0, 0)` in a force field without calculations the
gradient computed at entry is zero and the total energy is 0, all 10 inner
iterations run, and the call leaves the atom at `(1/16 - 2^-57, 0, 0)`:
the four `moveBy` calls of `numericalGradient()` do not restore the
coordinate, since `(1/16 + 1e-10) - 1e-10` is rounded to
`0.06249999999999999`. -/
theorem minimizationStep_zero_gradient_moves :
    (exampleNumericalForceField []).flags.AnalyticalGradient = false
      ∧ (Rounded.ForceField.gradient roundDouble exampleEnvironment
          (exampleNumericalForceField [])).1 = [⟨num 0, num 0, num 0⟩]
      ∧ Rounded.ForceField.energy roundDouble exampleEnvironment
          (exampleNumericalForceField []) = num 0
      ∧ (exampleNumericalForceField []).atoms.map (fun atom => atom.position)
          = [⟨num (1 / 16), num 0, num 0⟩]
      ∧ (Rounded.ForceField.minimizationStep roundDouble exampleEnvironment
          (exampleNumericalForceField []) (num 1) 0).iterations = 10
      ∧ (Rounded.ForceField.minimizationStep roundDouble exampleEnvironment
          (exampleNumericalForceField []) (num 1) 0).forceField.atoms.map
            (fun atom => atom.position) = [⟨num (1 / 16 - 1 / 2 ^ 57), num 0, num 0⟩]
      ∧ roundDouble (roundDouble (1 / 16 + roundDouble (1 / 10000000000))
          - roundDouble (1 / 10000000000)) = 1 / 16 - 1 / 2 ^ 57 := by
  decide!

/-! ### What `minimizationStep` keeps -/

/-- C5, as the code has it: when no total energy evaluated during a call
of `minimizationStep` is NaN, the total energy at the positions the call
leaves is at most the total energy at the positions before the call, for
every force field in exact arithmetic, and in every rounded arithmetic for
a force field with analytic gradients that sums its energy in list order
(fewer than 5000 calculations). -/
theorem minimizationStep_energy_le (round : ℚ → ℚ) (env : Environment) (ff : ForceField)
    (converganceValue : Float) (drawn : Nat) :
    ((∀ x ∈ (ff.minimizationStep env converganceValue drawn).energies, x ≠ nan) →
        (ff.minimizationStep env converganceValue drawn).forceField.energy env
          ≤ ff.energy env)
      ∧ (ff.flags.AnalyticalGradient = true → ff.calculations.length < 5000 →
          (∀ x ∈ (Rounded.ForceField.minimizationStep round env ff converganceValue
            drawn).energies, x ≠ nan) →
          Rounded.ForceField.energy round env
              (Rounded.ForceField.minimizationStep round env ff converganceValue
                drawn).forceField
            ≤ Rounded.ForceField.energy round env ff) :=
  ⟨minimizationStep_energy_le_exact env ff converganceValue drawn,
    fun hflag _ hnan =>
      rounded_minimizationStep_energy_le round env ff converganceValue drawn hflag hnan⟩

theorem minimizationStep_energy_le_witness :
    (∀ x ∈ ((exampleForceField 0 [exampleCalculation 1 true]).minimizationStep
        exampleEnvironment (num 1) 0).energies, x ≠ nan)
      ∧ ((exampleForceField 0 [exampleCalculation 1 true]).minimizationStep
            exampleEnvironment (num 1) 0).forceField.energy exampleEnvironment
          ≤ (exampleForceField 0 [exampleCalculation 1 true]).energy exampleEnvironment
      ∧ (exampleForceField 0 [exampleCalculation 1 true]).flags.AnalyticalGradient = true
      ∧ (exampleForceField 0 [exampleCalculation 1 true]).calculations.length < 5000
      ∧ (∀ x ∈ (Rounded.ForceField.minimizationStep roundDouble exampleEnvironment
          (exampleForceField 0 [exampleCalculation 1 true]) (num 1) 0).energies, x ≠ nan)
      ∧ Rounded.ForceField.energy roundDouble exampleEnvironment
            (Rounded.ForceField.minimizationStep roundDouble exampleEnvironment
              (exampleForceField 0 [exampleCalculation 1 true]) (num 1) 0).forceField
          ≤ Rounded.ForceField.energy roundDouble exampleEnvironment
              (exampleForceField 0 [exampleCalculation 1 true]) :=
  have hnan : ∀ x ∈ ((exampleForceField 0 [exampleCalculation 1 true]).minimizationStep
      exampleEnvironment (num 1) 0).energies, x ≠ nan := by
    intro x hx
    obtain ⟨atoms, hatoms⟩ := minimizationStep_energies _ _ _ _ x hx
    rw [hatoms]
    exact exampleCalculation_energy_ne_nan 1 true atoms
  have hrounded : ∀ x ∈ (Rounded.ForceField.minimizationStep roundDouble exampleEnvironment
      (exampleForceField 0 [exampleCalculation 1 true]) (num 1) 0).energies, x ≠ nan := by
    decide!
  ⟨hnan,
    (minimizationStep_energy_le roundDouble exampleEnvironment
      (exampleForceField 0 [exampleCalculation 1 true]) (num 1) 0).1 hnan,
    rfl, by decide, hrounded,
    (minimizationStep_energy_le roundDouble exampleEnvironment
      (exampleForceField 0 [exampleCalculation 1 true]) (num 1) 0).2 rfl (by decide) hrounded⟩

/-- C26, as the code has it: when the gradient computed at entry is zero
for every atom and the total energy is not NaN, `minimizationStep` returns
with the force field, and so every position, as it was, after all 10 inner
iterations, each of which finds the new energy equal to the baseline,
takes neither branch and keeps step size and baseline: for every force
field in exact arithmetic, and in every rounded arithmetic that keeps zero
for a force field with analytic gradients that sums its energy in list
order and whose coordinates are values of that arithmetic. -/
theorem minimizationStep_zero_gradient (round : ℚ → ℚ) (env : Environment) (ff : ForceField)
    (converganceValue : Float) (drawn : Nat) :
    ((∀ g ∈ (ff.gradient env).1, g = 0) → ff.energy env ≠ nan →
        (ff.minimizationStep env converganceValue drawn).forceField = ff
          ∧ (ff.minimizationStep env converganceValue drawn).forceField.atoms.map
                (fun atom => atom.position) = ff.atoms.map (fun atom => atom.position)
          ∧ (ff.minimizationStep env converganceValue drawn).iterations = 10
          ∧ ff.lineSearch env drawn = lineSearchAfter env 10 (ff.lineSearchStart env drawn)
          ∧ ∀ j, (lineSearchAfter env j (ff.lineSearchStart env drawn)).forceField = ff
              ∧ (lineSearchAfter env j (ff.lineSearchStart env drawn)).step = num (1 / 20)
              ∧ (lineSearchAfter env j (ff.lineSearchStart env drawn)).initialEnergy
                  = ff.energy env
              ∧ lineSearchFinalEnergy env
                    (lineSearchAfter env j (ff.lineSearchStart env drawn))
                  = ff.energy env
              ∧ ¬ (lineSearchFinalEnergy env
                    (lineSearchAfter env j (ff.lineSearchStart env drawn))
                  < (lineSearchAfter env j (ff.lineSearchStart env drawn)).initialEnergy)
              ∧ ¬ ((lineSearchAfter env j (ff.lineSearchStart env drawn)).initialEnergy
                  < lineSearchFinalEnergy env
                      (lineSearchAfter env j (ff.lineSearchStart env drawn)))
              ∧ (lineSearchIteration env
                  (lineSearchAfter env j (ff.lineSearchStart env drawn))).2 = false)
      ∧ (ff.flags.AnalyticalGradient = true → ff.calculations.length < 5000 →
          round 0 = 0 →
          (∀ atom ∈ ff.atoms, Rounded.Vector3.isRounded round atom.position) →
          (∀ g ∈ (Rounded.ForceField.gradient round env ff).1, g = 0) →
          Rounded.ForceField.energy round env ff ≠ nan →
          (Rounded.ForceField.minimizationStep round env ff converganceValue drawn).forceField
              = ff
            ∧ (Rounded.ForceField.minimizationStep round env ff converganceValue
                drawn).iterations = 10
            ∧ (Rounded.ForceField.minimizationStep round env ff converganceValue
                drawn).energies = List.replicate 11 (Rounded.ForceField.energy round env ff)
            ∧ (Rounded.ForceField.lineSearch round env ff drawn).step = num (round (1 / 20))
            ∧ (Rounded.ForceField.lineSearch round env ff drawn).initialEnergy
                = Rounded.ForceField.energy round env ff) :=
  ⟨minimizationStep_zero_gradient_exact env ff converganceValue drawn,
    fun hflag _ hround hrep hzero hnan =>
      rounded_minimizationStep_zero_gradient round env ff converganceValue drawn hflag hround
        hrep hzero hnan⟩

theorem minimizationStep_zero_gradient_witness :
    (∀ g ∈ ((exampleForceField 3 [exampleCalculation 1 true]).gradient exampleEnvironment).1,
        g = 0)
      ∧ (exampleForceField 3 [exampleCalculation 1 true]).energy exampleEnvironment ≠ nan
      ∧ ((exampleForceField 3 [exampleCalculation 1 true]).minimizationStep
          exampleEnvironment (num 1) 0).forceField
            = exampleForceField 3 [exampleCalculation 1 true]
      ∧ (exampleForceField 3 [exampleCalculation 1 true]).flags.AnalyticalGradient = true
      ∧ (exampleForceField 3 [exampleCalculation 1 true]).calculations.length < 5000
      ∧ roundDouble 0 = 0
      ∧ (∀ atom ∈ (exampleForceField 3 [exampleCalculation 1 true]).atoms,
          Rounded.Vector3.isRounded roundDouble atom.position)
      ∧ (∀ g ∈ (Rounded.ForceField.gradient roundDouble exampleEnvironment
          (exampleForceField 3 [exampleCalculation 1 true])).1, g = 0)
      ∧ Rounded.ForceField.energy roundDouble exampleEnvironment
          (exampleForceField 3 [exampleCalculation 1 true]) ≠ nan
      ∧ (Rounded.ForceField.minimizationStep roundDouble exampleEnvironment
          (exampleForceField 3 [exampleCalculation 1 true]) (num 1) 0).forceField
            = exampleForceField 3 [exampleCalculation 1 true] := by
  have hzero : ∀ g ∈
      ((exampleForceField 3 [exampleCalculation 1 true]).gradient exampleEnvironment).1,
        g = 0 := by
    simp [ForceField.gradient, exampleForceField, exampleCalculation, accumulate, addAt,
      ForceField.atomCount, Vector3.add_eq_mk, Vector3.zero_eq_mk, Float.zero_eq_num]
  have hnan : (exampleForceField 3 [exampleCalculation 1 true]).energy exampleEnvironment
      ≠ nan := by
    rw [energy_eq_sum]
    exact exampleCalculation_energy_ne_nan 1 true _
  have hround : roundDouble 0 = 0 := rfl
  have hrep : ∀ atom ∈ (exampleForceField 3 [exampleCalculation 1 true]).atoms,
      Rounded.Vector3.isRounded roundDouble atom.position := by
    unfold Rounded.Vector3.isRounded
    decide!
  have hzeroRounded : ∀ g ∈ (Rounded.ForceField.gradient roundDouble exampleEnvironment
      (exampleForceField 3 [exampleCalculation 1 true])).1, g = 0 := by
    decide!
  have hnanRounded : Rounded.ForceField.energy roundDouble exampleEnvironment
      (exampleForceField 3 [exampleCalculation 1 true]) ≠ nan := by
    decide!
  exact ⟨hzero, hnan,
    ((minimizationStep_zero_gradient roundDouble exampleEnvironment
      (exampleForceField 3 [exampleCalculation 1 true]) (num 1) 0).1 hzero hnan).1,
    rfl, by decide, hround, hrep, hzeroRounded, hnanRounded,
    ((minimizationStep_zero_gradient roundDouble exampleEnvironment
      (exampleForceField 3 [exampleCalculation 1 true]) (num 1) 0).2 rfl (by decide) hround
        hrep hzeroRounded hnanRounded).1⟩

end chemkit
